import Mathlib

/-!
# Role-partitioned user store of the aqylal backend

A shallow embedding of `aqylal_backend/middleware/verify.js`, of the role
migration handlers of `aqylal_backend/routes/users.js`, of the registration and
login handlers of `aqylal_backend/routes/auth.js`, of the command-line script
`aqylal_backend/changeRole.js`, of `POST /logout-all` of
`aqylal_backend/routes/sessions.js` and of `POST /assignments` of
`aqylal_backend/routes/results.js` with its validator; and, of the front end, of
`assignmentUtils.ts`, of the option handlers of `useAssignmentForm.ts` and of the
scene of `QuizGame.tsx`.

* The MySQL database is a record of tables. A role table is its list of rows
  together with its `AUTO_INCREMENT` counter; an `INSERT` that names no `id`
  takes the counter as `insertId` and advances it.
* The handlers run every statement through `db.query` on the pool, outside any
  transaction, so every statement that succeeded stays in the database when a
  later one rejects. A handler therefore maps a database to the database it
  leaves behind together with the response it sends.
* `faults k = true` makes the `k`-th `db.query` call of a request (counted from
  0 in execution order) reject; a rejected statement changes nothing.
* `jwt.sign` / `jwt.verify` are a payload round trip; `JWT_SECRET` is set, except
  where a handler tests it (`secretSet` in auth.js).
* Message texts of the JSON bodies are left out; the status, the `code` field,
  `newUserId` and the token are kept.
* A JavaScript call that throws a `TypeError` or a `ReferenceError` before it
  wrote anything leaves the state it ran on; the numbers of the front end (timers,
  points, minutes, pixels) are integers.
-/

namespace Aqylal

/-! ## Data model -/

/-- The four role tables. -/
inductive TableName where
  | users
  | teachers
  | moders
  | admins
  deriving DecidableEq, Repr

/-- A row of a role table (the columns the handlers read or write). -/
structure Row where
  id : Nat
  email : String
  login : String
  password : String
  role_id : Nat
  first_name : Option String
  last_name : Option String
  patronymic : Option String
  phone : Option String
  birth_date : Option String
  profileCompleted : Nat
  grade : Option Nat
  grade_letter : Option String
  deriving DecidableEq, Repr

/-- A role table: its rows and its `AUTO_INCREMENT` counter. -/
structure Table where
  rows : List Row
  autoInc : Nat
  deriving DecidableEq, Repr

/-- A row of `sessions`. -/
structure Session where
  id : Nat
  user_id : Nat
  token : String
  expires_at : String
  deriving DecidableEq, Repr

/-- A row of `user_settings`; `user_id` is unique-keyed. -/
structure Setting where
  user_id : Nat
  language : String
  deriving DecidableEq, Repr

/-- A row of `teacher_subjects`. -/
structure TeacherSubject where
  teacher_id : Nat
  subject_id : Nat
  deriving DecidableEq, Repr

/-- A row of `subjects`. -/
structure Subject where
  id : Nat
  name : String
  deriving DecidableEq, Repr

/-- The database. -/
structure DB where
  users : Table
  teachers : Table
  moders : Table
  admins : Table
  sessions : List Session
  user_settings : List Setting
  teacher_subjects : List TeacherSubject
  subjects : List Subject
  user_ids : List Nat
  deriving DecidableEq, Repr

/-- The role table called `t`. -/
def DB.table (db : DB) : TableName → Table
  | .users => db.users
  | .teachers => db.teachers
  | .moders => db.moders
  | .admins => db.admins

/-- Replace the role table called `t`. -/
def DB.setTable (db : DB) (t : TableName) (x : Table) : DB :=
  match t with
  | .users => { db with users := x }
  | .teachers => { db with teachers := x }
  | .moders => { db with moders := x }
  | .admins => { db with admins := x }

/-! ## SQL statements -/

/-- The statement `SELECT ... FROM t WHERE id = ?`. -/
def selectById (t : Table) (id : Nat) : List Row :=
  t.rows.filter (fun r => r.id == id)

/-- The statement `INSERT INTO t (columns without id) VALUES (...)`: the new row takes the
counter as its id, which is also the `insertId` of the result. -/
def insertAuto (t : Table) (mk : Nat → Row) : Table × Nat :=
  ({ rows := t.rows ++ [mk t.autoInc], autoInc := t.autoInc + 1 }, t.autoInc)

/-- The statement `DELETE FROM t WHERE id = ?`. -/
def deleteById (t : Table) (id : Nat) : Table :=
  { t with rows := t.rows.filter (fun r => r.id != id) }

/-- The rows of a `UNION`: duplicates are dropped, the first occurrence stays,
the blocks come in the order they are written. -/
def distinctRows {α : Type} [DecidableEq α] : List α → List α
  | [] => []
  | a :: l => a :: (distinctRows l).filter (fun b => b != a)

/-- The query `SELECT role_id FROM users WHERE id = ? UNION SELECT role_id FROM teachers
WHERE id = ? UNION ... moders ... UNION ... admins ...`. -/
def unionRoleIds (db : DB) (userId : Nat) : List Nat :=
  distinctRows
    ((selectById db.users userId).map (fun r => r.role_id) ++
     (selectById db.teachers userId).map (fun r => r.role_id) ++
     (selectById db.moders userId).map (fun r => r.role_id) ++
     (selectById db.admins userId).map (fun r => r.role_id))

/-- The statement `UPDATE sessions SET user_id = newUserId WHERE user_id = userId`. -/
def relinkSessions (sessions : List Session) (userId newUserId : Nat) : List Session :=
  sessions.map (fun s => if s.user_id == userId then { s with user_id := newUserId } else s)

/-- The statement `INSERT INTO user_settings (user_id, language) SELECT newUserId, language
FROM user_settings WHERE user_id = userId ON DUPLICATE KEY UPDATE user_id =
newUserId`: every selected row is inserted under `newUserId`, unless a row keyed
`newUserId` exists, in which case that row has its key set to the value it
already has. -/
def copySettings (settings : List Setting) (userId newUserId : Nat) : List Setting :=
  (settings.filter (fun s => s.user_id == userId)).foldl
    (fun acc s =>
      if acc.any (fun x => x.user_id == newUserId) then acc
      else acc ++ [{ user_id := newUserId, language := s.language }])
    settings

/-- The statement `INSERT INTO teacher_subjects (teacher_id, subject_id) SELECT newUserId,
subject_id FROM teacher_subjects WHERE teacher_id = userId`. -/
def copyTeacherSubjects (ts : List TeacherSubject) (userId newUserId : Nat) :
    List TeacherSubject :=
  ts ++ (ts.filter (fun r => r.teacher_id == userId)).map
    (fun r => { teacher_id := newUserId, subject_id := r.subject_id })

/-! ## Tokens and responses -/

/-- The claims signed into a token. -/
structure Payload where
  id : Nat
  role_id : Option Nat
  table_name : Option String
  deriving DecidableEq, Repr

/-- A token: one the server signed, or one `jwt.verify` refuses. -/
inductive Token where
  | signed (p : Payload)
  | refused
  deriving DecidableEq, Repr

/-- The call `jwt.sign(payload, JWT_SECRET, ...)`. -/
def jwt_sign (p : Payload) : Token := .signed p

/-- The call `jwt.verify(token, JWT_SECRET, cb)`: the payload, or an error. -/
def jwt_verify : Token → Option Payload
  | .signed p => some p
  | .refused => none

/-- What a handler or a middleware sends. -/
inductive Response where
  | error (status : Nat) (code : Option String)
  | ok
  | migrated (newUserId : Nat) (token : Token)
  deriving DecidableEq, Repr

/-- The `req.user` that `verifyToken` injects. -/
structure ReqUser where
  id : Nat
  role : Option String
  role_id : Nat
  table_name : TableName
  deriving DecidableEq, Repr

/-- A middleware either calls `next()` or answers. -/
inductive MwResult where
  | next (user : ReqUser)
  | respond (r : Response)
  deriving DecidableEq, Repr

/-! ## middleware/verify.js -/

/-- What reading a property of an object literal gives: a number the literal
holds, a member inherited from `Object.prototype` (kept as the string that a
comparison turns it into), or `undefined`. -/
inductive Member where
  | number (n : Nat)
  | inherited (primitive : String)
  | undefined
  deriving DecidableEq, Repr

/-- The members that every object literal inherits from `Object.prototype`, each
with the string its conversion to a primitive gives in Node: the source text of a
built-in function, and `[object Object]` for the prototype itself. -/
def objectPrototype : String → Option String
  | "constructor" => some "function Object() \x7b [native code] \x7d"
  | "__defineGetter__" => some "function __defineGetter__() \x7b [native code] \x7d"
  | "__defineSetter__" => some "function __defineSetter__() \x7b [native code] \x7d"
  | "hasOwnProperty" => some "function hasOwnProperty() \x7b [native code] \x7d"
  | "__lookupGetter__" => some "function __lookupGetter__() \x7b [native code] \x7d"
  | "__lookupSetter__" => some "function __lookupSetter__() \x7b [native code] \x7d"
  | "isPrototypeOf" => some "function isPrototypeOf() \x7b [native code] \x7d"
  | "propertyIsEnumerable" => some "function propertyIsEnumerable() \x7b [native code] \x7d"
  | "toString" => some "function toString() \x7b [native code] \x7d"
  | "valueOf" => some "function valueOf() \x7b [native code] \x7d"
  | "__proto__" => some "[object Object]"
  | "toLocaleString" => some "function toLocaleString() \x7b [native code] \x7d"
  | _ => none

/-- The expression `roleHierarchy[name]` in `hasRole`: the object literal holds
the four role names, and every other name is looked up in `Object.prototype`. -/
def roleHierarchy (name : String) : Member :=
  match name with
  | "admin" => .number 1
  | "teacher" => .number 2
  | "moderator" => .number 3
  | "student" => .number 4
  | _ =>
    match objectPrototype name with
    | some primitive => .inherited primitive
    | none => .undefined

/-- The comparison `a < b` of two strings, code unit by code unit. -/
def textLess : List Char → List Char → Bool
  | _, [] => false
  | [], _ :: _ => true
  | a :: as, b :: bs =>
    if a.toNat < b.toNat then true
    else if b.toNat < a.toNat then false
    else textLess as bs

/-- The function `hasRole(userRole, requiredRoles)`: `roleHierarchy[userRole] >=
roleHierarchy[requiredRoles]`. Two numbers are compared as numbers and two
inherited members as strings; a comparison with `undefined`, and one of a number
with an inherited member (which becomes `NaN`), is false. A user without role
reads `roleHierarchy[undefined]`, which is `undefined`. -/
def hasRole (userRole : Option String) (requiredRoles : String) : Bool :=
  let ofUser : Member :=
    match userRole with
    | some name => roleHierarchy name
    | none => .undefined
  match ofUser, roleHierarchy requiredRoles with
  | .number a, .number b => decide (a ≥ b)
  | .inherited s, .inherited t => !textLess s.data t.data
  | _, _ => false

/-- The object `roleMap`. -/
def roleMap : Nat → Option String
  | 1 => some "admin"
  | 2 => some "moderator"
  | 3 => some "teacher"
  | 4 => some "student"
  | _ => none

/-- The table a `table_name` claim names, when it is one of `["users",
"teachers", "admins", "moders"]`. -/
def tableOfName : String → Option TableName
  | "users" => some .users
  | "teachers" => some .teachers
  | "admins" => some .admins
  | "moders" => some .moders
  | _ => none

/-- The middleware `verifyToken` (lines 15-80). -/
def verifyToken (faults : Nat → Bool) (db : DB) (cookie : Option Token) : MwResult :=
  match cookie with
  | none => .respond (.error 401 (some "TOKEN_MISSING"))
  | some token =>
    match jwt_verify token with
    | none => .respond (.error 403 (some "INVALID_TOKEN"))
    | some decoded =>
      match decoded.table_name.bind tableOfName with
      | none => .respond (.error 400 (some "INVALID_TABLE_NAME"))
      | some tableName =>
        if faults 0 then .respond (.error 500 (some "SERVER_ERROR"))
        else
          match selectById (db.table tableName) decoded.id with
          | [] => .respond (.error 404 (some "USER_NOT_FOUND"))
          | u :: _ =>
            .next { id := decoded.id, role := roleMap u.role_id, role_id := u.role_id,
                    table_name := tableName }

/-- The middleware `checkRole(requiredRole)` (lines 83-91), applied after
`verifyToken` set `req.user`. -/
def checkRole (requiredRole : String) (user : ReqUser) : MwResult :=
  if !hasRole user.role requiredRole then
    .respond (.error 403 (some "INSUFFICIENT_PERMISSIONS"))
  else .next user

/-- The function `checkModerator` declared in verify.js (lines 110-118); the
module does not export it. -/
def checkModeratorLocal (user : ReqUser) : MwResult :=
  if user.role_id ≠ 1 ∧ user.role_id ≠ 2 then
    .respond (.error 403 (some "ACCESS_DENIED"))
  else .next user

/-- The export `checkModerator: checkRole('moderator')`, which users.js imports. -/
def checkModerator (user : ReqUser) : MwResult := checkRole "moderator" user

/-! ## routes/users.js -/

/-- The `switch` that maps a role id to its table (`case 1: "admins"`, `case 2:
"moders"`, `case 3: "teachers"`, `case 4: "users"`, `default:` answer 400). -/
def tableOfRole : Nat → Option TableName
  | 1 => some .admins
  | 2 => some .moders
  | 3 => some .teachers
  | 4 => some .users
  | _ => none

/-- JavaScript truthiness of a numeric body field that may be absent. -/
def truthy : Option Nat → Bool
  | some n => n != 0
  | none => false

/-- The row the migration inserts: the ten listed columns, `role_id` being the
requested role; the columns not listed take their default. -/
def migratedRow (oldUser : Row) (roleId newId : Nat) : Row :=
  { id := newId, email := oldUser.email, login := oldUser.login,
    password := oldUser.password, role_id := roleId,
    first_name := oldUser.first_name, last_name := oldUser.last_name,
    patronymic := oldUser.patronymic, phone := oldUser.phone,
    birth_date := oldUser.birth_date, profileCompleted := oldUser.profileCompleted,
    grade := none, grade_letter := none }

/-- The cross-table block, which `PUT /profile` (lines 116-171) and `PUT
/update-role` (lines 455-505) both contain, statement for statement; `k` is the
number of `db.query` calls the request made before the block. -/
def crossTableMove (faults : Nat → Bool) (k : Nat) (db : DB)
    (sourceTable targetTable : TableName) (userId roleId : Nat) : DB × Response :=
  if faults k then (db, .error 500 none)
  else
    match selectById (db.table sourceTable) userId with
    | [] => (db, .error 404 none)
    | oldUser :: _ =>
      if faults (k + 1) then (db, .error 500 none)
      else
        let newResult := insertAuto (db.table targetTable) (migratedRow oldUser roleId)
        let newUserId := newResult.2
        let db1 := db.setTable targetTable newResult.1
        if faults (k + 2) then (db1, .error 500 none)
        else
          let db2 := { db1 with sessions := relinkSessions db1.sessions userId newUserId }
          if faults (k + 3) then (db2, .error 500 none)
          else
            let db3 := { db2 with
              user_settings := copySettings db2.user_settings userId newUserId }
            let newToken := jwt_sign
              { id := newUserId, role_id := some roleId, table_name := none }
            if roleId = 3 then
              if faults (k + 4) then (db3, .error 500 none)
              else
                let db4 := { db3 with
                  teacher_subjects := copyTeacherSubjects db3.teacher_subjects userId newUserId }
                if faults (k + 5) then (db4, .error 500 none)
                else
                  (db4.setTable sourceTable (deleteById (db4.table sourceTable) userId),
                   .migrated newUserId newToken)
            else
              if faults (k + 4) then (db3, .error 500 none)
              else
                (db3.setTable sourceTable (deleteById (db3.table sourceTable) userId),
                 .migrated newUserId newToken)

/-- The body of `PUT /users/update-role`. -/
structure UpdateRoleBody where
  userId : Option Nat
  newRoleId : Option Nat
  deriving DecidableEq, Repr

/-- The statement `UPDATE t SET role_id = ? WHERE id = ?`. -/
def setRoleById (t : Table) (roleId userId : Nat) : Table :=
  { t with
    rows := t.rows.map (fun r => if r.id == userId then { r with role_id := roleId } else r) }

/-- The handler of `PUT /update-role` (lines 410-519), run with `req.user`. -/
def updateRole (faults : Nat → Bool) (db : DB) (user : ReqUser) (body : UpdateRoleBody) :
    DB × Response :=
  let currentUserRoleId := user.role_id
  let validRoles := [1, 2, 3, 4]
  if !truthy body.userId || !truthy body.newRoleId
      || !validRoles.contains (body.newRoleId.getD 0) then
    (db, .error 400 none)
  else
    let userId := body.userId.getD 0
    let newRoleId := body.newRoleId.getD 0
    if faults 0 then (db, .error 500 none)
    else
      match unionRoleIds db userId with
      | [] => (db, .error 404 none)
      | targetUserRoleId :: _ =>
        if currentUserRoleId = 2 ∧ (targetUserRoleId = 1 ∨ targetUserRoleId = 2) then
          (db, .error 403 none)
        else
          match tableOfRole targetUserRoleId with
          | none => (db, .error 400 none)
          | some sourceTable =>
            match tableOfRole newRoleId with
            | none => (db, .error 400 none)
            | some targetTable =>
              if sourceTable ≠ targetTable then
                crossTableMove faults 1 db sourceTable targetTable userId newRoleId
              else if faults 1 then (db, .error 500 none)
              else
                (db.setTable sourceTable
                  (setRoleById (db.table sourceTable) newRoleId userId), .ok)

/-- The body of `PUT /users/profile`. -/
structure ProfileBody where
  first_name : Option String
  last_name : Option String
  patronymic : Option String
  login : Option String
  phone : Option String
  birth_date : Option String
  grade : Option Nat
  grade_letter : Option String
  role_id : Option Nat
  subject : Option (List String)
  deriving DecidableEq, Repr

/-- The value of `a || b` on a numeric field that may be absent. -/
def orElse (a : Option Nat) (b : Nat) : Nat :=
  if truthy a then a.getD 0 else b

/-- The `UPDATE ... SET c = COALESCE(?, c), ..., profileCompleted = TRUE WHERE id
= ?` of `PUT /profile`; `grade` and `grade_letter` are set only on `users`. -/
def updateProfileRow (isUsers : Bool) (body : ProfileBody) (r : Row) : Row :=
  { r with
    first_name := body.first_name.orElse (fun _ => r.first_name),
    last_name := body.last_name.orElse (fun _ => r.last_name),
    patronymic := body.patronymic.orElse (fun _ => r.patronymic),
    login := body.login.getD r.login,
    phone := body.phone.orElse (fun _ => r.phone),
    birth_date := body.birth_date.orElse (fun _ => r.birth_date),
    grade := if isUsers then body.grade.orElse (fun _ => r.grade) else r.grade,
    grade_letter :=
      if isUsers then body.grade_letter.orElse (fun _ => r.grade_letter) else r.grade_letter,
    profileCompleted := 1 }

/-- The `UPDATE` of `PUT /profile` on the row whose id is `userId`. -/
def updateProfileById (t : Table) (isUsers : Bool) (body : ProfileBody) (userId : Nat) : Table :=
  { t with
    rows := t.rows.map (fun r => if r.id == userId then updateProfileRow isUsers body r else r) }

/-- The loop over `subject` of `PUT /profile`: `SELECT id FROM subjects WHERE name
= ?`, then `INSERT IGNORE INTO teacher_subjects` for a name that exists. The
result holds the database reached and whether no statement rejected. -/
def insertSubjects (faults : Nat → Bool) (userId : Nat) :
    List String → Nat → DB → DB × Bool
  | [], _, db => (db, true)
  | subjName :: rest, k, db =>
    if faults k then (db, false)
    else
      match db.subjects.filter (fun s => s.name == subjName) with
      | [] => insertSubjects faults userId rest (k + 1) db
      | subjectRow :: _ =>
        if faults (k + 1) then (db, false)
        else
          let row : TeacherSubject := { teacher_id := userId, subject_id := subjectRow.id }
          insertSubjects faults userId rest (k + 2)
            { db with
              teacher_subjects :=
                if db.teacher_subjects.contains row then db.teacher_subjects
                else db.teacher_subjects ++ [row] }

/-- The tail of `PUT /profile` (lines 174-209), reached when the request asks for
no cross-table move: the `UPDATE` of the profile columns, then, for a teacher who
sends an array `subject`, the replacement of the teacher's subjects. -/
def updateProfileInPlace (faults : Nat → Bool) (db : DB) (userId currentRoleId : Nat)
    (body : ProfileBody) : DB × Response :=
  let role_id := body.role_id
  let targetTable : TableName :=
    if orElse role_id currentRoleId = 4 then .users
    else if orElse role_id currentRoleId = 3 then .teachers
    else if orElse role_id currentRoleId = 2 then .moders
    else .admins
  if faults 0 then (db, .error 500 none)
  else
    let db1 := db.setTable targetTable
      (updateProfileById (db.table targetTable) (decide (targetTable = .users)) body userId)
    match (if orElse role_id currentRoleId = 3 then body.subject else none) with
    | some subject =>
      if faults 1 then (db1, .error 500 none)
      else
        let db2 := { db1 with
          teacher_subjects := db1.teacher_subjects.filter (fun r => r.teacher_id != userId) }
        let done := insertSubjects faults userId subject 2 db2
        if done.2 then (done.1, .ok) else (done.1, .error 500 none)
    | none => (db1, .ok)

/-- The handler of `PUT /profile` (lines 89-214), run with `req.user`. -/
def updateProfile (faults : Nat → Bool) (db : DB) (user : ReqUser) (body : ProfileBody) :
    DB × Response :=
  let userId := user.id
  let currentRoleId := user.role_id
  let role_id := body.role_id
  match tableOfRole currentRoleId with
  | none => (db, .error 400 none)
  | some sourceTable =>
    if truthy role_id ∧ role_id.getD 0 ≠ currentRoleId then
      match tableOfRole (role_id.getD 0) with
      | none => (db, .error 400 none)
      | some newTable =>
        if sourceTable ≠ newTable then
          crossTableMove faults 0 db sourceTable newTable userId (role_id.getD 0)
        else updateProfileInPlace faults db userId currentRoleId body
    else updateProfileInPlace faults db userId currentRoleId body

/-! ## The two HTTP entry points of the migration -/

/-- The middleware chain of `router.put("/update-role", verifyToken,
checkModerator, ...)`. -/
def updateRoleChain (faults : Nat → Bool) (db : DB) (cookie : Option Token) : MwResult :=
  match verifyToken faults db cookie with
  | .next user => checkModerator user
  | .respond r => .respond r

/-- The route `PUT /users/update-role`: `faultsMw` is for the query of the
middleware, `faults` for those of the handler. -/
def putUpdateRole (faultsMw faults : Nat → Bool) (db : DB) (cookie : Option Token)
    (body : UpdateRoleBody) : DB × Response :=
  match updateRoleChain faultsMw db cookie with
  | .next user => updateRole faults db user body
  | .respond r => (db, r)

/-- The route `PUT /users/profile`. -/
def putProfile (faultsMw faults : Nat → Bool) (db : DB) (cookie : Option Token)
    (body : ProfileBody) : DB × Response :=
  match verifyToken faultsMw db cookie with
  | .next user => updateProfile faults db user body
  | .respond r => (db, r)

/-- A request to one of the two handlers that can migrate a user. -/
inductive MigrationRequest where
  | viaUpdateRole (user : ReqUser) (body : UpdateRoleBody)
  | viaProfile (user : ReqUser) (body : ProfileBody)
  deriving DecidableEq, Repr

/-- Run the handler the request is for. -/
def handle (faults : Nat → Bool) (db : DB) : MigrationRequest → DB × Response
  | .viaUpdateRole user body => updateRole faults db user body
  | .viaProfile user body => updateProfile faults db user body

/-- The id of the user a request is about: `req.body.userId` for
`/update-role`, `req.user.id` for `/profile`. -/
def MigrationRequest.userId : MigrationRequest → Nat
  | .viaUpdateRole _ body => body.userId.getD 0
  | .viaProfile user _ => user.id

/-- The role a request asks for: `newRoleId`, respectively `role_id`. -/
def MigrationRequest.targetRole : MigrationRequest → Nat
  | .viaUpdateRole _ body => body.newRoleId.getD 0
  | .viaProfile _ body => body.role_id.getD 0

/-- The table a handler takes the subject from: `/update-role` maps the
`role_id` of the first row of its `UNION` lookup, `/profile` maps
`req.user.role_id`. -/
def MigrationRequest.sourceTable (db : DB) : MigrationRequest → Option TableName
  | .viaUpdateRole _ body => (unionRoleIds db (body.userId.getD 0)).head?.bind tableOfRole
  | .viaProfile user _ => tableOfRole user.role_id

/-- No statement rejects. -/
def noFaults : Nat → Bool := fun _ => false

/-- Only the `db.query` call numbered `j` rejects. -/
def failAt (j : Nat) : Nat → Bool := fun i => i == j

/-! ## The outcome of a completed move -/

/-- The database a cross-table move leaves when no statement rejects. -/
def movedDB (db : DB) (sourceTable targetTable : TableName) (userId roleId : Nat)
    (oldUser : Row) : DB :=
  let newUserId := (db.table targetTable).autoInc
  let db1 := db.setTable targetTable
    (insertAuto (db.table targetTable) (migratedRow oldUser roleId)).1
  let db3 := { db1 with
    sessions := relinkSessions db.sessions userId newUserId,
    user_settings := copySettings db.user_settings userId newUserId,
    teacher_subjects :=
      if roleId = 3 then copyTeacherSubjects db.teacher_subjects userId newUserId
      else db.teacher_subjects }
  db3.setTable sourceTable (deleteById (db3.table sourceTable) userId)

/-! ## routes/auth.js

The handlers run once the `express-validator` chain in front of them has
accepted the body. `bcrypt.hash` and `bcrypt.compare` are parameters. The column
`verified` of `users`, which no statement modelled here reads, is left out.
`user_ids.id` and `user_settings.user_id` are keys of their tables, so a plain
`INSERT` of a value that is present rejects. -/

/-- The body of `POST /auth/register`. -/
structure RegisterBody where
  email : String
  password : String
  login : String
  deriving DecidableEq, Repr

/-- The body of `POST /auth/login`. -/
structure LoginBody where
  identifier : String
  password : String
  deriving DecidableEq, Repr

/-- What the handlers of auth.js send: an error status, or the JSON of a
registration or of a login together with the token put in the cookie. -/
inductive AuthResponse where
  | error (status : Nat)
  | registered (userId : Nat) (role : Option String) (table_name : String)
      (profileCompleted : Nat) (token : Token)
  | loggedIn (userId : Nat) (table_name : String) (role : Option String)
      (profileCompleted : Nat) (token : Token)
  deriving DecidableEq, Repr

/-- The statement `INSERT INTO user_ids (id) VALUES (?)`; `none` when the id is
present. -/
def insertUserId (ids : List Nat) (x : Nat) : Option (List Nat) :=
  if ids.contains x then none else some (ids ++ [x])

/-- The statement `INSERT IGNORE INTO user_ids (id) VALUES (?)`. -/
def insertIgnoreUserId (ids : List Nat) (x : Nat) : List Nat :=
  if ids.contains x then ids else ids ++ [x]

/-- The statement `INSERT INTO user_settings (user_id, language) VALUES (?, ?)`;
`none` when a row with that `user_id` is present. -/
def insertSetting (settings : List Setting) (s : Setting) : Option (List Setting) :=
  if settings.any (fun x => x.user_id == s.user_id) then none else some (settings ++ [s])

/-- The row `POST /auth/register` inserts into `users`. -/
def registeredRow (body : RegisterBody) (hashedPassword : String) (newId : Nat) : Row :=
  { id := newId, email := body.email, login := body.login, password := hashedPassword,
    role_id := 4, first_name := some "", last_name := some "", patronymic := none,
    phone := none, birth_date := none, profileCompleted := 0, grade := none,
    grade_letter := none }

/-- The handler of `POST /auth/register` (auth.js lines 90-143); `secretSet` says
whether `process.env.JWT_SECRET` is defined. -/
def register (hash : String → String) (secretSet : Bool) (faults : Nat → Bool) (db : DB)
    (body : RegisterBody) : DB × AuthResponse :=
  let hashedPassword := hash body.password
  let role_id := 4
  if faults 0 then (db, .error 500)
  else
    let result := insertAuto db.users (registeredRow body hashedPassword)
    let db1 := { db with users := result.1 }
    if faults 1 then (db1, .error 500)
    else
      match insertUserId db1.user_ids result.2 with
      | none => (db1, .error 500)
      | some ids =>
        let db2 := { db1 with user_ids := ids }
        if faults 2 then (db2, .error 500)
        else
          match insertSetting db2.user_settings { user_id := result.2, language := "ru" } with
          | none => (db2, .error 500)
          | some settings =>
            let db3 := { db2 with user_settings := settings }
            if !secretSet then (db3, .error 500)
            else
              (db3, .registered result.2 (roleMap role_id) "users" 0
                (jwt_sign { id := result.2, role_id := some role_id,
                            table_name := some "users" }))

/-- A row of the `UNION` of `POST /auth/login`. -/
structure LoginRow where
  id : Nat
  email : String
  login : String
  password : String
  role_id : Nat
  first_name : Option String
  last_name : Option String
  profileCompleted : Option Nat
  table_name : String
  deriving DecidableEq, Repr

/-- The name of a role table, as the login query writes it in `table_name`. -/
def TableName.name : TableName → String
  | .users => "users"
  | .teachers => "teachers"
  | .moders => "moders"
  | .admins => "admins"

/-- The columns the login query selects from a row of table `t`: the blocks for
`admins` and `moders` select `NULL` for the names and for `profileCompleted`. -/
def loginRowOf (t : TableName) (r : Row) : LoginRow :=
  let full := decide (t = .users ∨ t = .teachers)
  { id := r.id, email := r.email, login := r.login, password := r.password,
    role_id := r.role_id,
    first_name := if full then r.first_name else none,
    last_name := if full then r.last_name else none,
    profileCompleted := if full then some r.profileCompleted else none,
    table_name := t.name }

/-- One block of the login query: `SELECT ... FROM t WHERE email = ? OR login = ?`. -/
def loginSelect (db : DB) (t : TableName) (identifier : String) : List LoginRow :=
  ((db.table t).rows.filter (fun r => r.email == identifier || r.login == identifier)).map
    (loginRowOf t)

/-- The login query: the blocks for `users`, `teachers`, `admins`, `moders`, in
this order, joined by `UNION`. -/
def loginMatches (db : DB) (identifier : String) : List LoginRow :=
  distinctRows
    (loginSelect db .users identifier ++ loginSelect db .teachers identifier ++
     loginSelect db .admins identifier ++ loginSelect db .moders identifier)

/-- The handler of `POST /auth/login` (auth.js lines 151-224). -/
def login (compare : String → String → Bool) (secretSet : Bool) (faults : Nat → Bool)
    (db : DB) (body : LoginBody) : DB × AuthResponse :=
  if faults 0 then (db, .error 500)
  else
    match loginMatches db body.identifier with
    | [] => (db, .error 401)
    | user :: _ =>
      if user.password = "" then (db, .error 500)
      else if !compare body.password user.password then (db, .error 401)
      else if !secretSet then (db, .error 500)
      else
        (db, .loggedIn user.id user.table_name (roleMap user.role_id)
          (user.profileCompleted.getD 0)
          (jwt_sign { id := user.id, role_id := some user.role_id,
                      table_name := some user.table_name }))

/-! ## changeRole.js

The script gets `userId` and `newRole` on the command line and runs its
statements on one connection, with no transaction. `isoDate` is the date part of
`new Date(d).toISOString()`. -/

/-- The characters that `trim()` removes and `parseInt` skips: white space and
line terminators. -/
def isBlank (c : Char) : Bool :=
  (decide (9 ≤ c.toNat) && decide (c.toNat ≤ 13)) || c.toNat == 0x20 || c.toNat == 0xA0 ||
  c.toNat == 0x1680 || (decide (0x2000 ≤ c.toNat) && decide (c.toNat ≤ 0x200A)) ||
  c.toNat == 0x2028 || c.toNat == 0x2029 || c.toNat == 0x202F || c.toNat == 0x205F ||
  c.toNat == 0x3000 || c.toNat == 0xFEFF

/-- The numbers the object `validRoles` of changeRole.js holds. -/
def validRoles : String → Option Nat
  | "student" => some 4
  | "teacher" => some 3
  | "moderator" => some 2
  | "admin" => some 1
  | _ => none

/-- The method `toLowerCase`, on the letters A to Z. No other character has a
lower case that spells one of the names the script looks up. -/
def toLowerCase (s : String) : String :=
  String.mk (s.data.map Char.toLower)

/-- The value of a character as a digit of the given radix. -/
def digitIn (radix : Nat) (c : Char) : Option Nat :=
  let value : Option Nat :=
    if '0'.toNat ≤ c.toNat ∧ c.toNat ≤ '9'.toNat then some (c.toNat - '0'.toNat)
    else if 'a'.toNat ≤ c.toNat ∧ c.toNat ≤ 'z'.toNat then some (c.toNat - 'a'.toNat + 10)
    else if 'A'.toNat ≤ c.toNat ∧ c.toNat ≤ 'Z'.toNat then some (c.toNat - 'A'.toNat + 10)
    else none
  match value with
  | some v => if v < radix then some v else none
  | none => none

/-- The function `parseInt(string)` without a radix: leading white space is
skipped, a sign is read, `0x` or `0X` selects radix 16 and anything else radix
10, and the longest run of digits that follows is the number; `NaN` (`none`) when
there is no digit. The rounding of numbers from 2^53 on is left out. -/
def parseInt (s : String) : Option Int :=
  let trimmed := s.data.dropWhile isBlank
  let negative : Bool :=
    match trimmed with
    | '-' :: _ => true
    | _ => false
  let unsigned : List Char :=
    match trimmed with
    | '-' :: rest => rest
    | '+' :: rest => rest
    | _ => trimmed
  let radix : Nat :=
    match unsigned with
    | '0' :: 'x' :: _ => 16
    | '0' :: 'X' :: _ => 16
    | _ => 10
  let body : List Char := if radix = 16 then unsigned.drop 2 else unsigned
  match body.takeWhile (fun c => (digitIn radix c).isSome) with
  | [] => none
  | digits =>
    let number : Nat := digits.foldl (fun n c => radix * n + (digitIn radix c).getD 0) 0
    some (if negative then -(number : Int) else (number : Int))

/-- The value of `validRoles[newRole.toLowerCase()] || parseInt(newRole)`, when it
is one of `Object.values(validRoles)`. For `constructor` and `__proto__` the
lookup finds a member inherited from `Object.prototype`: an object, which is
truthy and none of the values. -/
def roleIdOf (newRole : String) : Option Nat :=
  if (objectPrototype (toLowerCase newRole)).isSome then none
  else
    let roleId : Option Int :=
      match validRoles (toLowerCase newRole) with
      | some r => some (r : Int)
      | none => parseInt newRole
    match roleId with
    | some r => if [(4 : Int), 3, 2, 1].contains r then some r.toNat else none
    | none => none

/-- The object `roleToTable` of changeRole.js. -/
def roleToTable : Nat → Option TableName
  | 1 => some .admins
  | 2 => some .moders
  | 3 => some .teachers
  | 4 => some .users
  | _ => none

/-- How the script ends: with `process.exit(1)` for a role it does not know, for
a user it does not find and for an error it catches, with `process.exit(0)` when
the user has the role already and when the role was changed. -/
inductive ToolOutcome where
  | invalidRole
  | notFound
  | already
  | changed
  | failed
  deriving DecidableEq, Repr

/-- The result of the loop over `tables`: a query rejected, no table has the id,
or the first table that has it, with its first row and the number of queries
made. -/
inductive Probe where
  | threw
  | missing
  | found (table : TableName) (row : Row) (asked : Nat)
  deriving DecidableEq, Repr

/-- The loop `for (const table of tables)` of changeRole.js (lines 47-59). -/
def probeTables (faults : Nat → Bool) (db : DB) (userId : Nat) :
    List TableName → Nat → Probe
  | [], _ => .missing
  | table :: rest, k =>
    if faults k then .threw
    else
      match selectById (db.table table) userId with
      | [] => probeTables faults db userId rest (k + 1)
      | row :: _ => .found table row (k + 1)

/-- The statement `INSERT INTO t (id, ...) VALUES (?, ...)` with the id given:
`none` when the primary key is taken; the counter moves past the id. -/
def insertWithId (t : Table) (r : Row) : Option Table :=
  if (selectById t r.id).isEmpty then
    some { rows := t.rows ++ [r], autoInc := max t.autoInc (r.id + 1) }
  else none

/-- The row changeRole.js inserts into the target table (`insertValues`). -/
def toolRow (isoDate : String → String) (currentUser : Row) (userId roleId : Nat) : Row :=
  { id := userId, email := currentUser.email, login := currentUser.login,
    password := currentUser.password, role_id := roleId,
    first_name := currentUser.first_name, last_name := currentUser.last_name,
    patronymic := currentUser.patronymic, phone := currentUser.phone,
    birth_date := currentUser.birth_date.map isoDate,
    profileCompleted := currentUser.profileCompleted, grade := none, grade_letter := none }

/-- The statement `UPDATE user_settings SET user_id = newId WHERE user_id = userId`. -/
def relinkSettings (settings : List Setting) (userId newId : Nat) : List Setting :=
  settings.map (fun s => if s.user_id == userId then { s with user_id := newId } else s)

/-- The end of the script (changeRole.js lines 160-172): the `DELETE` from the
table the user was found in and the final check; `j` is the number of queries
made before. -/
def changeRoleFinish (faults : Nat → Bool) (db : DB) (userId : Nat)
    (currentTable targetTable : TableName) (j : Nat) : DB × ToolOutcome :=
  if faults j then (db, .failed)
  else
    let db4 := db.setTable currentTable (deleteById (db.table currentTable) userId)
    if faults (j + 1) then (db4, .failed)
    else if (selectById (db4.table targetTable) userId).isEmpty then (db4, .failed)
    else (db4, .changed)

/-- The updates of `sessions` and of `user_settings`, each followed by its check
(changeRole.js lines 124-158), then the end of the script. -/
def changeRoleRelink (faults : Nat → Bool) (db : DB) (userId : Nat)
    (currentTable targetTable : TableName) (j : Nat) : DB × ToolOutcome :=
  if faults j then (db, .failed)
  else
    let db2 := { db with sessions := relinkSessions db.sessions userId userId }
    if faults (j + 1) then (db2, .failed)
    else if (selectById (db2.table targetTable) userId).isEmpty then (db2, .failed)
    else if faults (j + 2) then (db2, .failed)
    else
      let db3 := { db2 with user_settings := relinkSettings db2.user_settings userId userId }
      if faults (j + 3) then (db3, .failed)
      else if (selectById (db3.table targetTable) userId).isEmpty then (db3, .failed)
      else changeRoleFinish faults db3 userId currentTable targetTable (j + 4)

/-- The script from the insert into the target table on (changeRole.js lines
97-172): the insert and its check, then the rest. -/
def changeRoleTail (isoDate : String → String) (faults : Nat → Bool) (db : DB)
    (userId roleId : Nat) (currentTable targetTable : TableName) (currentUser : Row)
    (j : Nat) : DB × ToolOutcome :=
  if faults j then (db, .failed)
  else
    match insertWithId (db.table targetTable) (toolRow isoDate currentUser userId roleId) with
    | none => (db, .failed)
    | some inserted =>
      let db1 := db.setTable targetTable inserted
      if faults (j + 1) then (db1, .failed)
      else if (selectById (db1.table targetTable) userId).isEmpty then (db1, .failed)
      else changeRoleRelink faults db1 userId currentTable targetTable (j + 2)

/-- The script, run with `userId` and `newRole` (changeRole.js lines 21-179). -/
def changeRole (isoDate : String → String) (faults : Nat → Bool) (db : DB) (userId : Nat)
    (newRole : String) : DB × ToolOutcome :=
  match roleIdOf newRole with
  | none => (db, .invalidRole)
  | some roleId =>
    match probeTables faults db userId [.users, .teachers, .moders, .admins] 0 with
    | .threw => (db, .failed)
    | .missing => (db, .notFound)
    | .found currentTable currentUser k =>
      if currentUser.role_id = roleId then (db, .already)
      else
        match roleToTable roleId with
        | none => (db, .failed)
        | some targetTable =>
          if faults k then (db, .failed)
          else
            let db1 := { db with user_ids := insertIgnoreUserId db.user_ids userId }
            if faults (k + 1) then (db1, .failed)
            else if !(selectById (db1.table targetTable) userId).isEmpty then
              if faults (k + 2) then (db1, .failed)
              else
                changeRoleTail isoDate faults
                  (db1.setTable targetTable (deleteById (db1.table targetTable) userId))
                  userId roleId currentTable targetTable currentUser (k + 3)
            else
              changeRoleTail isoDate faults db1 userId roleId currentTable targetTable
                currentUser (k + 2)

/-! ## middleware/verify.js: the teacher check -/

/-- The function `checkTeacher` declared in verify.js (lines 93-101); the module
does not export it. -/
def checkTeacherLocal (user : ReqUser) : MwResult :=
  if user.role_id ≠ 3 then
    .respond (.error 403 (some "ACCESS_DENIED"))
  else .next user

/-- The export `checkTeacher: checkRole('teacher')`, which results.js imports. -/
def checkTeacher (user : ReqUser) : MwResult := checkRole "teacher" user

/-- The four role names, most privileged first (the order of `roleMap`: role_id
1, 2, 3, 4). -/
def roleNames : List String := ["admin", "moderator", "teacher", "student"]

/-! ## routes/sessions.js

The module requires `express` and `verifyToken` and declares `router`; it has no
`require("../db")`. Evaluating the identifier `db` in a module that does not bind
it throws a `ReferenceError`. -/

/-- The identifiers that the top level of sessions.js binds (lines 1-4). -/
def sessionsBindings : List String := ["express", "verifyToken", "router"]

/-- The statement `DELETE FROM sessions WHERE user_id = ?`. -/
def deleteSessions (sessions : List Session) (userId : Nat) : List Session :=
  sessions.filter (fun s => s.user_id != userId)

/-- The handler of `router.post("/logout-all", verifyToken, ...)` (lines 24-43),
read in a module whose top level binds the identifiers `bindings`. The first
statement of the `try` block evaluates `db.query`: with `db` unbound that throws,
and the `catch` answers 500; with `db` bound the statement runs (and may reject,
which the `catch` answers with 500 as well). -/
def logoutAllIn (bindings : List String) (faults : Nat → Bool) (db : DB) (user : ReqUser) :
    DB × Response :=
  if !bindings.contains "db" then (db, .error 500 none)
  else if faults 0 then (db, .error 500 none)
  else ({ db with sessions := deleteSessions db.sessions user.id }, .ok)

/-- The handler of `/logout-all` as sessions.js has it. -/
def logoutAll (faults : Nat → Bool) (db : DB) (user : ReqUser) : DB × Response :=
  logoutAllIn sessionsBindings faults db user

/-- The route `POST /sessions/logout-all`. -/
def postLogoutAll (faultsMw faults : Nat → Bool) (db : DB) (cookie : Option Token) :
    DB × Response :=
  match verifyToken faultsMw db cookie with
  | .next user => logoutAll faults db user
  | .respond r => (db, r)

/-! ## The JSON of a game question

A question of a game assignment as the form builds it, as the server receives it
and as the game plays it. Numbers are integers (the form offers the timers 5,
10, 20, 30, 60 and the points 500, 1000, 1500, 2000); fractions and `NaN` are
outside the model. -/

/-- The interface `MatchingPair`. -/
structure MatchingPair where
  id : String
  left : String
  right : String
  correct : Bool
  deriving DecidableEq, Repr

/-- The interface `Position`. -/
structure Position where
  x : Int
  y : Int
  deriving DecidableEq, Repr

/-- A value of the arrays `options`, `correct_answers` and `option_colors`: a
string, a pair object, `undefined` (what an index outside an array reads) or
`null`. Two pair objects of the form count as the same object when their fields
agree. -/
inductive Val where
  | text (s : String)
  | pair (p : MatchingPair)
  | undefined
  | null
  deriving DecidableEq, Repr

/-- The field `correct_answers`: a single value (the string of a true/false
question, `null`, or `undefined` when the field is missing) or an array. -/
inductive Answers where
  | value (v : Val)
  | list (l : List Val)
  deriving DecidableEq, Repr

/-! ## routes/results.js: creating an assignment -/

/-- The field `correct_position` of a received task: `x` and `y`, each a number
or not. -/
structure JsonPosition where
  x : Option Int
  y : Option Int
  deriving DecidableEq, Repr

/-- The field `correct_answer` of a received task. -/
inductive Scalar where
  | text (s : String)
  | number (n : Int)
  | absent
  deriving DecidableEq, Repr

/-- An element of `game_tasks` as the validator reads it. A missing string is
`""`; `options` is `none` when it is not an array; a numeric field is `none` when
it is not a number. -/
structure GameTaskJson where
  question : String
  question_type : String
  options : Option (List Val)
  correct_answers : Answers
  correct_answer : Scalar
  min : Option Int
  max : Option Int
  pieces : Option Int
  image : Option String
  correct_position : Option JsonPosition
  option_colors : Option (List Val)
  timer : Option Int
  points : Option Int
  deriving DecidableEq, Repr

/-- The question types the validator knows. -/
def gameTaskTypes : List String :=
  ["quiz", "true_false", "fill_in", "slider", "pin_answer", "puzzle", "matching"]

/-- The test `task.options.includes(answer)` on parsed JSON: strings are compared
by content, `null` equals `null`, and an object is never the same object as
another parsed one. -/
def includesJson (options : List Val) (answer : Val) : Bool :=
  match answer with
  | .text a => options.contains (.text a)
  | .null => options.contains .null
  | .undefined => options.contains .undefined
  | .pair _ => false

/-- Truthiness of a string field that may be missing. -/
def truthyText : Option String → Bool
  | some s => s != ""
  | none => false

/-- The test `typeof v === "number" && v >= 0` of the last two checks. -/
def nonNegativeNumber : Option Int → Bool
  | some v => decide (0 ≤ v)
  | none => false

/-- The test on a pair of a matching task: `pair.left` and `pair.right` are
truthy. A string has neither property, and reading one from `null` throws. -/
def pairFilled : Val → Bool
  | .pair p => p.left != "" && p.right != ""
  | _ => false

/-- The checks of the branch for `task.question_type` (lines 52-101): `true` when
none of them throws. -/
def typeChecks (task : GameTaskJson) : Bool :=
  if task.question_type = "quiz" then
    (match task.options with
      | some options => decide (2 ≤ options.length) && decide (options.length ≤ 8)
      | none => false) &&
    (match task.correct_answers with
      | .list answers => answers != [] && answers.all (includesJson (task.options.getD []))
      | _ => false)
  else if task.question_type = "true_false" then
    task.correct_answers == .value (.text "Верно") ||
      task.correct_answers == .value (.text "Неверно")
  else if task.question_type = "fill_in" then
    (match task.correct_answer with
      | .text s => s != ""
      | .number n => n != 0
      | .absent => false)
  else if task.question_type = "slider" then
    (match task.min, task.max with
      | some lo, some hi =>
        decide (lo < hi) &&
        (match task.correct_answer with
          | .number n => decide (lo ≤ n) && decide (n ≤ hi)
          | _ => false)
      | _, _ => false)
  else if task.question_type = "pin_answer" then
    truthyText task.image &&
    (match task.correct_position with
      | some p => p.x.isSome && p.y.isSome
      | none => false)
  else if task.question_type = "puzzle" then
    truthyText task.image &&
    (match task.pieces with
      | some n => decide (1 ≤ n)
      | none => false)
  else if task.question_type = "matching" then
    (match task.options with
      | some options => decide (2 ≤ options.length) && options.all pairFilled
      | none => false)
  else true

/-- The body of `value.forEach((task, index) => ...)` (lines 42-108): `true` when
the task passes every check. -/
def taskAccepted (task : GameTaskJson) : Bool :=
  task.question != "" &&
  task.question_type != "" &&
  gameTaskTypes.contains task.question_type &&
  typeChecks task &&
  nonNegativeNumber task.timer &&
  nonNegativeNumber task.points

/-- The custom validator of `body("game_tasks")` (lines 37-112): `true` when it
returns `true`, `false` when it throws. `value` is `none` when `game_tasks` is
not an array. -/
def validateGameTasks (is_game : Bool) (value : Option (List GameTaskJson)) : Bool :=
  if is_game then
    match value with
    | none => false
    | some [] => false
    | some tasks => tasks.all taskAccepted
  else true

/-- The body of `POST /results/assignments`. `tasks` stands for the JSON text of
the field, which the handler only stores. -/
structure AssignmentBody where
  title : String
  description : Option String
  type : String
  grade : Int
  grade_letter : String
  subject : String
  due_date : String
  time_limit : String
  is_game : Bool
  tasks : Option String
  game_tasks : Option (List GameTaskJson)
  deriving DecidableEq, Repr

/-- The test `/^[А-Я]$/` on the class letter: one character from U+0410 to
U+042F. -/
def matchesGradeLetter (s : String) : Bool :=
  match s.data with
  | [c] => decide (0x410 ≤ c.toNat) && decide (c.toNat ≤ 0x42F)
  | _ => false

/-- The list `assignmentValidation` followed by `validateRequest` (lines 28-124):
`true` when no validator reports an error. `isISO8601` is the test of that name
of express-validator; `grade` is an integer and `is_game` a boolean by their
types, so `isInt` is left with its bounds and `isBoolean` with nothing to
check. -/
def assignmentValidation (isISO8601 : String → Bool) (body : AssignmentBody) : Bool :=
  body.title != "" &&
  body.type != "" &&
  decide (1 ≤ body.grade) && decide (body.grade ≤ 11) &&
  matchesGradeLetter body.grade_letter &&
  body.subject != "" &&
  isISO8601 body.due_date &&
  body.time_limit != "" &&
  validateGameTasks body.is_game body.game_tasks

/-- A row of `assignments`. -/
structure AssignmentRow where
  id : Nat
  title : String
  description : Option String
  type : String
  grade : Int
  grade_letter : String
  subject : String
  due_date : String
  time_limit : String
  is_game : Bool
  tasks : Option String
  game_tasks : Option (List GameTaskJson)
  teacher_id : Nat
  deriving DecidableEq, Repr

/-- The table `assignments` with its `AUTO_INCREMENT` counter. -/
structure Assignments where
  rows : List AssignmentRow
  autoInc : Nat
  deriving DecidableEq, Repr

/-- What `POST /results/assignments` sends. -/
inductive AssignmentResponse where
  | refused (r : Response)
  | invalid
  | failed
  | created (assignmentId : Nat)
  deriving DecidableEq, Repr

/-- The value `description || null`. -/
def orNull : Option String → Option String
  | some s => if s = "" then none else some s
  | none => none

/-- The row the handler inserts. -/
def assignmentRow (body : AssignmentBody) (normalizedDueDate : String) (teacherId newId : Nat) :
    AssignmentRow :=
  { id := newId, title := body.title, description := orNull body.description,
    type := body.type, grade := body.grade, grade_letter := body.grade_letter,
    subject := body.subject, due_date := normalizedDueDate, time_limit := body.time_limit,
    is_game := body.is_game, tasks := body.tasks, game_tasks := body.game_tasks,
    teacher_id := teacherId }

/-- The handler of `router.post("/assignments", ...)` (lines 136-180).
`normalizeDate` is `new Date(due_date).toISOString().split("T")[0]`, which throws
on a date it cannot read (`none`); the `catch` answers 500. -/
def createAssignment (normalizeDate : String → Option String) (faults : Nat → Bool)
    (assignments : Assignments) (user : ReqUser) (body : AssignmentBody) :
    Assignments × AssignmentResponse :=
  match normalizeDate body.due_date with
  | none => (assignments, .failed)
  | some normalizedDueDate =>
    if faults 0 then (assignments, .failed)
    else
      ({ rows := assignments.rows ++
                   [assignmentRow body normalizedDueDate user.id assignments.autoInc],
         autoInc := assignments.autoInc + 1 },
       .created assignments.autoInc)

/-- The middleware chain `verifyToken, checkTeacher` of the route. -/
def assignmentsChain (faults : Nat → Bool) (db : DB) (cookie : Option Token) : MwResult :=
  match verifyToken faults db cookie with
  | .next user => checkTeacher user
  | .respond r => .respond r

/-- The route `POST /results/assignments`: the chain, the validation (400), the
handler. -/
def postAssignments (isISO8601 : String → Bool) (normalizeDate : String → Option String)
    (faultsMw faults : Nat → Bool) (db : DB) (assignments : Assignments)
    (cookie : Option Token) (body : AssignmentBody) : Assignments × AssignmentResponse :=
  match assignmentsChain faultsMw db cookie with
  | .respond r => (assignments, .refused r)
  | .next user =>
    if !assignmentValidation isISO8601 body then (assignments, .invalid)
    else createAssignment normalizeDate faults assignments user body

/-! ## aqylal_front: components/utils/assignmentUtils.ts -/

/-- The interface `Question`. A missing `image`, `correct_position` or
`option_colors` is `none`. -/
structure Question where
  id : String
  question : String
  question_type : String
  options : List Val
  correct_answers : Answers
  timer : Int
  points : Int
  image : Option String
  correct_position : Option Position
  option_colors : Option (List Val)
  deriving DecidableEq, Repr

/-- The interface `AssignmentFormData`. -/
structure AssignmentFormData where
  title : String
  type : String
  description : Option String
  subject : String
  subjects : List String
  grade : String
  gradeLetter : String
  dueDate : String
  timeLimit : String
  customTimeLimit : String
  questions : List Question
  deriving DecidableEq, Repr

/-- The constant `TIME_LIMIT_OPTIONS`. -/
def TIME_LIMIT_OPTIONS : List String :=
  ["Без ограничения", "5 минут", "10 минут", "20 минут", "30 минут", "40 минут", "50 минут",
   "60 минут", "Другое"]

/-- The constant `BUTTON_COLORS`. -/
def BUTTON_COLORS : List String :=
  ["#E21B3C", "#1368CE", "#D89E00", "#26890C", "#0AA3A3", "#864CBF", "#E29E3C", "#3CB371"]

/-- Truthiness of `s.trim()`: some character of `s` is not blank. -/
def trimmedNonEmpty (s : String) : Bool :=
  s.data.any (fun c => !isBlank c)

/-- The call `quizOptions.some(opt => opt.trim())`: `none` when the callback
throws, which it does on a value that is not a string. -/
def someTrimmed : List Val → Option Bool
  | [] => some false
  | .text s :: rest => if trimmedNonEmpty s then some true else someTrimmed rest
  | _ :: _ => none

/-- The callback `p => !p.left?.trim() || !p.right?.trim()`: a string has neither
property, and reading one from `undefined` or `null` throws (`none`). -/
def pairBlank : Val → Option Bool
  | .pair p => some (!trimmedNonEmpty p.left || !trimmedNonEmpty p.right)
  | .text _ => some true
  | .undefined => none
  | .null => none

/-- The call `pairs.some(p => ...)` with that callback. -/
def someBlank : List Val → Option Bool
  | [] => some false
  | v :: rest =>
    match pairBlank v with
    | none => none
    | some true => some true
    | some false => someBlank rest

/-- The test `Array.isArray(q.correct_answers) && q.correct_answers.length !== 0`. -/
def nonEmptyArray : Answers → Bool
  | .list l => !l.isEmpty
  | .value _ => false

/-- The body of the loop of `validateQuestions` for one question (lines 77-109):
`true` when one of its `return`s with a message is taken or a callback throws. -/
def questionRejected (q : Question) : Bool :=
  if !trimmedNonEmpty q.question then true
  else if q.question_type = "quiz" then
    if q.options.length < 4 ∨ q.options.length > 8 then true
    else if someTrimmed q.options ≠ some true then true
    else if !nonEmptyArray q.correct_answers then true
    else
      match q.option_colors with
      | some colors => colors.length != q.options.length
      | none => false
  else if q.question_type = "true_false" then
    if q.options ≠ [.text "Верно", .text "Неверно"] then true
    else if q.correct_answers ≠ .value (.text "Верно") ∧
        q.correct_answers ≠ .value (.text "Неверно") then true
    else false
  else if q.question_type = "pin_answer" then
    if !truthyText q.image then true
    else if q.correct_position.isNone then true
    else false
  else if q.question_type = "matching" then
    if q.options.length < 2 then true
    else if someBlank q.options ≠ some false then true
    else if !nonEmptyArray q.correct_answers then true
    else false
  else true

/-- The loop of `validateQuestions` from the question with index `i` on: the
number `i + 1` that the message names, or `none` when the loop ends. -/
def validateFrom : Nat → List Question → Option Nat
  | _, [] => none
  | i, q :: rest => if questionRejected q then some (i + 1) else validateFrom (i + 1) rest

/-- The function `validateQuestions` (lines 73-113): `none` for `null`, else the
number of the question the message names (0 for the message about an empty
list). The text of the message is left out. -/
def validateQuestions (questions : List Question) : Option Nat :=
  if questions.isEmpty then some 0 else validateFrom 0 questions

/-- The prefix `+` on a string, for the strings that are decimal digits between
blanks: the number; `""` and blanks give 0. The field of the form for the custom
limit lets only decimal digits through. Every other string is read as `NaN`
(`none`), which is what JavaScript does except on numerals with a sign, a
fraction, an exponent or a radix prefix and on `Infinity`; those, and the
rounding of numbers from 2^53 on, are outside the model. -/
def toNumber (s : String) : Option Nat :=
  let digits := ((s.data.dropWhile isBlank).reverse.dropWhile isBlank).reverse
  if digits.all Char.isDigit then
    some (digits.foldl (fun n c => 10 * n + (c.toNat - '0'.toNat)) 0)
  else none

/-- The test `/^[А-ЯA-Z]$/` on the class letter. -/
def matchesFormLetter (s : String) : Bool :=
  match s.data with
  | [c] => (decide (0x410 ≤ c.toNat) && decide (c.toNat ≤ 0x42F)) ||
           (decide ('A'.toNat ≤ c.toNat) && decide (c.toNat ≤ 'Z'.toNat))
  | _ => false

/-- The function `validateForm` (lines 115-126): the message, or `none` for
`null`. A comparison of `NaN` with 0 is false. -/
def validateForm (formData : AssignmentFormData) : Option String :=
  if !trimmedNonEmpty formData.title then some "Название задания обязательно."
  else if formData.type = "" then some "Тип задания обязателен."
  else if formData.subject = "" then some "Предмет обязателен."
  else if formData.grade = "" then some "Класс обязателен."
  else if formData.gradeLetter = "" ∨ !matchesFormLetter formData.gradeLetter then
    some "Литера класса — одна заглавная буква."
  else if formData.dueDate = "" then some "Дата сдачи обязательна."
  else if formData.timeLimit = "Другое" ∧
      (formData.customTimeLimit = "" ∨ toNumber formData.customTimeLimit = some 0) then
    some "Укажите корректный лимит времени."
  else if formData.questions.length = 0 then some "Добавьте хотя бы один вопрос."
  else none

/-- The call `String(minutes)`. -/
def numberText : Option Nat → String
  | some n => toString n
  | none => "NaN"

/-- The call `padStart(2, "0")`. -/
def padStart2 (s : String) : String :=
  String.mk (List.replicate (2 - s.length) '0') ++ s

/-- The expression `timeLimit.split(" ")[0]`. -/
def firstWord (s : String) : String :=
  String.mk (s.data.takeWhile (fun c => c != ' '))

/-- The function `formatTimeLimit` (lines 128-132). -/
def formatTimeLimit (timeLimit customTimeLimit : String) : String :=
  if timeLimit = "Без ограничения" then "00:00:00"
  else
    let minutes :=
      if timeLimit = "Другое" then toNumber customTimeLimit else toNumber (firstWord timeLimit)
    "00:" ++ padStart2 (numberText minutes) ++ ":00"

/-! ## aqylal_front: components/hooks/useAssignmentForm.ts -/

/-- The state of the hook that the option handlers read and write. -/
structure FormState where
  questions : List Question
  currentQuestionId : Option String
  deletedColors : List Val
  deriving DecidableEq, Repr

/-- The guard `q.id !== currentQuestionId || q.question_type !== "quiz"` does not
return: `q` is the current question and a quiz. -/
def isCurrentQuiz (currentQuestionId : Option String) (q : Question) : Bool :=
  decide (some q.id = currentQuestionId) && decide (q.question_type = "quiz")

/-- The question `updateOption` returns for the current quiz question:
`options.map((opt, i) => (i === index ? value : opt))`. -/
def updateOptionIn (index : Nat) (value : String) (q : Question) : Question :=
  { q with options := q.options.set index (.text value) }

/-- The handler `updateOption(index, value)` (lines 311-326). -/
def updateOption (index : Nat) (value : String) (s : FormState) : FormState :=
  { s with
    questions :=
      s.questions.map
        (fun q => if isCurrentQuiz s.currentQuestionId q then updateOptionIn index value q
                  else q) }

/-- The expression `q.option_colors || BUTTON_COLORS.slice(0, q.options.length)`. -/
def currentColors (q : Question) : List Val :=
  match q.option_colors with
  | some colors => colors
  | none => (BUTTON_COLORS.take q.options.length).map .text

/-- The constant `availableColor` of `addOption`. -/
def availableColor (deletedColors : List Val) (q : Question) : Val :=
  match deletedColors with
  | color :: _ => color
  | [] =>
    match BUTTON_COLORS.find? (fun color => !(currentColors q).contains (.text color)) with
    | some color => .text color
    | none => .text (BUTTON_COLORS.getD (q.options.length % BUTTON_COLORS.length) "")

/-- The guard of `addOption` does not return: `q` is the current quiz question
and has fewer than 8 options. -/
def addOptionApplies (currentQuestionId : Option String) (q : Question) : Bool :=
  isCurrentQuiz currentQuestionId q && !decide (q.options.length ≥ 8)

/-- The question `addOption` returns when its guard does not. -/
def addOptionTo (deletedColors : List Val) (q : Question) : Question :=
  { q with
    options := q.options ++ [.text ""],
    option_colors := some (currentColors q ++ [availableColor deletedColors q]) }

/-- The handler `addOption()` (lines 328-348); every question it changes also
runs `setDeletedColors((prev) => prev.slice(1))`. -/
def addOption (s : FormState) : FormState :=
  { s with
    questions :=
      s.questions.map
        (fun q => if addOptionApplies s.currentQuestionId q then addOptionTo s.deletedColors q
                  else q),
    deletedColors :=
      s.deletedColors.drop (s.questions.countP (addOptionApplies s.currentQuestionId)) }

/-- The guard of `removeOption` does not return: `q` is the current quiz question
and has more than 4 options. -/
def removeOptionApplies (currentQuestionId : Option String) (q : Question) : Bool :=
  isCurrentQuiz currentQuestionId q && !decide (q.options.length ≤ 4)

/-- The question `removeOption` returns when its guard does not: `filter((_, i)
=> i !== index)` on the options and on the colours, and the correct answers that
are still options. On a `correct_answers` that is not an array `filter` is not a
function; that call throws and the question stays as it was. -/
def removeOptionFrom (index : Nat) (q : Question) : Question :=
  match q.correct_answers with
  | .list correct =>
    { q with
      options := q.options.eraseIdx index,
      option_colors := some ((currentColors q).eraseIdx index),
      correct_answers :=
        .list (correct.filter (fun ans => (q.options.eraseIdx index).contains ans)) }
  | .value _ => q

/-- The handler `removeOption(index)` (lines 350-373); every question that passes
the guard also runs `setDeletedColors((prev) => [...prev, removedColor])`. -/
def removeOption (index : Nat) (s : FormState) : FormState :=
  { s with
    questions :=
      s.questions.map
        (fun q => if removeOptionApplies s.currentQuestionId q then removeOptionFrom index q
                  else q),
    deletedColors :=
      s.deletedColors ++
        (s.questions.filter (removeOptionApplies s.currentQuestionId)).map
          (fun q => (currentColors q).getD index .undefined) }

/-- The call `String(v)` on a value. -/
def jsString : Val → String
  | .text s => s
  | .pair _ => "[object Object]"
  | .undefined => "undefined"
  | .null => "null"

/-- The call `s.includes(part)` on strings. -/
def hasSubstring (s part : String) : Bool :=
  s.data.tails.any (fun t => part.data.isPrefixOf t)

/-- The quiz branch of `toggleCorrectAnswer`: `answer = options[index]`, taken out
of the correct answers when it is among them and added otherwise. A string in
the place of the array has `includes` and spreads into its characters, but has no
`filter`; `null` and `undefined` have neither. A call that throws leaves the
question as it was. -/
def toggleQuiz (index : Nat) (q : Question) : Question :=
  let answer := q.options.getD index .undefined
  match q.correct_answers with
  | .list correct =>
    { q with
      correct_answers :=
        .list (if correct.contains answer then correct.filter (fun a => a != answer)
               else correct ++ [answer]) }
  | .value (.text s) =>
    if hasSubstring s (jsString answer) then q
    else { q with
           correct_answers := .list (s.data.map (fun c => .text (String.mk [c])) ++ [answer]) }
  | .value _ => q

/-- The true/false branch of `toggleCorrectAnswer`. -/
def toggleTrueFalse (index : Nat) (q : Question) : Question :=
  { q with correct_answers := .value (q.options.getD index .undefined) }

/-- The handler `toggleCorrectAnswer(index)` (lines 375-416). -/
def toggleCorrectAnswer (index : Nat) (s : FormState) : FormState :=
  { s with
    questions :=
      s.questions.map
        (fun q =>
          if some q.id ≠ s.currentQuestionId then q
          else if q.question_type = "quiz" then toggleQuiz index q
          else if q.question_type = "true_false" then toggleTrueFalse index q
          else q) }

/-- The value `q.correct_answers || null`. -/
def answersOrNull : Answers → Answers
  | .value (.text s) => if s = "" then .value .null else .value (.text s)
  | .value (.pair p) => .value (.pair p)
  | .value .undefined => .value .null
  | .value .null => .value .null
  | .list l => .list l

/-- What `JSON.stringify` makes of an array element: `undefined` becomes
`null`. -/
def jsonVal : Val → Val
  | .undefined => .null
  | v => v

/-- What `JSON.stringify` makes of `correct_answers`. -/
def jsonAnswers : Answers → Answers
  | .list l => .list (l.map jsonVal)
  | .value v => .value v

/-- The element of `game_tasks` that `handleSubmit` builds from a question (lines
570-577), as the server parses it. -/
def toGameTask (q : Question) : GameTaskJson :=
  { question := q.question,
    question_type := q.question_type,
    options := some (q.options.map jsonVal),
    correct_answers :=
      jsonAnswers (if q.question_type = "true_false" then answersOrNull q.correct_answers
                   else q.correct_answers),
    correct_answer := .absent,
    min := none,
    max := none,
    pieces := none,
    image := q.image,
    correct_position := q.correct_position.map (fun p => { x := some p.x, y := some p.y }),
    option_colors := q.option_colors.map (fun colors => colors.map jsonVal),
    timer := some q.timer,
    points := some q.points }

/-! ## aqylal_front: components/games_folder/QuizGame.tsx -/

/-- The interface `GameTask` of the game. -/
structure GameTask where
  id : String
  question : String
  question_type : String
  options : List Val
  correct_answers : Answers
  timer : Int
  points : Int
  image : Option String
  correct_position : Option Position
  deriving DecidableEq, Repr

/-- The fields of `QuizScene` that the answer handlers and the timer read and
write. `timerEvent` tells whether a timer event is scheduled, `pinImage` whether
the picture of a pin task is shown (it carries the handler of the click), and
`pinMarker` whether the field of that name holds an object: it is `undefined`
until the first picture is set up, and `clearPreviousQuestion` destroys the
object without clearing the field. -/
structure QuizScene where
  currentQuestionIndex : Nat
  score : Int
  timeLeft : Int
  timerEvent : Bool
  pinImage : Bool
  pinMarker : Bool
  deriving DecidableEq, Repr

/-- The method `setupQuestion` (lines 93-124): `clearPreviousQuestion` removes the
timer event and destroys the picture; past the last task the game ends, else the
time of the task is set and a timer event scheduled, and `setupPinAnswer` (lines
184-200) shows the picture and creates the marker for a pin task that has an
image. -/
def setupQuestion (gameTasks : List GameTask) (s : QuizScene) : QuizScene :=
  match gameTasks.get? s.currentQuestionIndex with
  | none => { s with timerEvent := false, pinImage := false }
  | some task =>
    if task.question_type = "pin_answer" ∧ truthyText task.image = true then
      { s with timeLeft := task.timer, timerEvent := true, pinImage := true, pinMarker := true }
    else { s with timeLeft := task.timer, timerEvent := true, pinImage := false }

/-- The tail the three answer handlers share: the points are added when the
answer is correct, the index goes up by one, the next question is set up. -/
def answered (gameTasks : List GameTask) (task : GameTask) (isCorrect : Bool) (s : QuizScene) :
    QuizScene :=
  setupQuestion gameTasks
    { s with
      score := if isCorrect then s.score + task.points else s.score,
      currentQuestionIndex := s.currentQuestionIndex + 1 }

/-- The value of `isCorrect` in `checkAnswer`; `none` when computing it throws
(`includes` on `null` or another value that has no such method). -/
def quizIsCorrect (task : GameTask) (index : Nat) : Option Bool :=
  if task.question_type = "quiz" then
    match task.correct_answers with
    | .list correct => some (correct.contains (task.options.getD index .undefined))
    | .value (.text s) => some (hasSubstring s (jsString (task.options.getD index .undefined)))
    | .value _ => none
  else if task.question_type = "true_false" then
    some (task.correct_answers == .value (task.options.getD index .undefined))
  else some false

/-- The value of `isCorrect` in `checkPinAnswer`; `none` when the task has no
`correct_position`, whose `x` the handler reads. -/
def pinIsCorrect (task : GameTask) (position : Position) : Option Bool :=
  match task.correct_position with
  | none => none
  | some correctPos =>
    some (decide ((position.x - correctPos.x).natAbs ≤ 20) &&
          decide ((position.y - correctPos.y).natAbs ≤ 20))

/-- The call `correctPairs.some((cp) => cp.left === pair.left && cp.right ===
pair.right && cp.correct)` on the elements of an array; `none` when the callback
throws on `null` or `undefined`. -/
def somePairMatches (pair : MatchingPair) : List Val → Option Bool
  | [] => some false
  | .pair cp :: rest =>
    if cp.left = pair.left ∧ cp.right = pair.right ∧ cp.correct = true then some true
    else somePairMatches pair rest
  | .text _ :: rest => somePairMatches pair rest
  | _ :: _ => none

/-- The value of `isCorrect` in `checkMatchingAnswer`; `none` when
`correct_answers` is not an array or the callback throws. -/
def matchingIsCorrect (task : GameTask) (pair : MatchingPair) : Option Bool :=
  match task.correct_answers with
  | .list correctPairs => somePairMatches pair correctPairs
  | .value _ => none

/-- The method `checkAnswer(index, circle)` (lines 223-247). Reading a field of
the task past the last one throws before anything is written; `circle` is by its
type a graphics object, on which the drawing calls do not throw. -/
def checkAnswer (gameTasks : List GameTask) (index : Nat) (s : QuizScene) : QuizScene :=
  match gameTasks.get? s.currentQuestionIndex with
  | none => s
  | some task =>
    match quizIsCorrect task index with
    | none => s
    | some isCorrect => answered gameTasks task isCorrect s

/-- The method `checkPinAnswer(position)` (lines 249-270). For a correct answer
the points are added (line 257) and the marker is then repainted (line 259):
when `pinMarker` is `undefined` that call throws, after the score was written
and before the index goes up. The drawing calls on a marker that was destroyed
do not throw. -/
def checkPinAnswer (gameTasks : List GameTask) (position : Position) (s : QuizScene) :
    QuizScene :=
  match gameTasks.get? s.currentQuestionIndex with
  | none => s
  | some task =>
    match pinIsCorrect task position with
    | none => s
    | some isCorrect =>
      if isCorrect && !s.pinMarker then { s with score := s.score + task.points }
      else answered gameTasks task isCorrect s

/-- The method `checkMatchingAnswer(pair)` (lines 272-286). -/
def checkMatchingAnswer (gameTasks : List GameTask) (pair : MatchingPair) (s : QuizScene) :
    QuizScene :=
  match gameTasks.get? s.currentQuestionIndex with
  | none => s
  | some task =>
    match matchingIsCorrect task pair with
    | none => s
    | some isCorrect => answered gameTasks task isCorrect s

/-- The method `updateTimer` (lines 288-295). -/
def updateTimer (gameTasks : List GameTask) (s : QuizScene) : QuizScene :=
  if s.timeLeft - 1 ≤ 0 then
    setupQuestion gameTasks
      { s with timeLeft := s.timeLeft - 1, currentQuestionIndex := s.currentQuestionIndex + 1 }
  else { s with timeLeft := s.timeLeft - 1 }

/-- The method `create`: the scene starts at question 0 with score 0 and sets up
the first question. -/
def create (gameTasks : List GameTask) : QuizScene :=
  setupQuestion gameTasks
    { currentQuestionIndex := 0, score := 0, timeLeft := 0, timerEvent := false,
      pinImage := false, pinMarker := false }

/-- What can happen to a scene: a click on the answer with an index, on a point
of the picture, on a pair, or a second going by. -/
inductive GameEvent where
  | answer (index : Nat)
  | pin (position : Position)
  | matching (pair : MatchingPair)
  | second
  deriving DecidableEq, Repr

/-- The scene after an event. A second runs `updateTimer` when a timer event is
scheduled. A click on the picture runs `checkPinAnswer` when the picture is
shown: the scene calls that method from the `pointerdown` handler of `pinImage`
and from nowhere else (lines 192-197). `checkAnswer` and `checkMatchingAnswer`
are run on every scene. -/
def sceneAfter (gameTasks : List GameTask) (s : QuizScene) : GameEvent → QuizScene
  | .answer index => checkAnswer gameTasks index s
  | .pin position => if s.pinImage then checkPinAnswer gameTasks position s else s
  | .matching pair => checkMatchingAnswer gameTasks pair s
  | .second => if s.timerEvent then updateTimer gameTasks s else s

/-- The scene after a sequence of events, from `create` on. -/
def play (gameTasks : List GameTask) (events : List GameEvent) : QuizScene :=
  events.foldl (sceneAfter gameTasks) (create gameTasks)

/-! ## A small database used at the concrete inputs

Three people registered (ids 1, 2, 3 of `users`). The command-line tool, which
keeps ids, then made 1 an admin and 3 a moderator, and made 2 a teacher and later
a student again, which left that teacher's row of `teacher_subjects` behind. -/

/-- A row with the given id, role and login, the other columns being plain. -/
def person (id roleId : Nat) (login : String) : Row :=
  { id := id, email := login ++ "@school.kz", login := login, password := "hash-" ++ login,
    role_id := roleId, first_name := some login, last_name := some "A", patronymic := none,
    phone := none, birth_date := some "2001-02-03", profileCompleted := 1,
    grade := none, grade_letter := none }

/-- The admin, id 1 of `admins`. -/
def adam : Row := person 1 1 "adam"

/-- The student, id 2 of `users`. -/
def bob : Row := person 2 4 "bob"

/-- The moderator, id 3 of `moders`. -/
def mira : Row := person 3 2 "mira"

/-- The database described above. -/
def school : DB :=
  { users := { rows := [bob], autoInc := 4 },
    teachers := { rows := [], autoInc := 3 },
    moders := { rows := [mira], autoInc := 4 },
    admins := { rows := [adam], autoInc := 2 },
    sessions :=
      [{ id := 1, user_id := 2, token := "s-bob", expires_at := "2030-01-01" },
       { id := 2, user_id := 3, token := "s-mira", expires_at := "2030-01-01" }],
    user_settings :=
      [{ user_id := 1, language := "ru" }, { user_id := 2, language := "kz" },
       { user_id := 3, language := "ru" }],
    teacher_subjects := [{ teacher_id := 2, subject_id := 1 }],
    subjects := [{ id := 1, name := "math" }, { id := 2, name := "physics" }],
    user_ids := [1, 2, 3] }

/-- The token a login hands to the row `r` of table `tableName`. -/
def loginToken (r : Row) (tableName : String) : Token :=
  jwt_sign { id := r.id, role_id := some r.role_id, table_name := some tableName }

/-- A body of `PUT /profile` that carries the field `role_id` alone. -/
def onlyRole (r : Nat) : ProfileBody :=
  { first_name := none, last_name := none, patronymic := none, login := none, phone := none,
    birth_date := none, grade := none, grade_letter := none, role_id := some r,
    subject := none }

/-- What `verifyToken` makes of `mira`. -/
def miraUser : ReqUser :=
  { id := 3, role := some "moderator", role_id := 2, table_name := .moders }

/-- What `verifyToken` makes of `bob`. -/
def bobUser : ReqUser :=
  { id := 2, role := some "student", role_id := 4, table_name := .users }

/-- The moderator asks `/update-role` to make the student a teacher. -/
def moveBob : MigrationRequest :=
  .viaUpdateRole miraUser { userId := some 2, newRoleId := some 3 }

/-- The moderator asks `/update-role` to make the student a moderator. -/
def promoteBob : MigrationRequest :=
  .viaUpdateRole miraUser { userId := some 2, newRoleId := some 2 }

/-- The moderator asks `/update-role` to make the student an admin. -/
def crownBob : MigrationRequest :=
  .viaUpdateRole miraUser { userId := some 2, newRoleId := some 1 }

/-- The row of the student once `moveBob` has run. -/
def bobTeacher : Row := { bob with id := 3, role_id := 3 }

/-- The token `moveBob` returns. -/
def movedToken : Token := jwt_sign { id := 3, role_id := some 3, table_name := none }

/-- The database `moveBob` leaves. -/
def schoolMoved : DB :=
  { school with
    users := { rows := [], autoInc := 4 },
    teachers := { rows := [bobTeacher], autoInc := 4 },
    sessions :=
      [{ id := 1, user_id := 3, token := "s-bob", expires_at := "2030-01-01" },
       { id := 2, user_id := 3, token := "s-mira", expires_at := "2030-01-01" }],
    teacher_subjects :=
      [{ teacher_id := 2, subject_id := 1 }, { teacher_id := 3, subject_id := 1 }] }

/-- The token `promoteBob` returns. -/
def promotedToken : Token := jwt_sign { id := 4, role_id := some 2, table_name := none }

/-- The database `promoteBob` leaves. -/
def schoolPromoted : DB :=
  { school with
    users := { rows := [], autoInc := 4 },
    moders := { rows := [mira, { bob with id := 4, role_id := 2 }], autoInc := 5 },
    sessions :=
      [{ id := 1, user_id := 4, token := "s-bob", expires_at := "2030-01-01" },
       { id := 2, user_id := 3, token := "s-mira", expires_at := "2030-01-01" }],
    user_settings :=
      [{ user_id := 1, language := "ru" }, { user_id := 2, language := "kz" },
       { user_id := 3, language := "ru" }, { user_id := 4, language := "kz" }] }

/-- The role tables that hold a row with the given id. -/
def holders (db : DB) (id : Nat) : List TableName :=
  [TableName.users, TableName.teachers, TableName.moders, TableName.admins].filter
    (fun t => !(selectById (db.table t) id).isEmpty)

/-- A stand-in for `bcrypt.hash` at the concrete inputs. -/
def hashOf : String → String := fun password => "hash-" ++ password

/-- A stand-in for `bcrypt.compare` at the concrete inputs. -/
def hashMatches : String → String → Bool := fun password hashed => "hash-" ++ password == hashed

/-- A stand-in for the date part of `toISOString` at the concrete inputs. -/
def sameDay : String → String := fun d => d

/-- The body a fourth person registers with. -/
def zoeBody : RegisterBody := { email := "zoe@school.kz", password := "secret1", login := "zoe" }

/-- The row registration gives the fourth person. -/
def zoe : Row := registeredRow zoeBody (hashOf "secret1") 4

/-- The database `school` once the fourth person has registered. -/
def schoolJoined : DB :=
  { school with
    users := { rows := [bob, zoe], autoInc := 5 },
    user_settings := school.user_settings ++ [{ user_id := 4, language := "ru" }],
    user_ids := [1, 2, 3, 4] }

/-- What `verifyToken` makes of `zoe`. -/
def zoeUser : ReqUser :=
  { id := 4, role := some "student", role_id := 4, table_name := .users }

/-- The rows of a table after the `UPDATE` of `PUT /profile` with a body that
carries no profile field: `profileCompleted` is 1 in the rows with the id. -/
def completeProfile (t : Table) (userId : Nat) : Table :=
  { t with
    rows := t.rows.map (fun r => if r.id == userId then { r with profileCompleted := 1 } else r) }

/-- The four tables in the order changeRole.js probes them. -/
def probeOrder : List TableName := [.users, .teachers, .moders, .admins]

/-- The database `school` with no row in `sessions`. -/
def schoolQuiet : DB := { school with sessions := [] }

/-- The body the student of `school` logs in with. -/
def bobLogin : LoginBody := { identifier := "bob", password := "bob" }

/-- The ledger invariant: every id of a row of a role table is in `user_ids`. -/
def ledger (db : DB) : Prop :=
  ∀ t, ∀ row ∈ (db.table t).rows, row.id ∈ db.user_ids

/-- The database `schoolPromoted` once the script has made the person with id 4
of `moders` a teacher, which records 4 in `user_ids`. -/
def schoolRecorded : DB := (changeRole sameDay noFaults schoolPromoted 4 "teacher").1

/-- The database `school` with a second row for the person with id 2, in
`teachers`: what a run of the script that stops between its insert and its delete
leaves, whether it was moving the person from `users` to `teachers` or back. -/
def schoolStale : DB :=
  { school with teachers := { rows := [{ bob with role_id := 3 }], autoInc := 3 } }

/-- The database changeRole.js leaves when it changes the role: the id is
recorded, the rows of the target table with the id are deleted, the row of the
script is inserted there under the same id, and the rows with the id are deleted
from the table the user was found in. -/
def toolMovedDB (isoDate : String → String) (db : DB) (currentTable targetTable : TableName)
    (userId roleId : Nat) (currentUser : Row) : DB :=
  let db1 := { db with user_ids := insertIgnoreUserId db.user_ids userId }
  let cleared := deleteById (db1.table targetTable) userId
  let db2 := db1.setTable targetTable
    { rows := cleared.rows ++ [toolRow isoDate currentUser userId roleId],
      autoInc := max cleared.autoInc (userId + 1) }
  db2.setTable currentTable (deleteById (db2.table currentTable) userId)

/-- A test of the date that lets every text pass. -/
def anyDate : String → Bool := fun _ => true

/-- A reading of the date that keeps the text. -/
def keepDate : String → Option String := fun d => some d

/-- The table `assignments` before the first assignment. -/
def noAssignments : Assignments := { rows := [], autoInc := 1 }

/-- A plain assignment for class 5 А. -/
def dictation : AssignmentBody :=
  { title := "Диктант", description := none, type := "homework", grade := 5,
    grade_letter := "А", subject := "Русский язык", due_date := "2025-04-07",
    time_limit := "00:10:00", is_game := false, tasks := none, game_tasks := none }

/-- The two tokens of the student of `school`: the one the login signs, and one
that claims the role of an admin. -/
def bobClaim (roleId : Nat) : Payload :=
  { id := 2, role_id := some roleId, table_name := some "users" }

/-- Every string among the correct answers of `q` is one of its options; a
`correct_answers` that is not an array has no elements. -/
def answersAmongOptions (q : Question) : Bool :=
  match q.correct_answers with
  | .list correct =>
    correct.all (fun a => match a with
      | .text _ => q.options.contains a
      | _ => true)
  | .value _ => true

/-- The field `correct_answers` of `q` is an array. -/
def answersIsArray (q : Question) : Bool :=
  match q.correct_answers with
  | .list _ => true
  | .value _ => false

/-- Every correct answer of `q` is a string and one of its options. -/
def answersAreOptions (q : Question) : Bool :=
  match q.correct_answers with
  | .list correct =>
    correct.all (fun a => match a with
      | .text _ => q.options.contains a
      | _ => false)
  | .value _ => true

/-- The number of options of `q` is between 4 and 8, and `option_colors` is an
array of that length. -/
def optionsInRange (q : Question) : Bool :=
  decide (4 ≤ q.options.length) && decide (q.options.length ≤ 8) &&
  (match q.option_colors with
    | some colors => colors.length == q.options.length
    | none => false)

/-- A call of one of the two handlers that change the number of options. -/
inductive OptionCall where
  | add
  | remove (index : Nat)
  deriving DecidableEq, Repr

/-- The state after a call. -/
def afterCall (s : FormState) : OptionCall → FormState
  | .add => addOption s
  | .remove index => removeOption index s

/-- A quiz question with four options, the first of them marked correct. -/
def capital : Question :=
  { id := "q1", question := "Столица Казахстана?", question_type := "quiz",
    options := [.text "Астана", .text "Алматы", .text "Шымкент", .text "Актау"],
    correct_answers := .list [.text "Астана"], timer := 20, points := 1000,
    image := none, correct_position := none,
    option_colors := some ((BUTTON_COLORS.take 4).map .text) }

/-- The form with that question selected. -/
def lesson : FormState :=
  { questions := [capital], currentQuestionId := some "q1", deletedColors := [] }

/-- The question `capital` after its first option was retyped. -/
def capitalRetyped : Question :=
  { capital with
    options := [.text "Нур-Султан", .text "Алматы", .text "Шымкент", .text "Актау"] }

/-- The form of `lesson` after the first option of its question was retyped:
what `handleSubmit` validates and sends. -/
def lessonRetyped : List Question := (updateOption 0 "Нур-Султан" lesson).questions

/-- The value of a decimal digit. -/
def digitValue (c : Char) : Nat := c.toNat - '0'.toNat

/-- A text of the form `HH:MM:SS` with two decimal digits in each field, `MM` at
most 59 and `SS` equal to `00`. -/
def wellFormedDuration (t : String) : Bool :=
  match t.data with
  | [h1, h2, ':', m1, m2, ':', '0', '0'] =>
    h1.isDigit && h2.isDigit && m1.isDigit && m2.isDigit &&
    decide (10 * digitValue m1 + digitValue m2 ≤ 59)
  | _ => false

/-- The number of minutes a text `HH:MM:00` denotes. -/
def durationMinutes (t : String) : Option Nat :=
  match t.data with
  | [h1, h2, ':', m1, m2, ':', '0', '0'] =>
    some (60 * (10 * digitValue h1 + digitValue h2) + (10 * digitValue m1 + digitValue m2))
  | _ => none

/-- A filled form with the question `capital` and the given time limit. -/
def lessonForm (timeLimit customTimeLimit : String) : AssignmentFormData :=
  { title := "География", type := "quiz", description := none, subject := "География",
    subjects := ["География"], grade := "5", gradeLetter := "А", dueDate := "2025-04-07",
    timeLimit := timeLimit, customTimeLimit := customTimeLimit, questions := [capital] }

/-- Whether an event makes the scene pass its current task, and if so whether
the task was answered correctly: the value of `isCorrect` for a click that the
handler completes, `false` for the second at which the time runs out, and `none`
for an event that leaves the task in place. -/
def verdictOf (gameTasks : List GameTask) (s : QuizScene) : GameEvent → Option Bool
  | .answer index =>
    (gameTasks.get? s.currentQuestionIndex).bind (fun task => quizIsCorrect task index)
  | .pin position =>
    if s.pinImage then
      (gameTasks.get? s.currentQuestionIndex).bind (fun task => pinIsCorrect task position)
    else none
  | .matching pair =>
    (gameTasks.get? s.currentQuestionIndex).bind (fun task => matchingIsCorrect task pair)
  | .second => if s.timerEvent && decide (s.timeLeft - 1 ≤ 0) then some false else none

/-- The verdicts on the tasks passed along a sequence of events from the scene
`s` on, in the order of the tasks. -/
def verdictsFrom (gameTasks : List GameTask) : QuizScene → List GameEvent → List Bool
  | _, [] => []
  | s, e :: rest =>
    (verdictOf gameTasks s e).toList ++ verdictsFrom gameTasks (sceneAfter gameTasks s e) rest

/-- The verdicts on the tasks passed in a game. -/
def verdicts (gameTasks : List GameTask) (events : List GameEvent) : List Bool :=
  verdictsFrom gameTasks (create gameTasks) events

/-- The sum of the points of the tasks whose verdict is `true`, the verdicts
being those of the first tasks of the list. -/
def earned : List GameTask → List Bool → Int
  | task :: tasks, b :: bs => (if b then task.points else 0) + earned tasks bs
  | _, _ => 0

/-- The sum of the points of the first `n` tasks. -/
def pointsBelow (gameTasks : List GameTask) (n : Nat) : Int :=
  ((gameTasks.take n).map (fun task => task.points)).sum

/-- The points of the task with index `i`, 0 past the last task. -/
def pointsAt (gameTasks : List GameTask) (i : Nat) : Int :=
  ((gameTasks.get? i).map (fun task => task.points)).getD 0

/-- A game of three tasks: a quiz, a true/false question with 2 seconds, a
picture to pin. -/
def threeTasks : List GameTask :=
  [{ id := "t1", question := "Столица Казахстана?", question_type := "quiz",
     options := [.text "Астана", .text "Алматы", .text "Шымкент", .text "Актау"],
     correct_answers := .list [.text "Астана"], timer := 20, points := 1000,
     image := none, correct_position := none },
   { id := "t2", question := "Каспий — озеро.", question_type := "true_false",
     options := [.text "Верно", .text "Неверно"],
     correct_answers := .value (.text "Верно"), timer := 2, points := 500,
     image := none, correct_position := none },
   { id := "t3", question := "Где Алматы?", question_type := "pin_answer",
     options := [], correct_answers := .value .null, timer := 30, points := 1500,
     image := some "/uploads/map.png", correct_position := some { x := 40, y := -25 } }]

/-- A game of one task: a pin task that has the right position and no image, so
that no picture and no marker are set up. -/
def blindPin : List GameTask :=
  [{ id := "p1", question := "Где Алматы?", question_type := "pin_answer",
     options := [], correct_answers := .value .null, timer := 30, points := 1500,
     image := none, correct_position := some { x := 0, y := 0 } }]

/-- The pair of the game `oddMatching`. -/
def capitalPair : MatchingPair :=
  { id := "m1", left := "Казахстан", right := "Астана", correct := true }

/-- A game of one task: a matching task whose `correct_answers` is a string, as
the interface `GameTask` allows and the validator of the server lets through. -/
def oddMatching : List GameTask :=
  [{ id := "m0", question := "Соедините страну и столицу", question_type := "matching",
     options := [.pair capitalPair, .pair { capitalPair with id := "m2", right := "Алматы" }],
     correct_answers := .value (.text "Казахстан-Астана"), timer := 30, points := 1000,
     image := none, correct_position := none }]

/-- The player picks "Астана", lets the time of the second task run out, and
pins a point 10 to the right of and 15 below the right one. -/
def threeMoves : List GameEvent :=
  [.answer 0, .second, .second, .pin { x := 50, y := -10 }]

/-! # Theorems -/

/-! ## Reading a table back after a write -/

theorem table_setTable_same (db : DB) (t : TableName) (x : Table) :
    (db.setTable t x).table t = x := by
  cases t <;> rfl

theorem table_setTable_ne (db : DB) {t u : TableName} (x : Table) (h : t ≠ u) :
    (db.setTable t x).table u = db.table u := by
  cases t <;> cases u <;> first | rfl | exact absurd rfl h

theorem sessions_setTable (db : DB) (t : TableName) (x : Table) :
    (db.setTable t x).sessions = db.sessions := by
  cases t <;> rfl

theorem user_settings_setTable (db : DB) (t : TableName) (x : Table) :
    (db.setTable t x).user_settings = db.user_settings := by
  cases t <;> rfl

theorem teacher_subjects_setTable (db : DB) (t : TableName) (x : Table) :
    (db.setTable t x).teacher_subjects = db.teacher_subjects := by
  cases t <;> rfl

theorem crossTableMove_migrated {faults : Nat → Bool} {k : Nat} {db db' : DB}
    {src tgt : TableName} {userId roleId n : Nat} {tok : Token}
    (h : crossTableMove faults k db src tgt userId roleId = (db', .migrated n tok)) :
    ∃ oldUser rest, selectById (db.table src) userId = oldUser :: rest ∧
      n = (db.table tgt).autoInc ∧
      tok = jwt_sign { id := n, role_id := some roleId, table_name := none } ∧
      db' = movedDB db src tgt userId roleId oldUser := by
  unfold crossTableMove at h
  split at h
  · simp at h
  · split at h
    · simp at h
    · rename_i oldUser rest hsel
      refine ⟨oldUser, rest, hsel, ?_⟩
      by_cases hr : roleId = 3
      · simp only [hr] at h ⊢
        split at h; · simp at h
        split at h; · simp at h
        split at h; · simp at h
        simp only [if_true] at h
        split at h; · simp at h
        split at h; · simp at h
        simp only [Prod.mk.injEq, Response.migrated.injEq] at h
        obtain ⟨hdb, hn, htok⟩ := h
        subst hdb hn htok
        refine ⟨rfl, rfl, ?_⟩
        cases tgt <;> cases src <;> simp [movedDB, DB.setTable, DB.table, insertAuto]
      · split at h; · simp at h
        split at h; · simp at h
        split at h; · simp at h
        simp only [hr, if_false] at h
        split at h; · simp at h
        simp only [Prod.mk.injEq, Response.migrated.injEq] at h
        obtain ⟨hdb, hn, htok⟩ := h
        subst hdb hn htok
        refine ⟨rfl, rfl, ?_⟩
        cases tgt <;> cases src <;> simp [movedDB, DB.setTable, DB.table, insertAuto, hr]


theorem updateRole_migrated {faults : Nat → Bool} {db db' : DB} {user : ReqUser}
    {body : UpdateRoleBody} {n : Nat} {tok : Token}
    (h : updateRole faults db user body = (db', .migrated n tok)) :
    ∃ src tgt, src ≠ tgt ∧
      (unionRoleIds db (body.userId.getD 0)).head?.bind tableOfRole = some src ∧
      tableOfRole (body.newRoleId.getD 0) = some tgt ∧
      crossTableMove faults 1 db src tgt (body.userId.getD 0) (body.newRoleId.getD 0)
        = (db', .migrated n tok) := by
  unfold updateRole at h
  simp only at h
  split at h; · simp at h
  split at h; · simp at h
  split at h; · simp at h
  rename_i r rest hunion
  split at h; · simp at h
  split at h; · simp at h
  rename_i src hsrc
  split at h; · simp at h
  rename_i tgt htgt
  split at h
  · rename_i hne
    refine ⟨src, tgt, hne, ?_, htgt, h⟩
    rw [hunion]
    exact hsrc
  · split at h <;> simp at h

theorem updateProfileInPlace_not_migrated (faults : Nat → Bool) (db : DB)
    (userId currentRoleId : Nat) (body : ProfileBody) (n : Nat) (tok : Token) :
    (updateProfileInPlace faults db userId currentRoleId body).2 ≠ .migrated n tok := by
  unfold updateProfileInPlace
  simp only
  repeat' split
  all_goals simp

theorem updateProfile_migrated {faults : Nat → Bool} {db db' : DB} {user : ReqUser}
    {body : ProfileBody} {n : Nat} {tok : Token}
    (h : updateProfile faults db user body = (db', .migrated n tok)) :
    ∃ src tgt, src ≠ tgt ∧ tableOfRole user.role_id = some src ∧
      tableOfRole (body.role_id.getD 0) = some tgt ∧
      crossTableMove faults 0 db src tgt user.id (body.role_id.getD 0)
        = (db', .migrated n tok) := by
  have hin := updateProfileInPlace_not_migrated faults db user.id user.role_id body n tok
  unfold updateProfile at h
  simp only at h
  split at h; · simp at h
  rename_i src hsrc
  split at h
  · split at h; · simp at h
    rename_i tgt htgt
    split at h
    · rename_i hne
      exact ⟨src, tgt, hne, hsrc, htgt, h⟩
    · rw [h] at hin; exact absurd rfl hin
  · rw [h] at hin; exact absurd rfl hin

theorem handle_migrated {faults : Nat → Bool} {db db' : DB} {req : MigrationRequest}
    {n : Nat} {tok : Token} (h : handle faults db req = (db', .migrated n tok)) :
    ∃ src tgt oldUser rest, src ≠ tgt ∧ tableOfRole req.targetRole = some tgt ∧
      selectById (db.table src) req.userId = oldUser :: rest ∧
      n = (db.table tgt).autoInc ∧
      tok = jwt_sign { id := n, role_id := some req.targetRole, table_name := none } ∧
      db' = movedDB db src tgt req.userId req.targetRole oldUser ∧
      req.sourceTable db = some src := by
  cases req with
  | viaUpdateRole user body =>
    obtain ⟨src, tgt, hne, hsrc, htgt, hm⟩ := updateRole_migrated h
    obtain ⟨oldUser, rest, hsel, hn, htok, hdb⟩ := crossTableMove_migrated hm
    exact ⟨src, tgt, oldUser, rest, hne, htgt, hsel, hn, htok, hdb, hsrc⟩
  | viaProfile user body =>
    obtain ⟨src, tgt, hne, hsrc, htgt, hm⟩ := updateProfile_migrated h
    obtain ⟨oldUser, rest, hsel, hn, htok, hdb⟩ := crossTableMove_migrated hm
    exact ⟨src, tgt, oldUser, rest, hne, htgt, hsel, hn, htok, hdb, hsrc⟩

theorem verifyToken_next {faults : Nat → Bool} {db : DB} {cookie : Option Token}
    {user : ReqUser} (h : verifyToken faults db cookie = .next user) :
    ∃ decoded u rest, cookie = some (.signed decoded) ∧
      decoded.table_name.bind tableOfName = some user.table_name ∧
      selectById (db.table user.table_name) decoded.id = u :: rest ∧
      user = { id := decoded.id, role := roleMap u.role_id, role_id := u.role_id,
               table_name := user.table_name } := by
  unfold verifyToken at h
  split at h; · simp at h
  rename_i token
  split at h; · simp at h
  rename_i decoded hdec
  split at h; · simp at h
  rename_i tableName htab
  split at h; · simp at h
  split at h; · simp at h
  rename_i u rest hsel
  simp only [MwResult.next.injEq] at h
  subst h
  cases token with
  | refused => simp [jwt_verify] at hdec
  | signed p =>
    simp only [jwt_verify, Option.some.injEq] at hdec
    subst hdec
    exact ⟨p, u, rest, rfl, htab, hsel, rfl⟩

theorem hasRole_roleMap_moderator (r : Nat) :
    hasRole (roleMap r) "moderator" = true ↔ r = 2 ∨ r = 4 := by
  match r with
  | 0 => decide
  | 1 => decide
  | 2 => decide
  | 3 => decide
  | 4 => decide
  | n + 5 =>
    have : roleMap (n + 5) = none := rfl
    rw [this]
    constructor
    · intro h; exact absurd h (by decide)
    · intro h; omega

/-- C1 (the code departs from the claim). Once `verifyToken` has accepted the
caller, the chain of `PUT /users/update-role` reaches the handler exactly for the
callers whose `role_id` is 2 (moderator) or 4 (student), and answers 403 to
every other caller, the admin (1) included. -/
theorem updateRoleChain_admits_iff (faults : Nat → Bool) (db : DB) (cookie : Option Token)
    (user : ReqUser) (h : verifyToken faults db cookie = .next user) :
    (updateRoleChain faults db cookie = .next user ↔ (user.role_id = 2 ∨ user.role_id = 4)) ∧
    (¬(user.role_id = 2 ∨ user.role_id = 4) →
      updateRoleChain faults db cookie
        = .respond (.error 403 (some "INSUFFICIENT_PERMISSIONS"))) := by
  obtain ⟨decoded, u, rest, -, -, -, huser⟩ := verifyToken_next h
  have hrole : user.role = roleMap user.role_id := by rw [huser]
  have hiff := hasRole_roleMap_moderator user.role_id
  unfold updateRoleChain
  rw [h]
  simp only [checkModerator, checkRole, hrole]
  by_cases hk : hasRole (roleMap user.role_id) "moderator" = true
  · simp [hk, hiff.mp hk]
  · have hn : ¬(user.role_id = 2 ∨ user.role_id = 4) := fun hc => hk (hiff.mpr hc)
    simp [hk, hn]

/-- The student of `school` passes the chain and, as the handler of
`/update-role` then runs, turns the own account into an admin; the admin of
`school` is answered 403. -/
theorem updateRoleChain_admits_iff_witness :
    verifyToken noFaults school (some (loginToken bob "users")) = .next bobUser ∧
    ((updateRoleChain noFaults school (some (loginToken bob "users")) = .next bobUser
        ↔ (bobUser.role_id = 2 ∨ bobUser.role_id = 4)) ∧
      (¬(bobUser.role_id = 2 ∨ bobUser.role_id = 4) →
        updateRoleChain noFaults school (some (loginToken bob "users"))
          = .respond (.error 403 (some "INSUFFICIENT_PERMISSIONS")))) ∧
    updateRoleChain noFaults school (some (loginToken adam "admins"))
      = .respond (.error 403 (some "INSUFFICIENT_PERMISSIONS")) ∧
    (putUpdateRole noFaults noFaults school (some (loginToken bob "users"))
        { userId := some 2, newRoleId := some 1 }).2
      = .migrated 2 (jwt_sign { id := 2, role_id := some 1, table_name := none }) :=
  ⟨by decide,
   updateRoleChain_admits_iff noFaults school (some (loginToken bob "users")) bobUser
     (by decide),
   by decide, by decide⟩

/-- C2. A moderator (`role_id` 2) who names a user whose current `role_id`, as
the handler reads it, is 1 or 2 changes nothing in the database, whatever the
body and whichever statement rejects; and when the body is well formed (`userId`
present, `newRoleId` one of 1, 2, 3, 4) and the lookup does not reject, the
answer is 403. -/
theorem updateRole_moderator_forbidden (faults : Nat → Bool) (db : DB) (user : ReqUser)
    (body : UpdateRoleBody) (r : Nat) (rest : List Nat)
    (hcaller : user.role_id = 2)
    (hsubject : unionRoleIds db (body.userId.getD 0) = r :: rest)
    (hrole : r = 1 ∨ r = 2) :
    (updateRole faults db user body).1 = db ∧
    (truthy body.userId = true → truthy body.newRoleId = true →
      body.newRoleId.getD 0 ∈ [1, 2, 3, 4] → faults 0 = false →
      (updateRole faults db user body).2 = .error 403 none) := by
  unfold updateRole
  simp only [hsubject, hcaller]
  constructor
  · split
    · rfl
    · split
      · rfl
      · simp [hrole]
  · intro h1 h2 h3 h4
    have h3' : ¬(¬body.newRoleId.getD 0 = 1 ∧ ¬body.newRoleId.getD 0 = 2 ∧
        ¬body.newRoleId.getD 0 = 3 ∧ ¬body.newRoleId.getD 0 = 4) := by
      simp only [List.mem_cons, List.mem_singleton, List.not_mem_nil, or_false] at h3
      omega
    simp [h1, h2, h4, hrole, h3']

/-- The moderator of `school` asks to turn the admin (id 1) into a teacher. -/
theorem updateRole_moderator_forbidden_witness :
    miraUser.role_id = 2 ∧ unionRoleIds school 1 = [1] ∧
    (updateRole noFaults school miraUser { userId := some 1, newRoleId := some 3 }).1 = school ∧
    (updateRole noFaults school miraUser { userId := some 1, newRoleId := some 3 }).2
      = .error 403 none :=
  have h := updateRole_moderator_forbidden noFaults school miraUser
    { userId := some 1, newRoleId := some 3 } 1 [] rfl (by decide) (Or.inl rfl)
  ⟨rfl, by decide, h.1, h.2 (by decide) (by decide) (by decide) rfl⟩

/-! ## The tables of a completed move -/

theorem movedDB_sessions (db : DB) (src tgt : TableName) (userId roleId : Nat) (oldUser : Row) :
    (movedDB db src tgt userId roleId oldUser).sessions
      = relinkSessions db.sessions userId (db.table tgt).autoInc := by
  simp [movedDB, sessions_setTable]

theorem movedDB_user_settings (db : DB) (src tgt : TableName) (userId roleId : Nat)
    (oldUser : Row) :
    (movedDB db src tgt userId roleId oldUser).user_settings
      = copySettings db.user_settings userId (db.table tgt).autoInc := by
  simp [movedDB, user_settings_setTable]

theorem movedDB_teacher_subjects (db : DB) (src tgt : TableName) (userId roleId : Nat)
    (oldUser : Row) :
    (movedDB db src tgt userId roleId oldUser).teacher_subjects
      = if roleId = 3 then copyTeacherSubjects db.teacher_subjects userId (db.table tgt).autoInc
        else db.teacher_subjects := by
  simp [movedDB, teacher_subjects_setTable]

theorem movedDB_table_target (db : DB) {src tgt : TableName} (userId roleId : Nat)
    (oldUser : Row) (hne : src ≠ tgt) :
    (movedDB db src tgt userId roleId oldUser).table tgt
      = { rows := (db.table tgt).rows ++ [migratedRow oldUser roleId (db.table tgt).autoInc],
          autoInc := (db.table tgt).autoInc + 1 } := by
  cases src <;> cases tgt <;>
    first
    | exact absurd rfl hne
    | simp [movedDB, DB.setTable, DB.table, insertAuto]

theorem movedDB_table_source (db : DB) {src tgt : TableName} (userId roleId : Nat)
    (oldUser : Row) (hne : src ≠ tgt) :
    (movedDB db src tgt userId roleId oldUser).table src
      = deleteById (db.table src) userId := by
  cases src <;> cases tgt <;>
    first
    | exact absurd rfl hne
    | simp [movedDB, DB.setTable, DB.table, insertAuto]

theorem movedDB_table_other (db : DB) {src tgt t : TableName} (userId roleId : Nat)
    (oldUser : Row) (hs : t ≠ src) (ht : t ≠ tgt) :
    (movedDB db src tgt userId roleId oldUser).table t = db.table t := by
  cases src <;> cases tgt <;> cases t <;>
    first
    | exact absurd rfl hs
    | exact absurd rfl ht
    | simp [movedDB, DB.setTable, DB.table, insertAuto]

/-- When no statement rejects and the source row exists, the block completes. -/
theorem crossTableMove_noFaults (k : Nat) (db : DB) (src tgt : TableName)
    (userId roleId : Nat) (oldUser : Row) (rest : List Row)
    (hsel : selectById (db.table src) userId = oldUser :: rest) :
    crossTableMove noFaults k db src tgt userId roleId
      = (movedDB db src tgt userId roleId oldUser,
         .migrated (db.table tgt).autoInc
           (jwt_sign { id := (db.table tgt).autoInc, role_id := some roleId,
                       table_name := none })) := by
  unfold crossTableMove
  simp only [noFaults, hsel]
  by_cases hr : roleId = 3
  · subst hr
    cases tgt <;> cases src <;> simp [movedDB, DB.setTable, DB.table, insertAuto]
  · cases tgt <;> cases src <;> simp [movedDB, DB.setTable, DB.table, insertAuto, hr]

/-- When the `UPDATE sessions` rejects, the row already inserted stays. -/
theorem crossTableMove_sessions_fault (k : Nat) (db : DB) (src tgt : TableName)
    (userId roleId : Nat) (oldUser : Row) (rest : List Row) (faults : Nat → Bool)
    (hsel : selectById (db.table src) userId = oldUser :: rest)
    (h0 : faults k = false) (h1 : faults (k + 1) = false) (h2 : faults (k + 2) = true) :
    crossTableMove faults k db src tgt userId roleId
      = (db.setTable tgt (insertAuto (db.table tgt) (migratedRow oldUser roleId)).1,
         .error 500 none) := by
  unfold crossTableMove
  simp [h0, h1, h2, hsel]

/-- A request that `/update-role` answers with a move runs the block, and does so
whichever later statement rejects. -/
theorem updateRole_reaches_block {faults : Nat → Bool} {db db' : DB} {user : ReqUser}
    {body : UpdateRoleBody} {n : Nat} {tok : Token}
    (h : updateRole faults db user body = (db', .migrated n tok)) :
    ∃ src tgt, src ≠ tgt ∧ ∀ faults' : Nat → Bool, faults' 0 = false →
      updateRole faults' db user body
        = crossTableMove faults' 1 db src tgt (body.userId.getD 0) (body.newRoleId.getD 0) := by
  unfold updateRole at h
  simp only at h
  split at h; · simp at h
  rename_i hvalid
  split at h; · simp at h
  split at h; · simp at h
  rename_i r rest hunion
  split at h; · simp at h
  rename_i hguard
  split at h; · simp at h
  rename_i src hsrc
  split at h; · simp at h
  rename_i tgt htgt
  split at h
  · rename_i hne
    refine ⟨src, tgt, hne, ?_⟩
    intro faults' h0
    unfold updateRole
    simp only [hvalid, h0, hunion, hguard, hsrc, htgt, hne]
    simp [hne]
  · split at h <;> simp at h

/-- A request that `/profile` answers with a move runs the block, and does so
whichever statement rejects. -/
theorem updateProfile_reaches_block {faults : Nat → Bool} {db db' : DB} {user : ReqUser}
    {body : ProfileBody} {n : Nat} {tok : Token}
    (h : updateProfile faults db user body = (db', .migrated n tok)) :
    ∃ src tgt, src ≠ tgt ∧ ∀ faults' : Nat → Bool,
      updateProfile faults' db user body
        = crossTableMove faults' 0 db src tgt user.id (body.role_id.getD 0) := by
  have hin := updateProfileInPlace_not_migrated faults db user.id user.role_id body n tok
  unfold updateProfile at h
  simp only at h
  split at h; · simp at h
  rename_i src hsrc
  split at h
  · rename_i hcond
    split at h; · simp at h
    rename_i tgt htgt
    split at h
    · rename_i hne
      refine ⟨src, tgt, hne, ?_⟩
      intro faults'
      unfold updateProfile
      simp only [hsrc, hcond, htgt, hne]
      simp [hne, hcond.2]
    · rw [h] at hin; exact absurd rfl hin
  · rw [h] at hin; exact absurd rfl hin

/-- C3 (the code departs from the claim). `PUT /users/profile` puts no bound on
the role a caller asks for: a teacher or student (`role_id` 3 or 4) whose row is
in the table of that role and who sends `role_id` 1 or 2 is moved into `admins`,
respectively `moders`, with the requested `role_id`, and is handed a token that
carries it. -/
theorem updateProfile_self_promotion (db : DB) (user : ReqUser) (body : ProfileBody)
    (src : TableName) (oldUser : Row) (rest : List Row)
    (hcaller : user.role_id = 3 ∨ user.role_id = 4)
    (hbody : body.role_id = some 1 ∨ body.role_id = some 2)
    (hsrc : tableOfRole user.role_id = some src)
    (hrow : selectById (db.table src) user.id = oldUser :: rest) :
    ∃ (tgt : TableName) (newId : Nat) (db' : DB),
      (tgt = .admins ∨ tgt = .moders) ∧
      updateProfile noFaults db user body
        = (db', .migrated newId
            (jwt_sign { id := newId, role_id := body.role_id, table_name := none })) ∧
      (∃ row ∈ (db'.table tgt).rows, row.id = newId ∧ some row.role_id = body.role_id ∧
        row.login = oldUser.login ∧ row.password = oldUser.password) ∧
      selectById (db'.table src) user.id = [] := by
  have key : ∀ (roleId : Nat) (tgt : TableName), body.role_id = some roleId →
      tableOfRole roleId = some tgt → roleId ≠ 0 → roleId ≠ user.role_id → src ≠ tgt →
      updateProfile noFaults db user body
        = (movedDB db src tgt user.id roleId oldUser,
           .migrated (db.table tgt).autoInc
             (jwt_sign { id := (db.table tgt).autoInc, role_id := body.role_id,
                         table_name := none })) := by
    intro roleId tgt hb ht h0 hne hst
    unfold updateProfile
    simp only [hsrc, hb, Option.getD_some, ht, truthy]
    simp only [bne_iff_ne, ne_eq, h0, not_false_eq_true, hne, and_self, if_true, hst]
    exact crossTableMove_noFaults 0 db src tgt user.id roleId oldUser rest hrow
  have hsrc' : src = .teachers ∨ src = .users := by
    rcases hcaller with hc | hc <;> rw [hc] at hsrc <;> simp [tableOfRole] at hsrc <;>
      simp [← hsrc]
  have fin : ∀ (roleId : Nat) (tgt : TableName), body.role_id = some roleId → src ≠ tgt →
      (∃ row ∈ ((movedDB db src tgt user.id roleId oldUser).table tgt).rows,
        row.id = (db.table tgt).autoInc ∧ some row.role_id = body.role_id ∧
        row.login = oldUser.login ∧ row.password = oldUser.password) ∧
      selectById ((movedDB db src tgt user.id roleId oldUser).table src) user.id = [] := by
    intro roleId tgt hb hst
    rw [movedDB_table_target db user.id roleId oldUser hst,
      movedDB_table_source db user.id roleId oldUser hst]
    refine ⟨⟨migratedRow oldUser roleId (db.table tgt).autoInc, by simp, rfl, ?_, rfl, rfl⟩,
      ?_⟩
    · rw [hb]; rfl
    · simp [selectById, deleteById, List.filter_filter]
  rcases hbody with hb | hb
  · have hst : src ≠ .admins := by rcases hsrc' with h | h <;> simp [h]
    have hne : (1 : Nat) ≠ user.role_id := by rcases hcaller with h | h <;> omega
    exact ⟨.admins, _, _, Or.inl rfl, key 1 .admins hb rfl (by decide) hne hst,
      fin 1 .admins hb hst⟩
  · have hst : src ≠ .moders := by rcases hsrc' with h | h <;> simp [h]
    have hne : (2 : Nat) ≠ user.role_id := by rcases hcaller with h | h <;> omega
    exact ⟨.moders, _, _, Or.inr rfl, key 2 .moders hb rfl (by decide) hne hst,
      fin 2 .moders hb hst⟩

/-- The student of `school` sends `role_id` 1 to `PUT /users/profile`: the route
answers with a token for an admin, and `admins` holds the student's row under id 2. -/
theorem updateProfile_self_promotion_witness :
    (bobUser.role_id = 3 ∨ bobUser.role_id = 4) ∧
    selectById (school.table .users) bobUser.id = [bob] ∧
    (∃ (tgt : TableName) (newId : Nat) (db' : DB),
      (tgt = .admins ∨ tgt = .moders) ∧
      updateProfile noFaults school bobUser (onlyRole 1)
        = (db', .migrated newId
            (jwt_sign { id := newId, role_id := (onlyRole 1).role_id, table_name := none })) ∧
      (∃ row ∈ (db'.table tgt).rows, row.id = newId ∧
        some row.role_id = (onlyRole 1).role_id ∧
        row.login = bob.login ∧ row.password = bob.password) ∧
      selectById (db'.table .users) bobUser.id = []) ∧
    (putProfile noFaults noFaults school (some (loginToken bob "users")) (onlyRole 1)).2
      = .migrated 2 (jwt_sign { id := 2, role_id := some 1, table_name := none }) ∧
    (putProfile noFaults noFaults school (some (loginToken bob "users")) (onlyRole 1)).1.admins.rows
      = [adam, { bob with role_id := 1 }] :=
  ⟨Or.inr rfl, by decide,
   updateProfile_self_promotion school bobUser (onlyRole 1) .users bob [] (Or.inr rfl)
     (Or.inl rfl) rfl (by decide),
   by decide, by decide⟩

/-- C5 (the code departs from the claim). The handlers run outside a transaction:
for every request that completes a move when nothing rejects, there is a statement
(the `UPDATE sessions`) whose rejection makes the same request answer 500 while
the row inserted into the target table stays, so the database is not the one
before the request. -/
theorem migration_not_atomic (db db' : DB) (req : MigrationRequest) (n : Nat) (tok : Token)
    (h : handle noFaults db req = (db', .migrated n tok)) :
    ∃ (j : Nat) (tgt : TableName) (row : Row),
      row.id = n ∧ row.role_id = req.targetRole ∧
      handle (failAt j) db req
        = (db.setTable tgt
            { rows := (db.table tgt).rows ++ [row], autoInc := (db.table tgt).autoInc + 1 },
           .error 500 none) ∧
      (handle (failAt j) db req).1 ≠ db := by
  have hne_db : ∀ (tgt : TableName) (row : Row),
      db.setTable tgt
        { rows := (db.table tgt).rows ++ [row], autoInc := (db.table tgt).autoInc + 1 } ≠ db := by
    intro tgt row hc
    have := congrArg (fun d => (d.table tgt).autoInc) hc
    simp only [table_setTable_same] at this
    omega
  cases req with
  | viaUpdateRole user body =>
    obtain ⟨src, tgt, _, hall⟩ := updateRole_reaches_block h
    have hm := hall noFaults rfl
    rw [show updateRole noFaults db user body = (db', .migrated n tok) from h] at hm
    obtain ⟨oldUser, rest, hsel, hn, -, -⟩ := crossTableMove_migrated hm.symm
    have hrun : handle (failAt 3) db (.viaUpdateRole user body)
        = (db.setTable tgt (insertAuto (db.table tgt)
            (migratedRow oldUser (body.newRoleId.getD 0))).1, .error 500 none) := by
      show updateRole (failAt 3) db user body = _
      rw [hall (failAt 3) rfl]
      exact crossTableMove_sessions_fault 1 db src tgt _ _ oldUser rest (failAt 3) hsel
        rfl rfl rfl
    refine ⟨3, tgt, migratedRow oldUser (body.newRoleId.getD 0) (db.table tgt).autoInc,
      hn.symm, rfl, hrun, ?_⟩
    rw [hrun]
    exact hne_db tgt _
  | viaProfile user body =>
    obtain ⟨src, tgt, _, hall⟩ := updateProfile_reaches_block h
    have hm := hall noFaults
    rw [show updateProfile noFaults db user body = (db', .migrated n tok) from h] at hm
    obtain ⟨oldUser, rest, hsel, hn, -, -⟩ := crossTableMove_migrated hm.symm
    have hrun : handle (failAt 2) db (.viaProfile user body)
        = (db.setTable tgt (insertAuto (db.table tgt)
            (migratedRow oldUser (body.role_id.getD 0))).1, .error 500 none) := by
      show updateProfile (failAt 2) db user body = _
      rw [hall (failAt 2)]
      exact crossTableMove_sessions_fault 0 db src tgt _ _ oldUser rest (failAt 2) hsel
        rfl rfl rfl
    refine ⟨2, tgt, migratedRow oldUser (body.role_id.getD 0) (db.table tgt).autoInc,
      hn.symm, rfl, hrun, ?_⟩
    rw [hrun]
    exact hne_db tgt _

/-- C6 (the code departs from the claim). The token a completed move returns has
no `table_name`, so `verifyToken` answers it with 400 `INVALID_TABLE_NAME` and
never calls `next()`. -/
theorem migration_token_rejected (faults faults' : Nat → Bool) (db db' : DB)
    (req : MigrationRequest) (n : Nat) (tok : Token)
    (h : handle faults db req = (db', .migrated n tok)) :
    verifyToken faults' db' (some tok) = .respond (.error 400 (some "INVALID_TABLE_NAME")) := by
  obtain ⟨src, tgt, oldUser, rest, -, -, -, -, htok, -, -⟩ := handle_migrated h
  subst htok
  rfl

/-- The run of `moveBob` on `school`. -/
theorem handle_moveBob :
    handle noFaults school moveBob = (schoolMoved, .migrated 3 movedToken) := by
  decide

/-- The moderator of `school` makes the student a teacher; with the `UPDATE
sessions` rejecting, the answer is 500 and `teachers` keeps the inserted row; with
the final `DELETE` rejecting, the person is left in both `users` and `teachers`. -/
theorem migration_not_atomic_witness :
    handle noFaults school moveBob = (schoolMoved, .migrated 3 movedToken) ∧
    (∃ (j : Nat) (tgt : TableName) (row : Row),
      row.id = 3 ∧ row.role_id = moveBob.targetRole ∧
      handle (failAt j) school moveBob
        = (school.setTable tgt
            { rows := (school.table tgt).rows ++ [row],
              autoInc := (school.table tgt).autoInc + 1 },
           .error 500 none) ∧
      (handle (failAt j) school moveBob).1 ≠ school) ∧
    handle (failAt 3) school moveBob
      = ({ school with teachers := { rows := [bobTeacher], autoInc := 4 } }, .error 500 none) ∧
    handle (failAt 6) school moveBob
      = ({ schoolMoved with users := school.users }, .error 500 none) :=
  ⟨handle_moveBob,
   migration_not_atomic school schoolMoved moveBob 3 movedToken handle_moveBob,
   by decide, by decide⟩

/-- The token returned to the moderator of `school` for the moved student is
answered with 400 by `verifyToken` on the database the move left. -/
theorem migration_token_rejected_witness :
    handle noFaults school moveBob = (schoolMoved, .migrated 3 movedToken) ∧
    verifyToken noFaults schoolMoved (some movedToken)
      = .respond (.error 400 (some "INVALID_TABLE_NAME")) :=
  ⟨handle_moveBob,
   migration_token_rejected noFaults noFaults school schoolMoved moveBob 3 movedToken
     handle_moveBob⟩

/-- C7. Session continuity: after a completed cross-table move through either
handler, the `sessions` table is the one before with `user_id` set to `newUserId`
in exactly the rows whose `user_id` was the subject's id, every other row being
as it was; and the target role table holds a row whose id is `newUserId`. -/
theorem migration_relinks_sessions (faults : Nat → Bool) (db db' : DB)
    (req : MigrationRequest) (n : Nat) (tok : Token)
    (h : handle faults db req = (db', .migrated n tok)) :
    db'.sessions
      = db.sessions.map
          (fun s => if s.user_id = req.userId then { s with user_id := n } else s) ∧
    ∃ tgt, tableOfRole req.targetRole = some tgt ∧
      ∃ row ∈ (db'.table tgt).rows, row.id = n := by
  obtain ⟨src, tgt, oldUser, rest, hne, htgt, -, hn, -, hdb, -⟩ := handle_migrated h
  subst hdb hn
  refine ⟨?_, tgt, htgt, ?_⟩
  · rw [movedDB_sessions]
    simp [relinkSessions]
  · rw [movedDB_table_target db _ _ oldUser hne]
    exact ⟨migratedRow oldUser req.targetRole (db.table tgt).autoInc, by simp, rfl⟩

/-- In `school` the session of the student moves to `user_id` 3, the session
of the moderator stays as it was. -/
theorem migration_relinks_sessions_witness :
    handle noFaults school moveBob = (schoolMoved, .migrated 3 movedToken) ∧
    (schoolMoved.sessions
      = school.sessions.map
          (fun s => if s.user_id = moveBob.userId then { s with user_id := 3 } else s) ∧
     ∃ tgt, tableOfRole moveBob.targetRole = some tgt ∧
       ∃ row ∈ (schoolMoved.table tgt).rows, row.id = 3) :=
  ⟨handle_moveBob,
   migration_relinks_sessions noFaults school schoolMoved moveBob 3 movedToken handle_moveBob⟩

/-- C9. After a completed cross-table move through either handler, exactly one
row is appended to the target table; its id is `newUserId`, its `email`, `login`,
`password`, `first_name`, `last_name`, `patronymic`, `phone`, `birth_date` and
`profileCompleted` are those of the row read from the source table, and its
`role_id` is the requested role. -/
theorem migration_copies_profile (faults : Nat → Bool) (db db' : DB)
    (req : MigrationRequest) (n : Nat) (tok : Token)
    (h : handle faults db req = (db', .migrated n tok)) :
    ∃ (src tgt : TableName) (oldUser : Row) (rest : List Row) (row : Row),
      req.sourceTable db = some src ∧ tableOfRole req.targetRole = some tgt ∧
      selectById (db.table src) req.userId = oldUser :: rest ∧
      (db'.table tgt).rows = (db.table tgt).rows ++ [row] ∧
      row.id = n ∧ row.email = oldUser.email ∧ row.login = oldUser.login ∧
      row.password = oldUser.password ∧ row.first_name = oldUser.first_name ∧
      row.last_name = oldUser.last_name ∧ row.patronymic = oldUser.patronymic ∧
      row.phone = oldUser.phone ∧ row.birth_date = oldUser.birth_date ∧
      row.profileCompleted = oldUser.profileCompleted ∧ row.role_id = req.targetRole := by
  obtain ⟨src, tgt, oldUser, rest, hne, htgt, hsel, hn, -, hdb, hsrc⟩ := handle_migrated h
  subst hdb hn
  refine ⟨src, tgt, oldUser, rest, migratedRow oldUser req.targetRole (db.table tgt).autoInc,
    hsrc, htgt, hsel, ?_, rfl, rfl, rfl, rfl, rfl, rfl, rfl, rfl, rfl, rfl, rfl⟩
  rw [movedDB_table_target db _ _ oldUser hne]

/-- In `school` the row appended to `teachers` is the student's, with id 3 and
`role_id` 3. -/
theorem migration_copies_profile_witness :
    handle noFaults school moveBob = (schoolMoved, .migrated 3 movedToken) ∧
    ∃ (src tgt : TableName) (oldUser : Row) (rest : List Row) (row : Row),
      moveBob.sourceTable school = some src ∧ tableOfRole moveBob.targetRole = some tgt ∧
      selectById (school.table src) moveBob.userId = oldUser :: rest ∧
      (schoolMoved.table tgt).rows = (school.table tgt).rows ++ [row] ∧
      row.id = 3 ∧ row.email = oldUser.email ∧ row.login = oldUser.login ∧
      row.password = oldUser.password ∧ row.first_name = oldUser.first_name ∧
      row.last_name = oldUser.last_name ∧ row.patronymic = oldUser.patronymic ∧
      row.phone = oldUser.phone ∧ row.birth_date = oldUser.birth_date ∧
      row.profileCompleted = oldUser.profileCompleted ∧ row.role_id = moveBob.targetRole :=
  ⟨handle_moveBob,
   migration_copies_profile noFaults school schoolMoved moveBob 3 movedToken handle_moveBob⟩

/-- C10. After a completed cross-table move through either handler: when the
target role is 3, `teacher_subjects` is the table before followed by added rows,
and the added rows are exactly the rows `(newUserId, s)` for the rows
`(userId, s)` of the table before; when the target role is not 3, the table is
the one before, so the rows of a teacher who was moved out stay under the old
id. -/
theorem migration_teacher_subjects (faults : Nat → Bool) (db db' : DB)
    (req : MigrationRequest) (n : Nat) (tok : Token)
    (h : handle faults db req = (db', .migrated n tok)) :
    (req.targetRole = 3 →
      ∃ added : List TeacherSubject,
        db'.teacher_subjects = db.teacher_subjects ++ added ∧
        added = (db.teacher_subjects.filter (fun r => r.teacher_id = req.userId)).map
                  (fun r => { teacher_id := n, subject_id := r.subject_id }) ∧
        ∀ x : TeacherSubject, x ∈ added ↔
          (x.teacher_id = n ∧
            ({ teacher_id := req.userId, subject_id := x.subject_id } : TeacherSubject)
              ∈ db.teacher_subjects)) ∧
    (req.targetRole ≠ 3 → db'.teacher_subjects = db.teacher_subjects) := by
  obtain ⟨src, tgt, oldUser, rest, -, -, -, hn, -, hdb, -⟩ := handle_migrated h
  subst hdb hn
  rw [movedDB_teacher_subjects]
  constructor
  · intro h3
    refine ⟨_, ?_, rfl, ?_⟩
    · have hbeq : (fun r : TeacherSubject => r.teacher_id == req.userId)
          = (fun r => decide (r.teacher_id = req.userId)) := by
        funext r
        rw [Bool.eq_iff_iff]
        simp
      simp [h3, copyTeacherSubjects, hbeq]
    · intro x
      simp only [List.mem_map, List.mem_filter, decide_eq_true_eq]
      constructor
      · rintro ⟨r, ⟨hr, hid⟩, rfl⟩
        refine ⟨rfl, ?_⟩
        have : r = ({ teacher_id := req.userId, subject_id := r.subject_id } : TeacherSubject) := by
          cases r; simp_all
        rw [← this]; exact hr
      · rintro ⟨hx, hmem⟩
        refine ⟨_, ⟨hmem, rfl⟩, ?_⟩
        cases x; simp_all
  · intro h3
    simp [h3]

/-- In `school` the subject row `(2, 1)` left from the time the student taught
is copied to `(3, 1)` when the student becomes a teacher, and `teacher_subjects`
does not change when the student becomes a moderator. -/
theorem migration_teacher_subjects_witness :
    handle noFaults school moveBob = (schoolMoved, .migrated 3 movedToken) ∧
    ((moveBob.targetRole = 3 →
      ∃ added : List TeacherSubject,
        schoolMoved.teacher_subjects = school.teacher_subjects ++ added ∧
        added = (school.teacher_subjects.filter (fun r => r.teacher_id = moveBob.userId)).map
                  (fun r => { teacher_id := 3, subject_id := r.subject_id }) ∧
        ∀ x : TeacherSubject, x ∈ added ↔
          (x.teacher_id = 3 ∧
            ({ teacher_id := moveBob.userId, subject_id := x.subject_id } : TeacherSubject)
              ∈ school.teacher_subjects)) ∧
     (moveBob.targetRole ≠ 3 → schoolMoved.teacher_subjects = school.teacher_subjects)) ∧
    schoolMoved.teacher_subjects
      = [{ teacher_id := 2, subject_id := 1 }, { teacher_id := 3, subject_id := 1 }] ∧
    (handle noFaults school promoteBob).1.teacher_subjects = school.teacher_subjects :=
  ⟨handle_moveBob,
   migration_teacher_subjects noFaults school schoolMoved moveBob 3 movedToken handle_moveBob,
   rfl, by decide⟩

/-! ## The copy of the settings row -/

/-- Once a row keyed `n` is there, the fold of `copySettings` adds nothing. -/
theorem copySettings_fold_of_present (n : Nat) (l : List Setting) (acc : List Setting)
    (hacc : acc.any (fun x => x.user_id == n) = true) :
    l.foldl
      (fun acc s =>
        if acc.any (fun x => x.user_id == n) then acc
        else acc ++ [{ user_id := n, language := s.language }])
      acc = acc := by
  induction l with
  | nil => rfl
  | cons a l ih => simp only [List.foldl_cons, hacc, if_true]; exact ih

theorem copySettings_of_present (settings : List Setting) (userId n : Nat)
    (h : ∃ s ∈ settings, s.user_id = n) :
    copySettings settings userId n = settings := by
  unfold copySettings
  apply copySettings_fold_of_present
  obtain ⟨s, hs, hn⟩ := h
  simp only [List.any_eq_true, beq_iff_eq]
  exact ⟨s, hs, hn⟩

theorem copySettings_of_absent (settings : List Setting) (userId n : Nat)
    (h : ∀ s ∈ settings, s.user_id ≠ userId) :
    copySettings settings userId n = settings := by
  unfold copySettings
  have : settings.filter (fun s => s.user_id == userId) = [] := by
    simp only [List.filter_eq_nil_iff, beq_iff_eq]
    exact h
  rw [this]
  rfl

theorem copySettings_of_fresh (settings : List Setting) (userId n : Nat) (lang : String)
    (hkey : (settings.map (fun s => s.user_id)).Nodup)
    (hlang : ({ user_id := userId, language := lang } : Setting) ∈ settings)
    (hfresh : ∀ s ∈ settings, s.user_id ≠ n) :
    copySettings settings userId n = settings ++ [{ user_id := n, language := lang }] := by
  unfold copySettings
  have hmem : ({ user_id := userId, language := lang } : Setting)
      ∈ settings.filter (fun s => s.user_id == userId) := by
    simp [List.mem_filter, hlang]
  obtain ⟨a, l, hal⟩ : ∃ a l, settings.filter (fun s => s.user_id == userId) = a :: l := by
    cases hf : settings.filter (fun s => s.user_id == userId) with
    | nil => rw [hf] at hmem; simp at hmem
    | cons a l => exact ⟨a, l, rfl⟩
  have ha : a ∈ settings ∧ a.user_id = userId := by
    have : a ∈ settings.filter (fun s => s.user_id == userId) := by rw [hal]; simp
    simpa [List.mem_filter] using this
  have haeq : a = { user_id := userId, language := lang } :=
    List.inj_on_of_nodup_map hkey ha.1 hlang ha.2
  have hnone : settings.any (fun x => x.user_id == n) = false := by
    rw [Bool.eq_false_iff]
    intro hc
    simp only [List.any_eq_true, beq_iff_eq] at hc
    obtain ⟨s, hs, hn⟩ := hc
    exact hfresh s hs hn
  rw [hal, List.foldl_cons, hnone]
  simp only [Bool.false_eq_true, if_false]
  rw [copySettings_fold_of_present n l _ (by simp), haeq]

theorem copySettings_appends (settings : List Setting) (userId n : Nat) :
    ∃ added : List Setting, copySettings settings userId n = settings ++ added ∧
      ∀ x ∈ added, x.user_id = n := by
  by_cases hp : settings.any (fun x => x.user_id == n) = true
  · refine ⟨[], ?_, by simp⟩
    unfold copySettings
    rw [copySettings_fold_of_present n _ _ hp]
    simp
  · unfold copySettings
    cases hf : settings.filter (fun s => s.user_id == userId) with
    | nil => exact ⟨[], by simp, by simp⟩
    | cons a l =>
      refine ⟨[{ user_id := n, language := a.language }], ?_, by simp⟩
      rw [List.foldl_cons]
      simp only [hp, if_false]
      exact copySettings_fold_of_present n l _ (by simp)

/-- The run of `promoteBob` on `school`. -/
theorem handle_promoteBob :
    handle noFaults school promoteBob = (schoolPromoted, .migrated 4 promotedToken) := by
  decide

/-- C8 (refuted as stated). The moderator of `school` makes the student (id 2,
language "kz") a moderator: `newUserId` is 4, and `user_settings` still holds the
row keyed 2. When the student is made a teacher instead, `newUserId` is 3, the
key of the moderator's row, and the row keyed 3 keeps the moderator's language
"ru". -/
theorem settings_old_row_stays :
    handle noFaults school promoteBob = (schoolPromoted, .migrated 4 promotedToken) ∧
    (4 : Nat) ≠ promoteBob.userId ∧
    ({ user_id := promoteBob.userId, language := "kz" } : Setting) ∈ school.user_settings ∧
    ¬ (∀ s ∈ schoolPromoted.user_settings, s.user_id ≠ promoteBob.userId) ∧
    handle noFaults school moveBob = (schoolMoved, .migrated 3 movedToken) ∧
    (3 : Nat) ≠ moveBob.userId ∧
    schoolMoved.user_settings.filter (fun s => s.user_id == 3)
      = [{ user_id := 3, language := "ru" }] := by
  refine ⟨handle_promoteBob, by decide, by decide, by decide, handle_moveBob, by decide,
    by decide⟩

/-- C8 (amended). After a completed cross-table move through either handler,
`user_settings` is the table before followed by rows keyed `newUserId`, so the
row keyed by the old id stays. When `user_id` is a unique key of the table
before, the subject had the row `(userId, lang)` and no row was keyed
`newUserId`, exactly the row `(newUserId, lang)` is added; when a row keyed
`newUserId` was there, the table is left as it was. -/
theorem migration_copies_settings (faults : Nat → Bool) (db db' : DB)
    (req : MigrationRequest) (n : Nat) (tok : Token)
    (h : handle faults db req = (db', .migrated n tok)) :
    (∃ added : List Setting, db'.user_settings = db.user_settings ++ added ∧
      ∀ x ∈ added, x.user_id = n) ∧
    (∀ lang : String, (db.user_settings.map (fun s => s.user_id)).Nodup →
      ({ user_id := req.userId, language := lang } : Setting) ∈ db.user_settings →
      (∀ s ∈ db.user_settings, s.user_id ≠ n) →
      db'.user_settings = db.user_settings ++ [{ user_id := n, language := lang }]) ∧
    ((∃ s ∈ db.user_settings, s.user_id = n) → db'.user_settings = db.user_settings) := by
  obtain ⟨src, tgt, oldUser, rest, -, -, -, hn, -, hdb, -⟩ := handle_migrated h
  subst hdb hn
  rw [movedDB_user_settings]
  exact ⟨copySettings_appends _ _ _,
    fun lang hkey hlang hfresh => copySettings_of_fresh _ _ _ lang hkey hlang hfresh,
    fun hp => copySettings_of_present _ _ _ hp⟩

/-- In `school`, making the student a moderator adds the row `(4, "kz")` and
keeps the row `(2, "kz")`. -/
theorem migration_copies_settings_witness :
    handle noFaults school promoteBob = (schoolPromoted, .migrated 4 promotedToken) ∧
    ((∃ added : List Setting, schoolPromoted.user_settings = school.user_settings ++ added ∧
      ∀ x ∈ added, x.user_id = 4) ∧
    (∀ lang : String, (school.user_settings.map (fun s => s.user_id)).Nodup →
      ({ user_id := promoteBob.userId, language := lang } : Setting) ∈ school.user_settings →
      (∀ s ∈ school.user_settings, s.user_id ≠ 4) →
      schoolPromoted.user_settings
        = school.user_settings ++ [{ user_id := 4, language := lang }]) ∧
    ((∃ s ∈ school.user_settings, s.user_id = 4) →
      schoolPromoted.user_settings = school.user_settings)) ∧
    schoolPromoted.user_settings
      = school.user_settings ++ [{ user_id := 4, language := "kz" }] :=
  have hw := migration_copies_settings noFaults school schoolPromoted promoteBob 4
    promotedToken handle_promoteBob
  ⟨handle_promoteBob, hw, hw.2.1 "kz" (by decide) (by decide) (by decide)⟩

/-! ## Which tables hold an id -/

theorem holders_unique {db : DB} {id : Nat} {src : TableName}
    (hone : (holders db id).length = 1) (hsrc : selectById (db.table src) id ≠ []) :
    holders db id = [src] ∧ ∀ t, t ≠ src → selectById (db.table t) id = [] := by
  have key : ∀ t, (selectById (db.table t) id).isEmpty = true →
      selectById (db.table t) id = [] := fun t h => List.isEmpty_iff.mp h
  have hs : (selectById (db.table src) id).isEmpty = false := by
    cases hh : selectById (db.table src) id with
    | nil => exact absurd hh hsrc
    | cons a l => rfl
  have eu := Bool.eq_false_or_eq_true (selectById (db.table .users) id).isEmpty
  have et := Bool.eq_false_or_eq_true (selectById (db.table .teachers) id).isEmpty
  have em := Bool.eq_false_or_eq_true (selectById (db.table .moders) id).isEmpty
  have ea := Bool.eq_false_or_eq_true (selectById (db.table .admins) id).isEmpty
  unfold holders at hone ⊢
  simp only [List.filter_cons, List.filter_nil] at hone ⊢
  cases src <;> rcases eu with eu | eu <;> rcases et with et | et <;>
    rcases em with em | em <;> rcases ea with ea | ea <;>
    simp only [eu, et, em, ea, Bool.not_true, Bool.not_false, if_true, if_false,
      Bool.false_eq_true, List.length_cons, List.length_nil] at hone hs ⊢ <;>
    first
    | omega
    | exact absurd hs (by decide)
    | (refine ⟨trivial, ?_⟩
       intro t hne
       cases t <;> first | exact absurd rfl hne | exact key _ (by assumption))

theorem selectById_deleteById (t : Table) (id : Nat) :
    selectById (deleteById t id) id = [] := by
  simp [selectById, deleteById, List.filter_filter]

theorem selectById_counter (t : Table) (h : ∀ r ∈ t.rows, r.id < t.autoInc) :
    selectById t t.autoInc = [] := by
  simp only [selectById, List.filter_eq_nil_iff, beq_iff_eq]
  intro r hr hc
  have := h r hr
  omega

/-- C4 (refuted as stated). In `school` the student's id 2 is in `users` alone.
Made a teacher, the student gets `newUserId` 3, the next id of `teachers`, which
is also the id of the moderator in `moders`: two role tables hold a row with id
`newUserId`. Made an admin, the student gets `newUserId` 2, the next id of
`admins`: a role table still holds a row with the old id. -/
theorem exclusivity_counterexample :
    (holders school moveBob.userId).length = 1 ∧
    handle noFaults school moveBob = (schoolMoved, .migrated 3 movedToken) ∧
    holders schoolMoved 3 = [.teachers, .moders] ∧
    ¬ ((holders schoolMoved 3).length = 1 ∧ holders schoolMoved moveBob.userId = []) ∧
    (holders school crownBob.userId).length = 1 ∧
    (handle noFaults school crownBob).2
      = .migrated 2 (jwt_sign { id := 2, role_id := some 1, table_name := none }) ∧
    holders (handle noFaults school crownBob).1 crownBob.userId = [.admins] := by
  refine ⟨by decide, handle_moveBob, by decide, by decide, by decide, by decide, by decide⟩

/-- C4 (amended). From a database in which the subject's id is in exactly one
role table and the ids of every role table are below its counter, a completed
cross-table move through either handler leaves exactly one row with id
`newUserId` in the target table, no row with the old id in any table but the
target, a row with the old id in the target exactly when `newUserId` is the old
id, and the two tables that are neither source nor target as they were. -/
theorem migration_exclusive_in_target (faults : Nat → Bool) (db db' : DB)
    (req : MigrationRequest) (n : Nat) (tok : Token)
    (h : handle faults db req = (db', .migrated n tok))
    (hone : (holders db req.userId).length = 1)
    (hinc : ∀ t, ∀ r ∈ (db.table t).rows, r.id < (db.table t).autoInc) :
    ∃ src tgt, src ≠ tgt ∧ req.sourceTable db = some src ∧
      tableOfRole req.targetRole = some tgt ∧ holders db req.userId = [src] ∧
      (selectById (db'.table tgt) n).length = 1 ∧
      (∀ t, t ≠ tgt → selectById (db'.table t) req.userId = []) ∧
      (selectById (db'.table tgt) req.userId ≠ [] ↔ n = req.userId) ∧
      (∀ t, t ≠ src → t ≠ tgt → db'.table t = db.table t) := by
  obtain ⟨src, tgt, oldUser, rest, hne, htgt, hsel, hn, -, hdb, hsource⟩ := handle_migrated h
  subst hdb hn
  have hsrc : selectById (db.table src) req.userId ≠ [] := by rw [hsel]; simp
  obtain ⟨hhold, hothers⟩ := holders_unique hone hsrc
  have htgt_old : selectById (db.table tgt) req.userId = [] := hothers tgt (Ne.symm hne)
  refine ⟨src, tgt, hne, hsource, htgt, hhold, ?_, ?_, ?_, ?_⟩
  · rw [movedDB_table_target db _ _ oldUser hne]
    have hc := selectById_counter (db.table tgt) (hinc tgt)
    simp only [selectById] at hc ⊢
    rw [List.filter_append, hc]
    simp [migratedRow]
  · intro t ht
    by_cases hts : t = src
    · subst hts
      rw [movedDB_table_source db _ _ oldUser hne]
      exact selectById_deleteById _ _
    · rw [movedDB_table_other db _ _ oldUser hts ht]
      exact hothers t hts
  · rw [movedDB_table_target db _ _ oldUser hne]
    simp only [selectById] at htgt_old ⊢
    rw [List.filter_append, htgt_old]
    by_cases hid : (db.table tgt).autoInc = req.userId
    · simp [migratedRow, hid]
    · simp [migratedRow, hid]
  · intro t hts ht
    exact movedDB_table_other db _ _ oldUser hts ht

/-- In `school`, once the student is a teacher, `teachers` holds exactly one row
with id 3, no table holds a row with id 2, and `admins` is as it was. -/
theorem migration_exclusive_in_target_witness :
    handle noFaults school moveBob = (schoolMoved, .migrated 3 movedToken) ∧
    (holders school moveBob.userId).length = 1 ∧
    (∀ t, ∀ r ∈ (school.table t).rows, r.id < (school.table t).autoInc) ∧
    ∃ src tgt, src ≠ tgt ∧ moveBob.sourceTable school = some src ∧
      tableOfRole moveBob.targetRole = some tgt ∧ holders school moveBob.userId = [src] ∧
      (selectById (schoolMoved.table tgt) 3).length = 1 ∧
      (∀ t, t ≠ tgt → selectById (schoolMoved.table t) moveBob.userId = []) ∧
      (selectById (schoolMoved.table tgt) moveBob.userId ≠ [] ↔ 3 = moveBob.userId) ∧
      (∀ t, t ≠ src → t ≠ tgt → schoolMoved.table t = school.table t) :=
  have hinc : ∀ t, ∀ r ∈ (school.table t).rows, r.id < (school.table t).autoInc := by
    intro t; cases t <;> decide
  ⟨handle_moveBob, by decide, hinc,
   migration_exclusive_in_target noFaults school schoolMoved moveBob 3 movedToken
     handle_moveBob (by decide) hinc⟩

/-! ## Requests that ask for the role the user has -/

theorem setTable_table_self (db : DB) (t : TableName) : db.setTable t (db.table t) = db := by
  cases t <;> rfl

theorem tableOfRole_injective {a b : Nat} {t : TableName} (ha : tableOfRole a = some t)
    (hb : tableOfRole b = some t) : a = b := by
  unfold tableOfRole at ha hb
  split at ha <;> split at hb <;> simp only [Option.some.injEq, reduceCtorEq] at ha hb <;>
    first
    | rfl
    | (subst ha; exact absurd hb (by decide))

theorem setRoleById_same (t : Table) (r userId : Nat)
    (h : ∀ row ∈ t.rows, row.id = userId → row.role_id = r) :
    setRoleById t r userId = t := by
  unfold setRoleById
  have : t.rows.map (fun row => if row.id == userId then { row with role_id := r } else row)
      = t.rows := by
    conv_rhs => rw [← List.map_id t.rows]
    apply List.map_congr_left
    intro row hrow
    by_cases hid : row.id = userId
    · have := h row hrow hid
      simp only [hid, beq_self_eq_true, if_true, id]
      cases row
      simp_all
    · simp [hid]
  rw [this]

theorem updateProfileRow_onlyRole (isUsers : Bool) (r : Nat) (row : Row) :
    updateProfileRow isUsers (onlyRole r) row = { row with profileCompleted := 1 } := by
  cases isUsers <;> simp [updateProfileRow, onlyRole]

theorem updateProfileById_onlyRole (t : Table) (isUsers : Bool) (r userId : Nat) :
    updateProfileById t isUsers (onlyRole r) userId = completeProfile t userId := by
  simp [updateProfileById, completeProfile, updateProfileRow_onlyRole]

theorem completeProfile_same (t : Table) (userId : Nat)
    (h : ∀ row ∈ t.rows, row.id = userId → row.profileCompleted = 1) :
    completeProfile t userId = t := by
  unfold completeProfile
  have : t.rows.map (fun row => if row.id == userId then { row with profileCompleted := 1 }
      else row) = t.rows := by
    conv_rhs => rw [← List.map_id t.rows]
    apply List.map_congr_left
    intro row hrow
    by_cases hid : row.id = userId
    · have := h row hrow hid
      simp only [hid, beq_self_eq_true, if_true, id]
      cases row
      simp_all
    · simp [hid]
  rw [this]

theorem updateRole_same_role (faults : Nat → Bool) (db : DB) (user : ReqUser)
    (body : UpdateRoleBody) (r : Nat) (rest : List Nat)
    (hcons : ∀ t, ∀ row ∈ (db.table t).rows, tableOfRole row.role_id = some t)
    (hunion : unionRoleIds db (body.userId.getD 0) = r :: rest)
    (hnew : body.newRoleId = some r) :
    (updateRole faults db user body).1 = db := by
  unfold updateRole
  simp only [hunion, hnew, Option.getD_some]
  split
  · rfl
  · split
    · rfl
    · split
      · rfl
      · cases htr : tableOfRole r with
        | none => rfl
        | some src =>
          simp only [ne_eq, not_true_eq_false, if_false]
          split
          · rfl
          · show db.setTable src (setRoleById (db.table src) r (body.userId.getD 0)) = db
            rw [setRoleById_same, setTable_table_self]
            intro row hrow _
            exact tableOfRole_injective (hcons src row hrow) htr

theorem updateProfile_same_role (faults : Nat → Bool) (db : DB) (user : ReqUser) :
    (updateProfile faults db user (onlyRole user.role_id)).1 = db ∨
    ∃ t, tableOfRole user.role_id = some t ∧
      updateProfile faults db user (onlyRole user.role_id)
        = (db.setTable t (completeProfile (db.table t) user.id), .ok) := by
  unfold updateProfile
  cases htr : tableOfRole user.role_id with
  | none => left; simp only [htr]
  | some src =>
    have hcond : ¬(truthy (onlyRole user.role_id).role_id = true ∧
        (onlyRole user.role_id).role_id.getD 0 ≠ user.role_id) := by
      simp [onlyRole]
    simp only [htr, hcond, if_false]
    have hpos : user.role_id ≠ 0 := by
      intro h0; rw [h0] at htr; simp [tableOfRole] at htr
    have hor : orElse (onlyRole user.role_id).role_id user.role_id = user.role_id := by
      simp [orElse, onlyRole, truthy, hpos]
    unfold updateProfileInPlace
    simp only [hor]
    by_cases hf : faults 0 = true
    · left; simp [hf]
    · right
      refine ⟨src, rfl, ?_⟩
      have hsub : (if user.role_id = 3 then (onlyRole user.role_id).subject else none)
          = none := by
        split <;> rfl
      simp only [hf, hsub, updateProfileById_onlyRole]
      unfold tableOfRole at htr
      split at htr <;> simp only [Option.some.injEq, reduceCtorEq] at htr <;>
        subst htr <;> rename_i hr <;> simp [hr]

theorem changeRole_same_role (isoDate : String → String) (faults : Nat → Bool) (db : DB)
    (userId : Nat) (newRole : String) (r : Nat) (hrole : roleIdOf newRole = some r)
    (hcur : ∀ t row k, probeTables faults db userId probeOrder 0 = .found t row k →
      row.role_id = r) :
    (changeRole isoDate faults db userId newRole).1 = db := by
  unfold changeRole
  simp only [hrole]
  cases hp : probeTables faults db userId [.users, .teachers, .moders, .admins] 0 with
  | threw => rfl
  | missing => rfl
  | found t row k =>
    have := hcur t row k hp
    simp [this]

/-- C11 (refuted as stated). The person who has just registered in `school`
(`role_id` 4, `profileCompleted` 0) sends `PUT /users/profile` with `role_id` 4
and nothing else: the answer is the success message and `profileCompleted` of
the caller's row is now 1, so the database is not the one before. -/
theorem profile_same_role_counterexample :
    (onlyRole 4).role_id = some zoeUser.role_id ∧
    verifyToken noFaults schoolJoined (some (loginToken zoe "users")) = .next zoeUser ∧
    updateProfile noFaults schoolJoined zoeUser (onlyRole 4)
      = ({ schoolJoined with
            users := { rows := [bob, { zoe with profileCompleted := 1 }], autoInc := 5 } },
         .ok) ∧
    (updateProfile noFaults schoolJoined zoeUser (onlyRole 4)).1 ≠ schoolJoined ∧
    (putProfile noFaults noFaults schoolJoined (some (loginToken zoe "users"))
      (onlyRole 4)).1 ≠ schoolJoined := by
  refine ⟨rfl, by decide, by decide, by decide, by decide⟩

/-- C11 (amended). A request for the role the user has: `PUT /users/update-role`,
in a database whose rows sit in the table of their `role_id`, leaves every table
as it was; `PUT /users/profile` with `role_id` equal to the caller's role and no
other field either leaves every table as it was or answers with the success
message after setting `profileCompleted` to 1 in the rows of the caller's table
that have the caller's id, which changes nothing when they had 1 already;
changeRole.js leaves every table as it was. -/
theorem same_role_requests (faults : Nat → Bool) (db : DB) :
    (∀ (user : ReqUser) (body : UpdateRoleBody) (r : Nat) (rest : List Nat),
      (∀ t, ∀ row ∈ (db.table t).rows, tableOfRole row.role_id = some t) →
      unionRoleIds db (body.userId.getD 0) = r :: rest → body.newRoleId = some r →
      (updateRole faults db user body).1 = db) ∧
    (∀ user : ReqUser,
      (updateProfile faults db user (onlyRole user.role_id)).1 = db ∨
      ∃ t, tableOfRole user.role_id = some t ∧
        updateProfile faults db user (onlyRole user.role_id)
          = (db.setTable t (completeProfile (db.table t) user.id), .ok)) ∧
    (∀ (user : ReqUser) (t : TableName), tableOfRole user.role_id = some t →
      (∀ row ∈ (db.table t).rows, row.id = user.id → row.profileCompleted = 1) →
      (updateProfile faults db user (onlyRole user.role_id)).1 = db) ∧
    (∀ (isoDate : String → String) (userId : Nat) (newRole : String) (r : Nat),
      roleIdOf newRole = some r →
      (∀ t row k, probeTables faults db userId probeOrder 0 = .found t row k →
        row.role_id = r) →
      (changeRole isoDate faults db userId newRole).1 = db) := by
  refine ⟨?_, ?_, ?_, ?_⟩
  · intro user body r rest hcons hunion hnew
    exact updateRole_same_role faults db user body r rest hcons hunion hnew
  · intro user
    exact updateProfile_same_role faults db user
  · intro user t ht hdone
    rcases updateProfile_same_role faults db user with h | ⟨t', ht', h⟩
    · exact h
    · have : t' = t := by rw [ht] at ht'; exact (Option.some.inj ht').symm
      subst this
      rw [h, completeProfile_same _ _ hdone, setTable_table_self]
  · intro isoDate userId newRole r hrole hcur
    exact changeRole_same_role isoDate faults db userId newRole r hrole hcur

/-- In `school` the moderator asks `/update-role` to make the student a student,
the student sends `role_id` 4 to `/profile`, and the script is run for the
student with `student`: the database stays as it was each time. -/
theorem same_role_requests_witness :
    unionRoleIds school 2 = [4] ∧
    updateRole noFaults school miraUser { userId := some 2, newRoleId := some 4 }
      = (school, .ok) ∧
    (updateProfile noFaults school bobUser (onlyRole bobUser.role_id)).1 = school ∧
    changeRole sameDay noFaults school 2 "student" = (school, .already) ∧
    (changeRole sameDay noFaults school 2 "student").1 = school :=
  have hcons : ∀ t, ∀ row ∈ (school.table t).rows, tableOfRole row.role_id = some t := by
    intro t; cases t <;> decide
  have hprobe : probeTables noFaults school 2 probeOrder 0 = .found .users bob 1 := by decide
  have hcur : ∀ t row k, probeTables noFaults school 2 probeOrder 0 = .found t row k →
      row.role_id = 4 := by
    intro t row k hp
    rw [hprobe] at hp
    cases hp
    rfl
  have h := same_role_requests noFaults school
  have h1 := h.1 miraUser { userId := some 2, newRoleId := some 4 } 4 [] hcons (by decide) rfl
  ⟨by decide, Prod.ext h1 (by decide),
   h.2.2.1 bobUser .users rfl (by decide),
   by decide,
   h.2.2.2 sameDay 2 "student" 4 (by decide) hcur⟩

/-! ## Answers other than 500 -/

theorem crossTableMove_error (faults : Nat → Bool) (k : Nat) (db : DB)
    (src tgt : TableName) (userId roleId status : Nat) (code : Option String)
    (h : (crossTableMove faults k db src tgt userId roleId).2 = .error status code)
    (hs : status ≠ 500) :
    (crossTableMove faults k db src tgt userId roleId).1 = db := by
  revert h
  unfold crossTableMove
  repeat' split
  all_goals simp only [Response.error.injEq, reduceCtorEq, false_implies, implies_true]
  all_goals intro h
  all_goals first
    | rfl
    | exact absurd h.1.symm hs

/-- C20. Whenever the handler of `PUT /users/update-role` answers 400, 403 or
404, the database is the one before the request: each of these answers is sent
before the first statement that writes. -/
theorem updateRole_client_error_no_write (faults : Nat → Bool) (db : DB) (user : ReqUser)
    (body : UpdateRoleBody) (status : Nat) (code : Option String)
    (h : (updateRole faults db user body).2 = .error status code)
    (hs : status = 400 ∨ status = 403 ∨ status = 404) :
    (updateRole faults db user body).1 = db := by
  have hs500 : status ≠ 500 := by omega
  revert h
  unfold updateRole
  simp only
  split
  · intro _; rfl
  · split
    · intro _; rfl
    · split
      · intro _; rfl
      · split
        · intro _; rfl
        · split
          · intro _; rfl
          · split
            · intro _; rfl
            · split
              · intro h
                exact crossTableMove_error faults 1 db _ _ _ _ status code h hs500
              · split
                · intro _; rfl
                · intro h; simp at h

/-- In `school` the answers 400 (role 7), 403 (the moderator names the admin)
and 404 (nobody has id 9) leave the database as it was. -/
theorem updateRole_client_error_no_write_witness :
    (updateRole noFaults school miraUser { userId := some 1, newRoleId := some 3 }).2
      = .error 403 none ∧
    (updateRole noFaults school miraUser { userId := some 1, newRoleId := some 3 }).1
      = school ∧
    updateRole noFaults school miraUser { userId := some 2, newRoleId := some 7 }
      = (school, .error 400 none) ∧
    updateRole noFaults school miraUser { userId := some 9, newRoleId := some 3 }
      = (school, .error 404 none) :=
  ⟨by decide,
   updateRole_client_error_no_write noFaults school miraUser
     { userId := some 1, newRoleId := some 3 } 403 none (by decide) (Or.inr (Or.inl rfl)),
   by decide, by decide⟩

/-- C18. A validly signed token whose id is in none of the four role tables is
answered with an error status (400 when its `table_name` is not one of the four
names, 500 when the query rejects, 404 otherwise); `verifyToken` does not call
`next()` and sets no `req.user`. -/
theorem verifyToken_unknown_id (faults : Nat → Bool) (db : DB) (p : Payload)
    (h : ∀ t, selectById (db.table t) p.id = []) :
    (∃ status code, status ∈ [400, 404, 500] ∧
      verifyToken faults db (some (jwt_sign p)) = .respond (.error status code)) ∧
    ∀ user, verifyToken faults db (some (jwt_sign p)) ≠ .next user := by
  have key : ∃ status code, status ∈ [400, 404, 500] ∧
      verifyToken faults db (some (jwt_sign p)) = .respond (.error status code) := by
    unfold verifyToken
    simp only [jwt_sign, jwt_verify]
    cases ht : p.table_name.bind tableOfName with
    | none => exact ⟨400, some "INVALID_TABLE_NAME", by simp, rfl⟩
    | some tableName =>
      by_cases hf : faults 0 = true
      · exact ⟨500, some "SERVER_ERROR", by simp, by simp [hf]⟩
      · exact ⟨404, some "USER_NOT_FOUND", by simp, by simp [hf, h tableName]⟩
  refine ⟨key, ?_⟩
  obtain ⟨status, code, -, hk⟩ := key
  intro user hc
  rw [hk] at hc
  cases hc

/-- In `school` nobody has id 9: a signed token for id 9 of `users` is answered
with 404. -/
theorem verifyToken_unknown_id_witness :
    (∀ t, selectById (school.table t) 9 = []) ∧
    ((∃ status code, status ∈ [400, 404, 500] ∧
        verifyToken noFaults school
            (some (jwt_sign { id := 9, role_id := some 1, table_name := some "admins" }))
          = .respond (.error status code)) ∧
      ∀ user, verifyToken noFaults school
          (some (jwt_sign { id := 9, role_id := some 1, table_name := some "admins" }))
        ≠ .next user) ∧
    verifyToken noFaults school
        (some (jwt_sign { id := 9, role_id := some 1, table_name := some "admins" }))
      = .respond (.error 404 (some "USER_NOT_FOUND")) :=
  have h : ∀ t, selectById (school.table t) 9 = [] := by intro t; cases t <;> decide
  ⟨h, verifyToken_unknown_id noFaults school
        { id := 9, role_id := some 1, table_name := some "admins" } h, by decide⟩

/-! ## Registration and login -/

theorem register_registered {hash : String → String} {secretSet : Bool}
    {faults : Nat → Bool} {db db' : DB} {body : RegisterBody} {newId : Nat}
    {role : Option String} {tableName : String} {pc : Nat} {tok : Token}
    (h : register hash secretSet faults db body
      = (db', .registered newId role tableName pc tok)) :
    newId = db.users.autoInc ∧ newId ∉ db.user_ids ∧
    (∀ s ∈ db.user_settings, s.user_id ≠ newId) ∧
    role = some "student" ∧ tableName = "users" ∧ pc = 0 ∧
    tok = jwt_sign { id := newId, role_id := some 4, table_name := some "users" } ∧
    db' = { db with
      users := { rows := db.users.rows ++ [registeredRow body (hash body.password) newId],
                 autoInc := db.users.autoInc + 1 },
      user_ids := db.user_ids ++ [newId],
      user_settings := db.user_settings ++ [{ user_id := newId, language := "ru" }] } := by
  unfold register at h
  simp only at h
  split at h; · simp at h
  split at h; · simp at h
  split at h; · simp at h
  rename_i ids hids
  split at h; · simp at h
  split at h; · simp at h
  rename_i settings hset
  split at h; · simp at h
  simp only [Prod.mk.injEq, AuthResponse.registered.injEq] at h
  obtain ⟨hdb, hn, hr, ht, hp, htok⟩ := h
  simp only [insertAuto] at hn hids hset hdb htok
  simp only [insertUserId] at hids
  split at hids; · simp at hids
  rename_i hnotin
  simp only [Option.some.injEq] at hids
  simp only [insertSetting] at hset
  split at hset; · simp at hset
  rename_i hfresh
  simp only [Option.some.injEq] at hset
  subst hn hids hset
  refine ⟨rfl, ?_, ?_, ?_, ht.symm, hp.symm, htok.symm, hdb.symm⟩
  · simpa using hnotin
  · intro s hs hc
    apply hfresh
    simp only [List.any_eq_true, beq_iff_eq]
    exact ⟨s, hs, hc⟩
  · rw [← hr]; rfl

/-- C15. For every `POST /auth/register` that is answered with the success
message: exactly one row is appended to `users`, with the new id, `role_id` 4,
`profileCompleted` 0 and the email, login and hashed password of the body; the new
id is appended to `user_ids`; the row `(newId, "ru")` is appended to
`user_settings`; `teachers`, `moders`, `admins`, `sessions`, `teacher_subjects`
are as they were; and the token carries `id` = the new id, `role_id` 4 and
`table_name` "users". -/
theorem register_effect (hash : String → String) (secretSet : Bool) (faults : Nat → Bool)
    (db db' : DB) (body : RegisterBody) (newId : Nat) (role : Option String)
    (tableName : String) (pc : Nat) (tok : Token)
    (h : register hash secretSet faults db body
      = (db', .registered newId role tableName pc tok)) :
    (∃ row : Row, db'.users.rows = db.users.rows ++ [row] ∧ row.id = newId ∧
      row.role_id = 4 ∧ row.profileCompleted = 0 ∧ row.email = body.email ∧
      row.login = body.login ∧ row.password = hash body.password) ∧
    db'.user_ids = db.user_ids ++ [newId] ∧
    db'.user_settings = db.user_settings ++ [{ user_id := newId, language := "ru" }] ∧
    db'.teachers = db.teachers ∧ db'.moders = db.moders ∧ db'.admins = db.admins ∧
    db'.sessions = db.sessions ∧ db'.teacher_subjects = db.teacher_subjects ∧
    tok = jwt_sign { id := newId, role_id := some 4, table_name := some "users" } := by
  obtain ⟨-, -, -, -, -, -, htok, hdb⟩ := register_registered h
  subst hdb
  exact ⟨⟨registeredRow body (hash body.password) newId, rfl, rfl, rfl, rfl, rfl, rfl, rfl⟩,
    rfl, rfl, rfl, rfl, rfl, rfl, rfl, htok⟩

/-- The run of the registration of the fourth person in `school`. -/
theorem register_zoe :
    register hashOf true noFaults school zoeBody
      = (schoolJoined, .registered 4 (some "student") "users" 0 (loginToken zoe "users")) := by
  decide

/-- The registration of the fourth person in `school`. -/
theorem register_effect_witness :
    register hashOf true noFaults school zoeBody
      = (schoolJoined, .registered 4 (some "student") "users" 0 (loginToken zoe "users")) ∧
    ((∃ row : Row, schoolJoined.users.rows = school.users.rows ++ [row] ∧ row.id = 4 ∧
      row.role_id = 4 ∧ row.profileCompleted = 0 ∧ row.email = zoeBody.email ∧
      row.login = zoeBody.login ∧ row.password = hashOf zoeBody.password) ∧
    schoolJoined.user_ids = school.user_ids ++ [4] ∧
    schoolJoined.user_settings = school.user_settings ++ [{ user_id := 4, language := "ru" }] ∧
    schoolJoined.teachers = school.teachers ∧ schoolJoined.moders = school.moders ∧
    schoolJoined.admins = school.admins ∧
    schoolJoined.sessions = school.sessions ∧
    schoolJoined.teacher_subjects = school.teacher_subjects ∧
    loginToken zoe "users"
      = jwt_sign { id := 4, role_id := some 4, table_name := some "users" }) :=
  ⟨register_zoe,
   register_effect hashOf true noFaults school schoolJoined zoeBody 4 (some "student")
     "users" 0 (loginToken zoe "users") register_zoe⟩

theorem login_loggedIn {compare : String → String → Bool} {secretSet : Bool}
    {faults : Nat → Bool} {db db' : DB} {body : LoginBody} {uid : Nat} {tableName : String}
    {role : Option String} {pc : Nat} {tok : Token}
    (h : login compare secretSet faults db body
      = (db', .loggedIn uid tableName role pc tok)) :
    db' = db ∧ ∃ user rest, loginMatches db body.identifier = user :: rest ∧
      uid = user.id ∧ tableName = user.table_name ∧ role = roleMap user.role_id ∧
      compare body.password user.password = true ∧
      tok = jwt_sign { id := user.id, role_id := some user.role_id,
                       table_name := some user.table_name } := by
  unfold login at h
  split at h; · simp at h
  split at h; · simp at h
  rename_i user rest hm
  split at h; · simp at h
  split at h; · simp at h
  rename_i hcmp
  split at h; · simp at h
  simp only [Prod.mk.injEq, AuthResponse.loggedIn.injEq] at h
  obtain ⟨hdb, hu, ht, hr, -, htok⟩ := h
  refine ⟨hdb.symm, user, rest, hm, hu.symm, ht.symm, hr.symm, ?_, htok.symm⟩
  simpa using hcmp

theorem login_fst (compare : String → String → Bool) (secretSet : Bool)
    (faults : Nat → Bool) (db : DB) (body : LoginBody) :
    (login compare secretSet faults db body).1 = db := by
  unfold login
  repeat' split
  all_goals rfl

/-- C16 (refuted as stated). In `school` with an empty `sessions` table the
student logs in with the right password: the answer is the success message with
a token, and `sessions` is still empty, so it holds no row for the student. -/
theorem login_session_counterexample :
    login hashMatches true noFaults schoolQuiet bobLogin
      = (schoolQuiet, .loggedIn 2 "users" (some "student") 1 (loginToken bob "users")) ∧
    (login hashMatches true noFaults schoolQuiet bobLogin).1.sessions = [] ∧
    ¬ ∃ s ∈ (login hashMatches true noFaults schoolQuiet bobLogin).1.sessions,
        s.user_id = 2 := by
  refine ⟨by decide, by decide, by decide⟩

/-- C16 (amended). `POST /auth/login` leaves the database, the `sessions` table
included, as it was; a successful login answers with a token that carries the
`id`, `role_id` and `table_name` of the first row its query matched, whose
password the given one was compared with. -/
theorem login_issues_token_only (compare : String → String → Bool) (secretSet : Bool)
    (faults : Nat → Bool) (db : DB) (body : LoginBody) :
    (login compare secretSet faults db body).1 = db ∧
    (login compare secretSet faults db body).1.sessions = db.sessions ∧
    ∀ uid tableName role pc tok,
      (login compare secretSet faults db body).2 = .loggedIn uid tableName role pc tok →
      ∃ user rest, loginMatches db body.identifier = user :: rest ∧
        uid = user.id ∧ tableName = user.table_name ∧
        compare body.password user.password = true ∧
        tok = jwt_sign { id := user.id, role_id := some user.role_id,
                         table_name := some user.table_name } := by
  have h1 := login_fst compare secretSet faults db body
  refine ⟨h1, by rw [h1], ?_⟩
  intro uid tableName role pc tok h
  have hpair : login compare secretSet faults db body
      = (db, .loggedIn uid tableName role pc tok) := Prod.ext h1 h
  obtain ⟨-, user, rest, hm, hu, ht, -, hc, htok⟩ := login_loggedIn hpair
  exact ⟨user, rest, hm, hu, ht, hc, htok⟩

/-- The login of the student of `school`. -/
theorem login_issues_token_only_witness :
    (login hashMatches true noFaults school bobLogin).2
      = .loggedIn 2 "users" (some "student") 1 (loginToken bob "users") ∧
    (login hashMatches true noFaults school bobLogin).1 = school ∧
    (login hashMatches true noFaults school bobLogin).1.sessions = school.sessions :=
  have h := login_issues_token_only hashMatches true noFaults school bobLogin
  ⟨by decide, h.1, h.2.1⟩

theorem tableOfName_name (t : TableName) : tableOfName t.name = some t := by
  cases t <;> rfl

/-- C17. Login and verification round trip: when the login query matches only
the row `row` of role table `T`, the row is the one row of `T` with its id, its
stored password is not empty and the given password compares equal to it, then
`POST /auth/login` answers with a token, and `verifyToken` run with that token on
the same database calls `next()` with `req.user` = `id` of the row, `role_id` of
the row, `role` the name of that `role_id`, `table_name` `T`. -/
theorem login_then_verify (compare : String → String → Bool) (secretSet : Bool)
    (faults faultsV : Nat → Bool) (db : DB) (body : LoginBody) (T : TableName) (row : Row)
    (hkey : selectById (db.table T) row.id = [row])
    (hmatch : loginMatches db body.identifier = [loginRowOf T row])
    (hpw : compare body.password row.password = true)
    (hstored : row.password ≠ "")
    (hsecret : secretSet = true) (hf : faults 0 = false) (hfv : faultsV 0 = false) :
    ∃ pc tok,
      login compare secretSet faults db body
        = (db, .loggedIn row.id T.name (roleMap row.role_id) pc tok) ∧
      verifyToken faultsV db (some tok)
        = .next { id := row.id, role := roleMap row.role_id, role_id := row.role_id,
                  table_name := T } := by
  refine ⟨(loginRowOf T row).profileCompleted.getD 0,
    jwt_sign { id := row.id, role_id := some row.role_id, table_name := some T.name }, ?_, ?_⟩
  · unfold login
    simp [hf, hmatch, loginRowOf, hstored, hpw, hsecret]
  · unfold verifyToken
    simp [jwt_sign, jwt_verify, tableOfName_name, hfv, hkey]

/-- In `school` the student logs in and the token is verified. -/
theorem login_then_verify_witness :
    selectById (school.table .users) bob.id = [bob] ∧
    loginMatches school bobLogin.identifier = [loginRowOf .users bob] ∧
    ∃ pc tok,
      login hashMatches true noFaults school bobLogin
        = (school, .loggedIn bob.id TableName.users.name (roleMap bob.role_id) pc tok) ∧
      verifyToken noFaults school (some tok)
        = .next { id := bob.id, role := roleMap bob.role_id, role_id := bob.role_id,
                  table_name := .users } :=
  ⟨by decide, by decide,
   login_then_verify hashMatches true noFaults noFaults school bobLogin .users bob
     (by decide) (by decide) (by decide) (by decide) rfl rfl rfl⟩

/-! ## The ledger of ids -/

theorem movedDB_user_ids (db : DB) (src tgt : TableName) (userId roleId : Nat)
    (oldUser : Row) :
    (movedDB db src tgt userId roleId oldUser).user_ids = db.user_ids := by
  cases src <;> cases tgt <;> rfl

/-- C13 (the code departs from the claim). A completed cross-table move through
either HTTP handler leaves `user_ids` as it was, so when `newUserId` was not
recorded before it is not recorded after, and the ledger invariant does not hold
in the database the move leaves. -/
theorem migration_skips_ledger (faults : Nat → Bool) (db db' : DB)
    (req : MigrationRequest) (n : Nat) (tok : Token)
    (h : handle faults db req = (db', .migrated n tok)) :
    db'.user_ids = db.user_ids ∧
    (n ∉ db.user_ids → n ∉ db'.user_ids ∧ ¬ ledger db') := by
  obtain ⟨src, tgt, oldUser, rest, hne, htgt, -, hn, -, hdb, -⟩ := handle_migrated h
  subst hdb hn
  have hids := movedDB_user_ids db src tgt req.userId req.targetRole oldUser
  refine ⟨hids, ?_⟩
  intro hnot
  refine ⟨by rw [hids]; exact hnot, ?_⟩
  intro hl
  have hrow := hl tgt (migratedRow oldUser req.targetRole (db.table tgt).autoInc)
    (by rw [movedDB_table_target db _ _ oldUser hne]; simp)
  rw [hids] at hrow
  exact hnot hrow

/-- In `school` every id of a role table is recorded; once the moderator has made
the student a moderator under the new id 4, `user_ids` is still `[1, 2, 3]`. -/
theorem migration_skips_ledger_witness :
    ledger school ∧
    handle noFaults school promoteBob = (schoolPromoted, .migrated 4 promotedToken) ∧
    (schoolPromoted.user_ids = school.user_ids ∧
      ((4 : Nat) ∉ school.user_ids → (4 : Nat) ∉ schoolPromoted.user_ids ∧
        ¬ ledger schoolPromoted)) ∧
    schoolPromoted.user_ids = [1, 2, 3] ∧ ¬ ledger schoolPromoted :=
  have hl : ledger school := by
    intro t; cases t <;> decide
  have hw := migration_skips_ledger noFaults school schoolPromoted promoteBob 4
    promotedToken handle_promoteBob
  ⟨hl, handle_promoteBob, hw, rfl, (hw.2 (by decide)).2⟩

/-- C14 (the code departs from the claim for registration). The `INSERT IGNORE` of
changeRole.js is idempotent and never rejects. The plain `INSERT` of registration
rejects an id that is recorded, in particular one it has just recorded; so when the
next id of `users` is in `user_ids`, `POST /auth/register` inserts the row into
`users` and then answers 500. -/
theorem allocator_recording (ids : List Nat) (x : Nat) :
    insertIgnoreUserId (insertIgnoreUserId ids x) x = insertIgnoreUserId ids x ∧
    (x ∈ ids → insertUserId ids x = none) ∧
    (∀ ids', insertUserId ids x = some ids' → insertUserId ids' x = none) ∧
    (∀ (hash : String → String) (secretSet : Bool) (faults : Nat → Bool) (db : DB)
        (body : RegisterBody),
      db.user_ids = ids → db.users.autoInc = x → x ∈ ids →
      faults 0 = false → faults 1 = false →
      register hash secretSet faults db body
        = ({ db with
              users := { rows := db.users.rows ++ [registeredRow body (hash body.password) x],
                         autoInc := x + 1 } },
           .error 500)) := by
  refine ⟨?_, ?_, ?_, ?_⟩
  · unfold insertIgnoreUserId
    by_cases hx : x ∈ ids
    · simp [hx]
    · simp [hx]
  · intro hx
    simp [insertUserId, hx]
  · intro ids' h
    unfold insertUserId at h ⊢
    split at h
    · simp at h
    · simp only [Option.some.injEq] at h
      subst h
      simp
  · intro hash secretSet faults db body hids hx hmem hf0 hf1
    subst hids hx
    unfold register
    simp [hf0, hf1, insertAuto, insertUserId, hmem]

/-- The fourth person registers in `schoolRecorded`, where the next id of `users`
is 4 and 4 is in `user_ids`: the row is inserted and the answer is 500. -/
theorem allocator_recording_witness :
    changeRole sameDay noFaults schoolPromoted 4 "teacher" = (schoolRecorded, .changed) ∧
    schoolRecorded.user_ids = [1, 2, 3, 4] ∧ schoolRecorded.users.autoInc = 4 ∧
    insertIgnoreUserId (insertIgnoreUserId [1, 2, 3] 4) 4 = insertIgnoreUserId [1, 2, 3] 4 ∧
    insertUserId [1, 2, 3, 4] 4 = none ∧
    register hashOf true noFaults schoolRecorded zoeBody
      = ({ schoolRecorded with users := { rows := [zoe], autoInc := 5 } }, .error 500) :=
  have h := allocator_recording [1, 2, 3] 4
  have h' := allocator_recording [1, 2, 3, 4] 4
  ⟨by decide, by decide, by decide, h.1, h'.2.1 (by decide), by decide⟩

/-! ## A row left in the target table -/

/-- C12 (the code departs from the claim). The HTTP handlers have no guard for a
row left in the target table: after a completed cross-table move a row of the
target table that has the subject's id is still there, next to the row the move
appended, and, when the ids of the target table are below its counter, the
database differs from the one the same request leaves when it is run without
that row. -/
theorem migration_keeps_stale_row (faults : Nat → Bool) (db db' : DB)
    (req : MigrationRequest) (n : Nat) (tok : Token) (tgt : TableName) (stale : Row)
    (h : handle faults db req = (db', .migrated n tok))
    (htgt : tableOfRole req.targetRole = some tgt)
    (hstale : stale ∈ (db.table tgt).rows) (hid : stale.id = req.userId) :
    stale ∈ (db'.table tgt).rows ∧
    (∃ row, (db'.table tgt).rows = (db.table tgt).rows ++ [row] ∧ row.id = n) ∧
    ((∀ r ∈ (db.table tgt).rows, r.id < (db.table tgt).autoInc) →
      ∀ (faults' : Nat → Bool) (clean' : DB) (n' : Nat) (tok' : Token),
        handle faults' (db.setTable tgt (deleteById (db.table tgt) req.userId)) req
          = (clean', .migrated n' tok') →
        db' ≠ clean') := by
  obtain ⟨src, tgt', oldUser, rest, hne, htgt', -, hn, -, hdb, -⟩ := handle_migrated h
  have htt : tgt' = tgt := by rw [htgt] at htgt'; exact (Option.some.inj htgt').symm
  subst htt
  subst hdb hn
  have hrows := movedDB_table_target db req.userId req.targetRole oldUser hne
  refine ⟨?_, ⟨_, by rw [hrows], rfl⟩, ?_⟩
  · rw [hrows]; simp [hstale]
  · intro hinc faults' clean' n' tok' hc heq
    obtain ⟨src', tgt'', oldUser', rest', hne', htgt'', -, hn', -, hdb', -⟩ :=
      handle_migrated hc
    have htt : tgt'' = tgt' := by rw [htgt] at htgt''; exact (Option.some.inj htgt'').symm
    subst htt
    have hmem : stale ∈ (clean'.table tgt'').rows := by
      rw [← heq, hrows]; simp [hstale]
    rw [hdb', movedDB_table_target _ _ _ oldUser' hne', table_setTable_same] at hmem
    simp only [deleteById, List.mem_append, List.mem_filter, List.mem_singleton, bne_iff_ne,
      ne_eq] at hmem
    rcases hmem with ⟨-, hx⟩ | hx
    · exact hx hid
    · have hlt := hinc stale hstale
      rw [hx] at hlt
      simp [migratedRow, deleteById] at hlt

/-- In `schoolStale` the moderator makes the student a teacher: `teachers` ends
with the row left there and the new row. The script, asked for `teacher`, deletes
the row left there and ends as it does from `school`; asked for `student` (the row
in `users` being the one left behind), it finds that row first, reports that the
role is the one asked for and deletes nothing. -/
theorem migration_keeps_stale_row_witness :
    (handle noFaults schoolStale moveBob).2 = .migrated 3 movedToken ∧
    ({ bob with role_id := 3 } : Row) ∈ ((handle noFaults schoolStale moveBob).1.table
      .teachers).rows ∧
    (handle noFaults schoolStale moveBob).1.teachers.rows
      = [{ bob with role_id := 3 }, bobTeacher] ∧
    (handle noFaults schoolStale moveBob).1 ≠ (handle noFaults school moveBob).1 ∧
    changeRole sameDay noFaults schoolStale 2 "teacher"
      = changeRole sameDay noFaults school 2 "teacher" ∧
    (changeRole sameDay noFaults school 2 "teacher").2 = .changed ∧
    changeRole sameDay noFaults schoolStale 2 "student" = (schoolStale, .already) :=
  have hrun : handle noFaults schoolStale moveBob
      = ((handle noFaults schoolStale moveBob).1, .migrated 3 movedToken) :=
    Prod.ext rfl (by decide)
  ⟨by decide,
   (migration_keeps_stale_row noFaults schoolStale _ moveBob 3 movedToken .teachers
      { bob with role_id := 3 } hrun rfl (by decide) rfl).1,
   by decide, by decide, by decide, by decide, by decide⟩

/-! ## The script against the HTTP handler -/

theorem relinkSessions_self (sessions : List Session) (userId : Nat) :
    relinkSessions sessions userId userId = sessions := by
  unfold relinkSessions
  conv_rhs => rw [← List.map_id sessions]
  apply List.map_congr_left
  intro s _
  by_cases h : s.user_id = userId
  · simp only [h, beq_self_eq_true, if_true, id]
    cases s
    simp_all
  · simp [h]

theorem relinkSettings_self (settings : List Setting) (userId : Nat) :
    relinkSettings settings userId userId = settings := by
  unfold relinkSettings
  conv_rhs => rw [← List.map_id settings]
  apply List.map_congr_left
  intro s _
  by_cases h : s.user_id = userId
  · simp only [h, beq_self_eq_true, if_true, id]
    cases s
    simp_all
  · simp [h]

theorem deleteById_of_absent (t : Table) (id : Nat) (h : selectById t id = []) :
    deleteById t id = t := by
  unfold deleteById
  have : t.rows.filter (fun r => r.id != id) = t.rows := by
    rw [List.filter_eq_self]
    intro r hr
    simp only [selectById, List.filter_eq_nil_iff, beq_iff_eq] at h
    simpa using h r hr
  rw [this]

theorem insertWithId_some {t inserted : Table} {r : Row}
    (h : insertWithId t r = some inserted) :
    selectById t r.id = [] ∧
    inserted = { rows := t.rows ++ [r], autoInc := max t.autoInc (r.id + 1) } := by
  unfold insertWithId at h
  split at h
  · rename_i he
    simp only [Option.some.injEq] at h
    exact ⟨List.isEmpty_iff.mp he, h.symm⟩
  · simp at h

theorem changeRoleFinish_changed {faults : Nat → Bool} {db db' : DB} {userId : Nat}
    {cur tgt : TableName} {j : Nat}
    (h : changeRoleFinish faults db userId cur tgt j = (db', .changed)) :
    db' = db.setTable cur (deleteById (db.table cur) userId) ∧
    selectById (db'.table tgt) userId ≠ [] := by
  unfold changeRoleFinish at h
  split at h; · simp at h
  split at h; · simp at h
  dsimp only at h
  split at h; · simp at h
  rename_i hfinal
  simp only [Prod.mk.injEq, and_true] at h
  subst h
  refine ⟨rfl, ?_⟩
  intro hc
  apply hfinal
  rw [hc]; rfl

theorem changeRoleRelink_changed {faults : Nat → Bool} {db db' : DB} {userId : Nat}
    {cur tgt : TableName} {j : Nat}
    (h : changeRoleRelink faults db userId cur tgt j = (db', .changed)) :
    db' = db.setTable cur (deleteById (db.table cur) userId) ∧
    selectById (db'.table tgt) userId ≠ [] := by
  unfold changeRoleRelink at h
  simp only [relinkSessions_self, relinkSettings_self] at h
  split at h; · simp at h
  split at h; · simp at h
  split at h; · simp at h
  split at h; · simp at h
  split at h; · simp at h
  exact changeRoleFinish_changed h

theorem changeRoleTail_changed {isoDate : String → String} {faults : Nat → Bool}
    {db db' : DB} {userId roleId : Nat} {cur tgt : TableName} {currentUser : Row} {j : Nat}
    (h : changeRoleTail isoDate faults db userId roleId cur tgt currentUser j
      = (db', .changed)) :
    selectById (db.table tgt) userId = [] ∧ cur ≠ tgt ∧
    db' = (db.setTable tgt
            { rows := (db.table tgt).rows ++ [toolRow isoDate currentUser userId roleId],
              autoInc := max (db.table tgt).autoInc (userId + 1) }).setTable cur
          (deleteById (db.table cur) userId) := by
  unfold changeRoleTail at h
  split at h; · simp at h
  split at h; · simp at h
  rename_i inserted hins
  obtain ⟨hsel, hinserted⟩ := insertWithId_some hins
  subst hinserted
  split at h; · simp at h
  dsimp only at h
  split at h; · simp at h
  obtain ⟨hdb, hfinal⟩ := changeRoleRelink_changed h
  have hsel' : selectById (db.table tgt) userId = [] := hsel
  have hne : cur ≠ tgt := by
    intro hc
    subst hc
    apply hfinal
    rw [hdb, table_setTable_same]
    exact selectById_deleteById _ _
  refine ⟨hsel', hne, ?_⟩
  rw [hdb, table_setTable_ne _ _ (Ne.symm hne)]
  rfl

theorem probeTables_found {faults : Nat → Bool} {db : DB} {userId : Nat}
    {tables : List TableName} {k k' : Nat} {t : TableName} {row : Row}
    (h : probeTables faults db userId tables k = .found t row k') :
    ∃ rest, selectById (db.table t) userId = row :: rest := by
  induction tables generalizing k with
  | nil => simp [probeTables] at h
  | cons table tables ih =>
    unfold probeTables at h
    split at h; · simp at h
    split at h
    · exact ih h
    · rename_i r rest hsel
      simp only [Probe.found.injEq] at h
      obtain ⟨ht, hr, -⟩ := h
      subst ht hr
      exact ⟨rest, hsel⟩

theorem roleToTable_eq_tableOfRole (r : Nat) : roleToTable r = tableOfRole r := by
  unfold roleToTable tableOfRole
  split <;> rfl

theorem changeRole_changed {isoDate : String → String} {faults : Nat → Bool} {db db' : DB}
    {userId : Nat} {newRole : String}
    (h : changeRole isoDate faults db userId newRole = (db', .changed)) :
    ∃ roleId cur tgt currentUser rest, roleIdOf newRole = some roleId ∧
      selectById (db.table cur) userId = currentUser :: rest ∧
      currentUser.role_id ≠ roleId ∧ tableOfRole roleId = some tgt ∧ cur ≠ tgt ∧
      db' = toolMovedDB isoDate db cur tgt userId roleId currentUser := by
  unfold changeRole at h
  split at h; · simp at h
  rename_i roleId hrole
  split at h
  · simp at h
  · simp at h
  rename_i cur currentUser k hprobe
  obtain ⟨rest, hsel⟩ := probeTables_found hprobe
  split at h; · simp at h
  rename_i hdiff
  split at h; · simp at h
  rename_i tgt htgt
  rw [roleToTable_eq_tableOfRole] at htgt
  split at h; · simp at h
  dsimp only at h
  split at h; · simp at h
  refine ⟨roleId, cur, tgt, currentUser, rest, hrole, hsel, hdiff, htgt, ?_⟩
  split at h
  · split at h; · simp at h
    obtain ⟨-, hne, hdb⟩ := changeRoleTail_changed h
    refine ⟨hne, ?_⟩
    rw [hdb]
    cases cur <;> cases tgt <;> first
      | exact absurd rfl hne
      | rfl
  · rename_i hempty
    obtain ⟨-, hne, hdb⟩ := changeRoleTail_changed h
    refine ⟨hne, ?_⟩
    have hsel0 : selectById (({ db with
        user_ids := insertIgnoreUserId db.user_ids userId } : DB).table tgt) userId = [] := by
      simp only [Bool.not_eq_true, Bool.not_eq_false'] at hempty
      exact List.isEmpty_iff.mp (by simpa using hempty)
    rw [hdb]
    unfold toolMovedDB
    simp only
    rw [deleteById_of_absent _ _ hsel0]
    cases cur <;> cases tgt <;> first
      | exact absurd rfl hne
      | rfl

theorem toolMovedDB_frame (isoDate : String → String) (db : DB) (cur tgt : TableName)
    (userId roleId : Nat) (currentUser : Row) :
    (toolMovedDB isoDate db cur tgt userId roleId currentUser).sessions = db.sessions ∧
    (toolMovedDB isoDate db cur tgt userId roleId currentUser).user_settings
      = db.user_settings ∧
    (toolMovedDB isoDate db cur tgt userId roleId currentUser).teacher_subjects
      = db.teacher_subjects ∧
    (toolMovedDB isoDate db cur tgt userId roleId currentUser).user_ids
      = insertIgnoreUserId db.user_ids userId := by
  cases cur <;> cases tgt <;> exact ⟨rfl, rfl, rfl, rfl⟩

theorem toolMovedDB_table_target (isoDate : String → String) (db : DB) {cur tgt : TableName}
    (userId roleId : Nat) (currentUser : Row) (hne : cur ≠ tgt) :
    ((toolMovedDB isoDate db cur tgt userId roleId currentUser).table tgt).rows
      = (deleteById (db.table tgt) userId).rows ++ [toolRow isoDate currentUser userId roleId] := by
  cases cur <;> cases tgt <;> first
    | exact absurd rfl hne
    | rfl

theorem toolMovedDB_table_source (isoDate : String → String) (db : DB) {cur tgt : TableName}
    (userId roleId : Nat) (currentUser : Row) (hne : cur ≠ tgt) :
    (toolMovedDB isoDate db cur tgt userId roleId currentUser).table cur
      = deleteById (db.table cur) userId := by
  cases cur <;> cases tgt <;> first
    | exact absurd rfl hne
    | rfl

theorem toolMovedDB_table_other (isoDate : String → String) (db : DB) {cur tgt t : TableName}
    (userId roleId : Nat) (currentUser : Row) (hc : t ≠ cur) (ht : t ≠ tgt) :
    (toolMovedDB isoDate db cur tgt userId roleId currentUser).table t = db.table t := by
  cases cur <;> cases tgt <;> cases t <;> first
    | exact absurd rfl hc
    | exact absurd rfl ht
    | rfl

/-- C19 (refuted as stated). On `school`, for the student (id 2) and the role
teacher, both the handler of `/update-role` and the script succeed. The handler
leaves the person in `teachers` under the new id 3, with the session moved to
`user_id` 3 and the subject row copied; the script leaves the person in
`teachers` under id 2 and `sessions` and `teacher_subjects` as they were. -/
theorem tool_http_counterexample :
    updateRole noFaults school miraUser { userId := some 2, newRoleId := some 3 }
      = (schoolMoved, .migrated 3 movedToken) ∧
    (changeRole sameDay noFaults school 2 "teacher").2 = .changed ∧
    (changeRole sameDay noFaults school 2 "teacher").1.teachers
      = { rows := [{ bob with role_id := 3 }], autoInc := 3 } ∧
    schoolMoved.teachers ≠ (changeRole sameDay noFaults school 2 "teacher").1.teachers ∧
    schoolMoved.sessions ≠ (changeRole sameDay noFaults school 2 "teacher").1.sessions ∧
    schoolMoved.teacher_subjects
      ≠ (changeRole sameDay noFaults school 2 "teacher").1.teacher_subjects := by
  refine ⟨by decide, by decide, by decide, by decide, by decide, by decide⟩

/-- C19 (amended). From a database in which the user's id is in exactly one role
table, when both the handler of `PUT /users/update-role` and changeRole.js
succeed for the same user and role: both leave the source table without the
user's row and the two other role tables as they were, and both append one row
to the target table; the two rows agree in every column but `id` (the handler:
`newUserId`, the script: the old id) and `birth_date` (which the script
reformats). The script leaves `sessions`, `user_settings` and `teacher_subjects`
as they were, while the handler sets `user_id` to `newUserId` in the user's
sessions. -/
theorem tool_http_agree_up_to_id (isoDate : String → String) (faults faultsT : Nat → Bool)
    (db dbH dbT : DB) (user : ReqUser) (body : UpdateRoleBody) (newRole : String)
    (n : Nat) (tok : Token)
    (hH : updateRole faults db user body = (dbH, .migrated n tok))
    (hT : changeRole isoDate faultsT db (body.userId.getD 0) newRole = (dbT, .changed))
    (hrole : roleIdOf newRole = some (body.newRoleId.getD 0))
    (hone : (holders db (body.userId.getD 0)).length = 1) :
    ∃ (src tgt : TableName) (oldUser : Row),
      src ≠ tgt ∧ holders db (body.userId.getD 0) = [src] ∧
      tableOfRole (body.newRoleId.getD 0) = some tgt ∧
      dbH.table src = dbT.table src ∧
      (∀ t, t ≠ src → t ≠ tgt → dbH.table t = db.table t ∧ dbT.table t = db.table t) ∧
      (dbH.table tgt).rows
        = (db.table tgt).rows ++ [migratedRow oldUser (body.newRoleId.getD 0) n] ∧
      (dbT.table tgt).rows
        = (db.table tgt).rows
            ++ [{ migratedRow oldUser (body.newRoleId.getD 0) n with
                  id := body.userId.getD 0,
                  birth_date := oldUser.birth_date.map isoDate }] ∧
      dbT.sessions = db.sessions ∧ dbT.user_settings = db.user_settings ∧
      dbT.teacher_subjects = db.teacher_subjects ∧
      dbH.sessions = relinkSessions db.sessions (body.userId.getD 0) n := by
  obtain ⟨src, tgt, hne, -, htgt, hm⟩ := updateRole_migrated hH
  obtain ⟨oldUser, rest, hsel, hn, -, hdb⟩ := crossTableMove_migrated hm
  obtain ⟨roleId, cur, tgt', currentUser, rest', hrole', hsel', -, htgt', hne', hdbT⟩ :=
    changeRole_changed hT
  have hr : roleId = body.newRoleId.getD 0 := by
    rw [hrole] at hrole'; exact (Option.some.inj hrole').symm
  subst hr
  have htt : tgt' = tgt := by rw [htgt] at htgt'; exact (Option.some.inj htgt').symm
  subst htt
  have hsrc : selectById (db.table src) (body.userId.getD 0) ≠ [] := by rw [hsel]; simp
  have hcur : selectById (db.table cur) (body.userId.getD 0) ≠ [] := by rw [hsel']; simp
  obtain ⟨hhold, hothers⟩ := holders_unique hone hsrc
  have hcs : cur = src := by
    by_contra hc
    exact hcur (hothers cur hc)
  subst hcs
  have hu : currentUser = oldUser := by
    rw [hsel] at hsel'
    exact (List.cons.inj hsel').1.symm
  subst hu
  have hclean : deleteById (db.table tgt') (body.userId.getD 0) = db.table tgt' :=
    deleteById_of_absent _ _ (hothers tgt' (Ne.symm hne))
  subst hdb hdbT hn
  obtain ⟨hs, hset, hts, -⟩ := toolMovedDB_frame isoDate db cur tgt' (body.userId.getD 0)
    (body.newRoleId.getD 0) currentUser
  refine ⟨cur, tgt', currentUser, hne, hhold, htgt, ?_, ?_, ?_, ?_, hs, hset, hts, ?_⟩
  · rw [movedDB_table_source db _ _ currentUser hne,
      toolMovedDB_table_source isoDate db _ _ currentUser hne]
  · intro t hts' htt'
    exact ⟨movedDB_table_other db _ _ currentUser hts' htt',
      toolMovedDB_table_other isoDate db _ _ currentUser hts' htt'⟩
  · rw [movedDB_table_target db _ _ currentUser hne]
  · rw [toolMovedDB_table_target isoDate db _ _ currentUser hne, hclean]
    rfl
  · exact movedDB_sessions db cur tgt' _ _ currentUser

/-- On `school`, for the student and the role teacher. -/
theorem tool_http_agree_up_to_id_witness :
    updateRole noFaults school miraUser { userId := some 2, newRoleId := some 3 }
      = (schoolMoved, .migrated 3 movedToken) ∧
    changeRole sameDay noFaults school 2 "teacher"
      = ((changeRole sameDay noFaults school 2 "teacher").1, .changed) ∧
    roleIdOf "teacher" = some 3 ∧ (holders school 2).length = 1 ∧
    ∃ (src tgt : TableName) (oldUser : Row),
      src ≠ tgt ∧ holders school 2 = [src] ∧ tableOfRole 3 = some tgt ∧
      schoolMoved.table src = (changeRole sameDay noFaults school 2 "teacher").1.table src ∧
      (∀ t, t ≠ src → t ≠ tgt → schoolMoved.table t = school.table t ∧
        (changeRole sameDay noFaults school 2 "teacher").1.table t = school.table t) ∧
      (schoolMoved.table tgt).rows = (school.table tgt).rows ++ [migratedRow oldUser 3 3] ∧
      ((changeRole sameDay noFaults school 2 "teacher").1.table tgt).rows
        = (school.table tgt).rows
            ++ [{ migratedRow oldUser 3 3 with
                  id := 2, birth_date := oldUser.birth_date.map sameDay }] ∧
      (changeRole sameDay noFaults school 2 "teacher").1.sessions = school.sessions ∧
      (changeRole sameDay noFaults school 2 "teacher").1.user_settings
        = school.user_settings ∧
      (changeRole sameDay noFaults school 2 "teacher").1.teacher_subjects
        = school.teacher_subjects ∧
      schoolMoved.sessions = relinkSessions school.sessions 2 3 :=
  have hH : updateRole noFaults school miraUser { userId := some 2, newRoleId := some 3 }
      = (schoolMoved, .migrated 3 movedToken) := by decide
  have hT : changeRole sameDay noFaults school 2 "teacher"
      = ((changeRole sameDay noFaults school 2 "teacher").1, .changed) :=
    Prod.ext rfl (by decide)
  ⟨hH, hT, by decide, by decide,
   tool_http_agree_up_to_id sameDay noFaults noFaults school schoolMoved _ miraUser
     { userId := some 2, newRoleId := some 3 } "teacher" 3 movedToken hH hT (by decide)
     (by decide)⟩


/-! ## The exported role checks -/

theorem hasRole_roleMap_teacher (r : Nat) :
    hasRole (roleMap r) "teacher" = true ↔ r = 2 ∨ r = 3 ∨ r = 4 := by
  match r with
  | 0 => decide
  | 1 => decide
  | 2 => decide
  | 3 => decide
  | 4 => decide
  | n + 5 =>
    have : roleMap (n + 5) = none := rfl
    rw [this]
    constructor
    · intro h; exact absurd h (by decide)
    · intro h; omega

/-- C21 (the code departs from the claim). Once `verifyToken` has accepted the
caller, the chain of `POST /results/assignments` reaches the validation and the
handler exactly for the callers whose `role_id` is 2 (moderator), 3 (teacher) or
4 (student), and answers 403 to every other caller, the admin (1) included; a
caller who passes, sends a body the validation accepts and meets no failing
statement has the assignment inserted under the own id as `teacher_id`. -/
theorem assignmentsChain_admits_iff (faults : Nat → Bool) (db : DB) (cookie : Option Token)
    (user : ReqUser) (h : verifyToken faults db cookie = .next user) :
    (assignmentsChain faults db cookie = .next user
      ↔ (user.role_id = 2 ∨ user.role_id = 3 ∨ user.role_id = 4)) ∧
    (¬(user.role_id = 2 ∨ user.role_id = 3 ∨ user.role_id = 4) →
      assignmentsChain faults db cookie
        = .respond (.error 403 (some "INSUFFICIENT_PERMISSIONS"))) ∧
    (∀ (isISO8601 : String → Bool) (normalizeDate : String → Option String)
        (faultsHandler : Nat → Bool) (assignments : Assignments) (body : AssignmentBody)
        (d : String),
      (user.role_id = 2 ∨ user.role_id = 3 ∨ user.role_id = 4) →
      assignmentValidation isISO8601 body = true →
      normalizeDate body.due_date = some d →
      faultsHandler 0 = false →
      postAssignments isISO8601 normalizeDate faults faultsHandler db assignments cookie body
        = ({ rows := assignments.rows ++ [assignmentRow body d user.id assignments.autoInc],
             autoInc := assignments.autoInc + 1 },
           .created assignments.autoInc)) := by
  obtain ⟨decoded, u, rest, -, -, -, huser⟩ := verifyToken_next h
  have hrole : user.role = roleMap user.role_id := by rw [huser]
  have hiff := hasRole_roleMap_teacher user.role_id
  have hchain : (user.role_id = 2 ∨ user.role_id = 3 ∨ user.role_id = 4) →
      assignmentsChain faults db cookie = .next user := by
    intro hc
    unfold assignmentsChain
    rw [h]
    simp only [checkTeacher, checkRole, hrole]
    simp [hiff.mpr hc]
  have hno : ¬(user.role_id = 2 ∨ user.role_id = 3 ∨ user.role_id = 4) →
      assignmentsChain faults db cookie
        = .respond (.error 403 (some "INSUFFICIENT_PERMISSIONS")) := by
    intro hn
    have hk : hasRole (roleMap user.role_id) "teacher" = false := by
      cases hv : hasRole (roleMap user.role_id) "teacher"
      · rfl
      · exact absurd (hiff.mp hv) hn
    unfold assignmentsChain
    rw [h]
    simp only [checkTeacher, checkRole, hrole]
    simp [hk]
  refine ⟨⟨?_, hchain⟩, hno, ?_⟩
  · intro hc
    by_contra hn
    rw [hno hn] at hc
    exact absurd hc (by simp)
  · intro isISO8601 normalizeDate faultsHandler assignments body d hc hval hdate hf
    unfold postAssignments
    rw [hchain hc]
    simp only [hval, Bool.not_true, Bool.false_eq_true, if_false]
    unfold createAssignment
    simp [hdate, hf]

/-- The student of `school` passes the chain and has an assignment inserted with
the own id 2 as `teacher_id`; so does the moderator; the admin is answered
403. -/
theorem assignmentsChain_admits_iff_witness :
    verifyToken noFaults school (some (loginToken bob "users")) = .next bobUser ∧
    postAssignments anyDate keepDate noFaults noFaults school noAssignments
        (some (loginToken bob "users")) dictation
      = ({ rows := [assignmentRow dictation "2025-04-07" 2 1], autoInc := 2 }, .created 1) ∧
    postAssignments anyDate keepDate noFaults noFaults school noAssignments
        (some (loginToken mira "moders")) dictation
      = ({ rows := [assignmentRow dictation "2025-04-07" 3 1], autoInc := 2 }, .created 1) ∧
    postAssignments anyDate keepDate noFaults noFaults school noAssignments
        (some (loginToken adam "admins")) dictation
      = (noAssignments, .refused (.error 403 (some "INSUFFICIENT_PERMISSIONS"))) ∧
    checkTeacherLocal bobUser = .respond (.error 403 (some "ACCESS_DENIED")) ∧
    ((assignmentsChain noFaults school (some (loginToken bob "users")) = .next bobUser
        ↔ (bobUser.role_id = 2 ∨ bobUser.role_id = 3 ∨ bobUser.role_id = 4)) ∧
      (¬(bobUser.role_id = 2 ∨ bobUser.role_id = 3 ∨ bobUser.role_id = 4) →
        assignmentsChain noFaults school (some (loginToken bob "users"))
          = .respond (.error 403 (some "INSUFFICIENT_PERMISSIONS"))) ∧
      (∀ (isISO8601 : String → Bool) (normalizeDate : String → Option String)
          (faultsHandler : Nat → Bool) (assignments : Assignments) (body : AssignmentBody)
          (d : String),
        (bobUser.role_id = 2 ∨ bobUser.role_id = 3 ∨ bobUser.role_id = 4) →
        assignmentValidation isISO8601 body = true →
        normalizeDate body.due_date = some d →
        faultsHandler 0 = false →
        postAssignments isISO8601 normalizeDate noFaults faultsHandler school assignments
            (some (loginToken bob "users")) body
          = ({ rows := assignments.rows ++
                         [assignmentRow body d bobUser.id assignments.autoInc],
               autoInc := assignments.autoInc + 1 },
             .created assignments.autoInc))) :=
  ⟨by decide, by decide, by decide, by decide, by decide,
   assignmentsChain_admits_iff noFaults school (some (loginToken bob "users")) bobUser
     (by decide)⟩

/-- C22 (the code departs from the claim). The table of `hasRole` on the four
role names, rows and columns in the order admin, moderator, teacher, student: the
student passes every check and the admin only the check for admin, the moderator
passes the check for admin and the teacher does not pass the check for
moderator nor for student. A user without role, and a user role that the object
`roleHierarchy` does not know at all, pass no check; a user role that names a
member inherited from `Object.prototype` passes no check for one of the four
roles, but `hasRole` is true of two inherited names whenever the text of the
first is not below the text of the second, as at `toString` and `toString`. -/
theorem hasRole_table :
    roleNames.map (fun u => roleNames.map (fun r => hasRole (some u) r))
      = [[true, false, false, false],
         [true, true, true, false],
         [true, false, true, false],
         [true, true, true, true]] ∧
    hasRole (some "student") "admin" = true ∧
    hasRole (some "admin") "student" = false ∧
    (∀ u r : String, roleHierarchy u = .undefined → hasRole (some u) r = false) ∧
    (∀ r : String, hasRole none r = false) ∧
    (∀ (u r p : String) (n : Nat), roleHierarchy u = .inherited p →
      roleHierarchy r = .number n → hasRole (some u) r = false) ∧
    hasRole (some "toString") "toString" = true ∧
    hasRole (some "constructor") "constructor" = true ∧
    hasRole (some "valueOf") "toString" = true ∧
    hasRole (some "toString") "valueOf" = false ∧
    hasRole (some "toString") "admin" = false ∧
    (∀ u r : String, hasRole (some u) r = true →
      (∃ a b, roleHierarchy u = .number a ∧ roleHierarchy r = .number b ∧ a ≥ b) ∨
      (∃ s t, roleHierarchy u = .inherited s ∧ roleHierarchy r = .inherited t ∧
        textLess s.data t.data = false)) := by
  refine ⟨by decide, by decide, by decide, ?_, ?_, ?_, by decide, by decide, by decide,
    by decide, by decide, ?_⟩
  · intro u r hu
    simp [hasRole, hu]
  · intro r
    simp [hasRole]
  · intro u r p n hu hr
    simp [hasRole, hu, hr]
  · intro u r h
    unfold hasRole at h
    cases hu : roleHierarchy u with
    | number a =>
      cases hr : roleHierarchy r with
      | number b =>
        simp only [hu, hr, decide_eq_true_eq] at h
        exact Or.inl ⟨a, b, rfl, rfl, h⟩
      | inherited t => simp [hu, hr] at h
      | undefined => simp [hu, hr] at h
    | inherited s =>
      cases hr : roleHierarchy r with
      | number b => simp [hu, hr] at h
      | inherited t =>
        simp only [hu, hr, Bool.not_eq_true'] at h
        exact Or.inr ⟨s, t, rfl, rfl, h⟩
      | undefined => simp [hu, hr] at h
    | undefined => simp [hu] at h

/-! ## Ending all sessions -/

theorem deleteSessions_spec (sessions : List Session) (userId : Nat) :
    (∀ s ∈ deleteSessions sessions userId, s.user_id ≠ userId) ∧
    (deleteSessions sessions userId).filter (fun s => s.user_id != userId)
      = sessions.filter (fun s => s.user_id != userId) := by
  constructor
  · intro s hs
    simp [deleteSessions] at hs
    exact hs.2
  · simp [deleteSessions]

/-- C23 (the code departs from the claim). For every caller that `verifyToken`
accepts, `POST /sessions/logout-all` answers 500 and leaves the database, the
sessions of the caller included, as it was: sessions.js does not bind `db`. In a
module that does bind `db` the same handler, when the statement does not reject,
answers with the success message, leaves no session of the caller and keeps the
sessions of everybody else. -/
theorem logoutAll_answers_500 (faultsMw faults : Nat → Bool) (db : DB)
    (cookie : Option Token) (user : ReqUser)
    (h : verifyToken faultsMw db cookie = .next user) :
    postLogoutAll faultsMw faults db cookie = (db, .error 500 none) ∧
    (faults 0 = false →
      logoutAllIn ("db" :: sessionsBindings) faults db user
          = ({ db with sessions := deleteSessions db.sessions user.id }, .ok) ∧
      (∀ s ∈ deleteSessions db.sessions user.id, s.user_id ≠ user.id) ∧
      (deleteSessions db.sessions user.id).filter (fun s => s.user_id != user.id)
        = db.sessions.filter (fun s => s.user_id != user.id)) := by
  constructor
  · unfold postLogoutAll
    rw [h]
    rfl
  · intro hf
    refine ⟨?_, (deleteSessions_spec _ _).1, (deleteSessions_spec _ _).2⟩
    simp [logoutAllIn, hf]

/-- The moderator of `school` asks to end all sessions: the answer is 500 and the
session `s-mira` is still in the table. -/
theorem logoutAll_answers_500_witness :
    verifyToken noFaults school (some (loginToken mira "moders")) = .next miraUser ∧
    (postLogoutAll noFaults noFaults school (some (loginToken mira "moders"))).1.sessions
      = [{ id := 1, user_id := 2, token := "s-bob", expires_at := "2030-01-01" },
         { id := 2, user_id := 3, token := "s-mira", expires_at := "2030-01-01" }] ∧
    (postLogoutAll noFaults noFaults school (some (loginToken mira "moders"))
        = (school, .error 500 none) ∧
      (noFaults 0 = false →
        logoutAllIn ("db" :: sessionsBindings) noFaults school miraUser
            = ({ school with sessions := deleteSessions school.sessions miraUser.id }, .ok) ∧
        (∀ s ∈ deleteSessions school.sessions miraUser.id, s.user_id ≠ miraUser.id) ∧
        (deleteSessions school.sessions miraUser.id).filter
            (fun s => s.user_id != miraUser.id)
          = school.sessions.filter (fun s => s.user_id != miraUser.id))) :=
  ⟨by decide, by decide,
   logoutAll_answers_500 noFaults noFaults school (some (loginToken mira "moders")) miraUser
     (by decide)⟩

/-! ## The role claimed inside a token -/

/-- C24. Two signed tokens with the same `id` and the same `table_name` have the
same outcome under `verifyToken` on the same database, whatever `role_id` each
claims; and when the outcome is a `req.user`, its `role_id` is that of the row
the lookup returns first and its `role` the name `roleMap` gives to it. -/
theorem verifyToken_ignores_role_claim (faults : Nat → Bool) (db : DB) (p q : Payload)
    (hid : p.id = q.id) (htable : p.table_name = q.table_name) :
    verifyToken faults db (some (jwt_sign p)) = verifyToken faults db (some (jwt_sign q)) ∧
    (∀ user, verifyToken faults db (some (jwt_sign p)) = .next user →
      ∃ u rest, selectById (db.table user.table_name) p.id = u :: rest ∧
        p.table_name.bind tableOfName = some user.table_name ∧
        user.id = p.id ∧ user.role_id = u.role_id ∧ user.role = roleMap u.role_id) := by
  constructor
  · simp only [verifyToken, jwt_sign, jwt_verify, hid, htable]
  · intro user h
    obtain ⟨decoded, u, rest, hcookie, htab, hsel, huser⟩ := verifyToken_next h
    have hd : decoded = p := by
      simp only [jwt_sign, Option.some.injEq, Token.signed.injEq] at hcookie
      exact hcookie.symm
    subst hd
    refine ⟨u, rest, hsel, htab, ?_, ?_, ?_⟩
    · rw [huser]
    · rw [huser]
    · rw [huser]

/-- The student of `school` with the token of the login (claim 4) and with a
token that claims the role of an admin (claim 1): the same `req.user`, a
student. -/
theorem verifyToken_ignores_role_claim_witness :
    (bobClaim 4).id = (bobClaim 1).id ∧ (bobClaim 4).table_name = (bobClaim 1).table_name ∧
    verifyToken noFaults school (some (jwt_sign (bobClaim 1))) = .next bobUser ∧
    (verifyToken noFaults school (some (jwt_sign (bobClaim 4)))
        = verifyToken noFaults school (some (jwt_sign (bobClaim 1))) ∧
      (∀ user, verifyToken noFaults school (some (jwt_sign (bobClaim 4))) = .next user →
        ∃ u rest, selectById (school.table user.table_name) (bobClaim 4).id = u :: rest ∧
          (bobClaim 4).table_name.bind tableOfName = some user.table_name ∧
          user.id = (bobClaim 4).id ∧ user.role_id = u.role_id ∧
          user.role = roleMap u.role_id)) :=
  ⟨rfl, rfl, by decide,
   verifyToken_ignores_role_claim noFaults school (bobClaim 4) (bobClaim 1) rfl rfl⟩


/-! ## The options of a quiz question -/

theorem answersAmongOptions_iff (q : Question) :
    answersAmongOptions q = true ↔
      ∀ correct, q.correct_answers = .list correct →
        ∀ s, Val.text s ∈ correct → Val.text s ∈ q.options := by
  unfold answersAmongOptions
  cases hc : q.correct_answers with
  | value v => simp
  | list correct =>
    simp only [List.all_eq_true, Answers.list.injEq, forall_eq']
    constructor
    · intro h s hs
      have := h _ hs
      simpa using this
    · intro h a ha
      cases a with
      | text s => simpa using h s ha
      | pair p => rfl
      | undefined => rfl
      | null => rfl

theorem getD_undefined_mem (options : List Val) (index : Nat) :
    options.getD index .undefined = .undefined ∨ options.getD index .undefined ∈ options := by
  by_cases h : index < options.length
  · right
    rw [List.getD_eq_getElem _ _ h]
    exact List.getElem_mem _
  · left
    rw [List.getD_eq_default _ _ (by omega)]

theorem mem_set_of_ne {a v : Val} {options : List Val} {index : Nat}
    (ha : a ∈ options) (hne : options.getD index .undefined ≠ a) :
    a ∈ options.set index v := by
  induction options generalizing index with
  | nil => simp at ha
  | cons x rest ih =>
    cases index with
    | zero =>
      simp only [List.set_cons_zero, List.mem_cons]
      simp only [List.getD_cons_zero] at hne
      rcases List.mem_cons.mp ha with h | h
      · exact absurd h.symm hne
      · exact Or.inr h
    | succ n =>
      simp only [List.set_cons_succ, List.mem_cons]
      simp only [List.getD_cons_succ] at hne
      rcases List.mem_cons.mp ha with h | h
      · exact Or.inl h
      · exact Or.inr (ih h hne)

theorem addOptionTo_among (deletedColors : List Val) (q : Question)
    (h : answersAmongOptions q = true) :
    answersAmongOptions (addOptionTo deletedColors q) = true := by
  rw [answersAmongOptions_iff] at h ⊢
  intro correct hc s hs
  have := h correct hc s hs
  simp only [addOptionTo, List.mem_append]
  exact Or.inl this

theorem removeOptionFrom_among (index : Nat) (q : Question)
    (h : answersAmongOptions q = true) :
    answersAmongOptions (removeOptionFrom index q) = true := by
  unfold removeOptionFrom
  cases hq : q.correct_answers with
  | value v => simpa using h
  | list correct =>
    rw [answersAmongOptions_iff]
    intro l hl s hs
    simp only [Answers.list.injEq] at hl
    subst hl
    simp only [List.mem_filter] at hs
    simpa using hs.2

theorem toggleQuiz_among (index : Nat) (q : Question) (correct : List Val)
    (hq : q.correct_answers = .list correct) (h : answersAmongOptions q = true) :
    answersAmongOptions (toggleQuiz index q) = true := by
  rw [answersAmongOptions_iff] at h
  have h0 := h correct hq
  unfold toggleQuiz
  simp only [hq]
  rw [answersAmongOptions_iff]
  intro l hl s hs
  simp only [Answers.list.injEq] at hl
  subst hl
  split at hs
  · simp only [List.mem_filter] at hs
    exact h0 s hs.1
  · rcases List.mem_append.mp hs with hm | hm
    · exact h0 s hm
    · simp only [List.mem_singleton] at hm
      rcases getD_undefined_mem q.options index with hu | hu
      · rw [hu] at hm
        exact absurd hm (by simp)
      · rw [← hm] at hu
        exact hu

theorem updateOptionIn_among (index : Nat) (value : String) (q : Question)
    (correct : List Val) (hq : q.correct_answers = .list correct)
    (hfree : q.options.getD index .undefined ∉ correct)
    (h : answersAmongOptions q = true) :
    answersAmongOptions (updateOptionIn index value q) = true := by
  rw [answersAmongOptions_iff] at h ⊢
  intro l hl s hs
  simp only [updateOptionIn] at hl ⊢
  have hcl : l = correct := by
    rw [hq] at hl
    simp only [Answers.list.injEq] at hl
    exact hl.symm
  subst hcl
  refine mem_set_of_ne (h l hq s hs) ?_
  intro he
  rw [he] at hfree
  exact hfree hs


theorem removeOptionFrom_type (index : Nat) (q : Question) :
    (removeOptionFrom index q).question_type = q.question_type ∧
    answersIsArray (removeOptionFrom index q) = answersIsArray q := by
  unfold removeOptionFrom
  cases hq : q.correct_answers with
  | value v => simp [hq]
  | list correct => simp [answersIsArray, hq]

theorem toggleQuiz_type (index : Nat) (q : Question) (correct : List Val)
    (hq : q.correct_answers = .list correct) :
    (toggleQuiz index q).question_type = q.question_type ∧
    answersIsArray (toggleQuiz index q) = true := by
  unfold toggleQuiz
  simp [hq, answersIsArray]

theorem answersIsArray_list {q : Question} (h : answersIsArray q = true) :
    ∃ correct, q.correct_answers = .list correct := by
  unfold answersIsArray at h
  cases hq : q.correct_answers with
  | value v => simp [hq] at h
  | list correct => exact ⟨correct, rfl⟩

/-- C25 (the code departs from the claim). On a form whose quiz questions have an
array of correct answers in which every string is one of the options, `addOption`,
`removeOption` and `toggleCorrectAnswer` (with any index) leave such a form; and
so does `updateOption(index, value)` when the option it overwrites in the current
quiz question is not one of the correct answers. -/
theorem quiz_answers_invariant (s : FormState)
    (h : ∀ q ∈ s.questions, q.question_type = "quiz" →
      answersIsArray q = true ∧ answersAmongOptions q = true) :
    (∀ q ∈ (addOption s).questions, q.question_type = "quiz" →
      answersIsArray q = true ∧ answersAmongOptions q = true) ∧
    (∀ index, ∀ q ∈ (removeOption index s).questions, q.question_type = "quiz" →
      answersIsArray q = true ∧ answersAmongOptions q = true) ∧
    (∀ index, ∀ q ∈ (toggleCorrectAnswer index s).questions, q.question_type = "quiz" →
      answersIsArray q = true ∧ answersAmongOptions q = true) ∧
    (∀ index value,
      (∀ q ∈ s.questions, isCurrentQuiz s.currentQuestionId q = true →
        ∀ correct, q.correct_answers = .list correct →
          q.options.getD index .undefined ∉ correct) →
      ∀ q ∈ (updateOption index value s).questions, q.question_type = "quiz" →
        answersIsArray q = true ∧ answersAmongOptions q = true) := by
  refine ⟨?_, ?_, ?_, ?_⟩
  · intro q' hq' hquiz
    simp only [addOption, List.mem_map] at hq'
    obtain ⟨q, hq, rfl⟩ := hq'
    split at hquiz
    · have hquiz0 : q.question_type = "quiz" := hquiz
      obtain ⟨ha, hm⟩ := h q hq hquiz0
      rename_i hg
      rw [if_pos hg]
      exact ⟨ha, addOptionTo_among _ q hm⟩
    · rename_i hg
      rw [if_neg hg]
      exact h q hq hquiz
  · intro index q' hq' hquiz
    simp only [removeOption, List.mem_map] at hq'
    obtain ⟨q, hq, rfl⟩ := hq'
    split at hquiz
    · rename_i hg
      rw [if_pos hg]
      rw [(removeOptionFrom_type index q).1] at hquiz
      obtain ⟨ha, hm⟩ := h q hq hquiz
      exact ⟨by rw [(removeOptionFrom_type index q).2]; exact ha,
        removeOptionFrom_among index q hm⟩
    · rename_i hg
      rw [if_neg hg]
      exact h q hq hquiz
  · intro index q' hq' hquiz
    simp only [toggleCorrectAnswer, List.mem_map] at hq'
    obtain ⟨q, hq, rfl⟩ := hq'
    by_cases hid : some q.id ≠ s.currentQuestionId
    · rw [if_pos hid] at hquiz ⊢
      exact h q hq hquiz
    · rw [if_neg hid] at hquiz ⊢
      by_cases ht : q.question_type = "quiz"
      · rw [if_pos ht] at hquiz ⊢
        obtain ⟨ha, hm⟩ := h q hq ht
        obtain ⟨correct, hc⟩ := answersIsArray_list ha
        exact ⟨(toggleQuiz_type index q correct hc).2, toggleQuiz_among index q correct hc hm⟩
      · rw [if_neg ht] at hquiz ⊢
        by_cases htf : q.question_type = "true_false"
        · rw [if_pos htf] at hquiz
          have : q.question_type = "quiz" := hquiz
          exact absurd this ht
        · rw [if_neg htf] at hquiz
          exact absurd hquiz ht
  · intro index value hfree q' hq' hquiz
    simp only [updateOption, List.mem_map] at hq'
    obtain ⟨q, hq, rfl⟩ := hq'
    by_cases hg : isCurrentQuiz s.currentQuestionId q = true
    · rw [if_pos hg] at hquiz ⊢
      have hquiz0 : q.question_type = "quiz" := hquiz
      obtain ⟨ha, hm⟩ := h q hq hquiz0
      obtain ⟨correct, hc⟩ := answersIsArray_list ha
      exact ⟨ha, updateOptionIn_among index value q correct hc (hfree q hq hg correct hc) hm⟩
    · rw [if_neg hg] at hquiz ⊢
      exact h q hq hquiz

/-- The form `lesson` has the property; retyping the first option of its
question, which is marked correct, gives a question whose correct answer
"Астана" is no option, while the three other handlers keep the property. -/
theorem quiz_answers_invariant_witness :
    (∀ q ∈ lesson.questions, q.question_type = "quiz" →
      answersIsArray q = true ∧ answersAmongOptions q = true) ∧
    (updateOption 0 "Нур-Султан" lesson).questions = [capitalRetyped] ∧
    capitalRetyped.correct_answers = .list [.text "Астана"] ∧
    answersAmongOptions capitalRetyped = false ∧
    ((∀ q ∈ (addOption lesson).questions, q.question_type = "quiz" →
        answersIsArray q = true ∧ answersAmongOptions q = true) ∧
      (∀ index, ∀ q ∈ (removeOption index lesson).questions, q.question_type = "quiz" →
        answersIsArray q = true ∧ answersAmongOptions q = true) ∧
      (∀ index, ∀ q ∈ (toggleCorrectAnswer index lesson).questions,
        q.question_type = "quiz" →
        answersIsArray q = true ∧ answersAmongOptions q = true) ∧
      (∀ index value,
        (∀ q ∈ lesson.questions, isCurrentQuiz lesson.currentQuestionId q = true →
          ∀ correct, q.correct_answers = .list correct →
            q.options.getD index .undefined ∉ correct) →
        ∀ q ∈ (updateOption index value lesson).questions, q.question_type = "quiz" →
          answersIsArray q = true ∧ answersAmongOptions q = true)) :=
  have hl : ∀ q ∈ lesson.questions, q.question_type = "quiz" →
      answersIsArray q = true ∧ answersAmongOptions q = true := by
    intro q hq _
    have hq1 : q = capital := by simpa [lesson] using hq
    subst hq1
    exact ⟨by decide, by decide⟩
  ⟨hl, by decide, by decide, by decide, quiz_answers_invariant lesson hl⟩


/-! ## The two validators of a game question -/

theorem validateFrom_none (i : Nat) (questions : List Question)
    (h : validateFrom i questions = none) : ∀ q ∈ questions, questionRejected q = false := by
  induction questions generalizing i with
  | nil => intro q hq; simp at hq
  | cons x rest ih =>
    unfold validateFrom at h
    by_cases hx : questionRejected x = true
    · simp [hx] at h
    · simp only [hx, Bool.false_eq_true, if_false] at h
      intro q hq
      rcases List.mem_cons.mp hq with rfl | hm
      · simpa using hx
      · exact ih (i + 1) h q hm

theorem ne_empty_of_trimmedNonEmpty {s : String} (h : trimmedNonEmpty s = true) : s ≠ "" := by
  intro he
  subst he
  simp [trimmedNonEmpty] at h

theorem pairFilled_of_someBlank (options : List Val) (h : someBlank options = some false) :
    (options.map jsonVal).all pairFilled = true := by
  induction options with
  | nil => rfl
  | cons v rest ih =>
    unfold someBlank at h
    cases v with
    | text s => simp [pairBlank] at h
    | undefined => simp [pairBlank] at h
    | null => simp [pairBlank] at h
    | pair p =>
      simp only [pairBlank] at h
      by_cases hb : (!trimmedNonEmpty p.left || !trimmedNonEmpty p.right) = true
      · simp [hb] at h
      · simp only [hb] at h
        simp only [Bool.or_eq_true, Bool.not_eq_true', not_or, Bool.not_eq_false] at hb
        have hl := ne_empty_of_trimmedNonEmpty hb.1
        have hr := ne_empty_of_trimmedNonEmpty hb.2
        simp only [List.map_cons, List.all_cons, jsonVal, pairFilled, Bool.and_eq_true]
        refine ⟨?_, ih h⟩
        simp [hl, hr]

theorem includesJson_of_answersAreOptions (options correct : List Val)
    (h : correct.all (fun a => match a with
      | .text _ => options.contains a
      | _ => false) = true) :
    (correct.map jsonVal).all (includesJson (options.map jsonVal)) = true := by
  simp only [List.all_eq_true, List.mem_map, forall_exists_index, and_imp,
    forall_apply_eq_imp_iff₂] at h ⊢
  intro a ha
  have := h a ha
  cases a with
  | text s =>
    simp only [jsonVal, includesJson]
    simp only [List.contains_eq_any_beq, List.any_eq_true, beq_iff_eq] at this ⊢
    obtain ⟨x, hx, hxe⟩ := this
    exact ⟨x, List.mem_map.mpr ⟨x, hx, by rw [← hxe]; rfl⟩, hxe⟩
  | pair p => simp at this
  | undefined => simp at this
  | null => simp at this


theorem taskAccepted_toGameTask (q : Question) (hrej : questionRejected q = false)
    (htimer : 0 ≤ q.timer) (hpoints : 0 ≤ q.points)
    (hans : q.question_type = "quiz" → answersAreOptions q = true) :
    taskAccepted (toGameTask q) = true := by
  unfold questionRejected at hrej
  by_cases hquestion : trimmedNonEmpty q.question = true
  swap
  · simp [hquestion] at hrej
  simp only [hquestion, Bool.not_true, Bool.false_eq_true, if_false] at hrej
  have hq : q.question ≠ "" := ne_empty_of_trimmedNonEmpty hquestion
  have hnum : nonNegativeNumber (toGameTask q).timer = true ∧
      nonNegativeNumber (toGameTask q).points = true := by
    simp [toGameTask, nonNegativeNumber, htimer, hpoints]
  have hfirst : ((toGameTask q).question != "") = true := by
    simp [toGameTask, hq]
  by_cases h1 : q.question_type = "quiz"
  · simp only [h1, if_true] at hrej
    have ha := hans h1
    split at hrej
    · exact absurd hrej (by simp)
    rename_i hlen
    split at hrej
    · exact absurd hrej (by simp)
    split at hrej
    · exact absurd hrej (by simp)
    rename_i hne
    unfold answersAreOptions at ha
    unfold nonEmptyArray at hne
    have htype : typeChecks (toGameTask q) = true := by
      unfold typeChecks
      cases hc : q.correct_answers with
      | value v => simp [hc] at hne
      | list correct =>
        simp only [hc] at ha hne
        have hinc := includesJson_of_answersAreOptions q.options correct ha
        have hcne : correct ≠ [] := by
          intro he
          subst he
          simp at hne
        simp only [toGameTask, h1, hc, if_true, jsonAnswers, List.length_map,
          Option.getD_some, Bool.and_eq_true, decide_eq_true_eq, hinc, and_true]
        refine ⟨⟨by omega, by omega⟩, ?_⟩
        simpa [hcne] using hinc
    simp only [taskAccepted, hfirst, htype, hnum.1, hnum.2, Bool.and_true, Bool.true_and,
      Bool.and_eq_true]
    simp [toGameTask, h1, gameTaskTypes]
  · simp only [h1, if_false] at hrej
    by_cases h2 : q.question_type = "true_false"
    · simp only [h2, if_true] at hrej
      split at hrej
      · exact absurd hrej (by simp)
      split at hrej
      · exact absurd hrej (by simp)
      rename_i hcorrect
      have htype : typeChecks (toGameTask q) = true := by
        unfold typeChecks
        simp only [not_and_or, not_not] at hcorrect
        rcases hcorrect with hc | hc
        · simp [toGameTask, h2, hc, answersOrNull, jsonAnswers]
        · simp [toGameTask, h2, hc, answersOrNull, jsonAnswers]
      simp only [taskAccepted, hfirst, htype, hnum.1, hnum.2, Bool.and_true, Bool.true_and,
        Bool.and_eq_true]
      simp [toGameTask, h2, gameTaskTypes]
    · simp only [h2, if_false] at hrej
      by_cases h3 : q.question_type = "pin_answer"
      · simp only [h3, if_true] at hrej
        split at hrej
        · exact absurd hrej (by simp)
        rename_i himage
        split at hrej
        · exact absurd hrej (by simp)
        rename_i hpos
        have htype : typeChecks (toGameTask q) = true := by
          unfold typeChecks
          cases hp : q.correct_position with
          | none => simp [hp] at hpos
          | some p =>
            simp only [Bool.not_eq_true, Bool.not_eq_false'] at himage
            simp [toGameTask, h3, hp]
            simpa using himage
        simp only [taskAccepted, hfirst, htype, hnum.1, hnum.2, Bool.and_true, Bool.true_and,
          Bool.and_eq_true]
        simp [toGameTask, h3, gameTaskTypes]
      · simp only [h3, if_false] at hrej
        by_cases h4 : q.question_type = "matching"
        · simp only [h4, if_true] at hrej
          split at hrej
          · exact absurd hrej (by simp)
          rename_i hlen
          split at hrej
          · exact absurd hrej (by simp)
          rename_i hblank
          have hfilled := pairFilled_of_someBlank q.options (by simpa using hblank)
          have htype : typeChecks (toGameTask q) = true := by
            unfold typeChecks
            simp only [toGameTask, h4, List.length_map, hfilled, Bool.and_true]
            simp
            omega
          simp only [taskAccepted, hfirst, htype, hnum.1, hnum.2, Bool.and_true, Bool.true_and,
            Bool.and_eq_true]
          simp [toGameTask, h4, gameTaskTypes]
        · simp [h4] at hrej

/-- C26 (the code departs from the claim). When the timers and the points are not
negative and every correct answer of every quiz question is a string that is one
of its options, a list of questions for which `validateQuestions` returns `null`
is accepted by the `game_tasks` validator of the server once `handleSubmit` has
sent it with `is_game` true. -/
theorem client_accepted_server_accepted (questions : List Question)
    (hnum : ∀ q ∈ questions, 0 ≤ q.timer ∧ 0 ≤ q.points)
    (hans : ∀ q ∈ questions, q.question_type = "quiz" → answersAreOptions q = true)
    (h : validateQuestions questions = none) :
    validateGameTasks true (some (questions.map toGameTask)) = true := by
  unfold validateQuestions at h
  cases questions with
  | nil => simp at h
  | cons q rest =>
    simp only [List.isEmpty_cons, Bool.false_eq_true, if_false] at h
    have hall := validateFrom_none 0 (q :: rest) h
    simp only [validateGameTasks, if_true, List.map_cons, List.all_eq_true]
    intro t ht
    rw [← List.map_cons] at ht
    obtain ⟨x, hx, rfl⟩ := List.mem_map.mp ht
    exact taskAccepted_toGameTask x (hall x hx) (hnum x hx).1 (hnum x hx).2 (hans x hx)

/-- The question `capital` passes both validators; with its first option
retyped, so that the correct answer "Астана" is no option any more, the list
passes `validateQuestions` and the server rejects it. -/
theorem client_accepted_server_accepted_witness :
    (∀ q ∈ [capital], 0 ≤ q.timer ∧ 0 ≤ q.points) ∧
    (∀ q ∈ [capital], q.question_type = "quiz" → answersAreOptions q = true) ∧
    validateQuestions [capital] = none ∧
    validateGameTasks true (some ([capital].map toGameTask)) = true ∧
    lessonRetyped = [capitalRetyped] ∧
    (∀ q ∈ lessonRetyped, 0 ≤ q.timer ∧ 0 ≤ q.points) ∧
    validateQuestions lessonRetyped = none ∧
    validateGameTasks true (some (lessonRetyped.map toGameTask)) = false :=
  have hnum : ∀ q ∈ [capital], 0 ≤ q.timer ∧ 0 ≤ q.points := by
    intro q hq
    have hq1 : q = capital := by simpa using hq
    subst hq1
    exact ⟨by decide, by decide⟩
  have hans : ∀ q ∈ [capital], q.question_type = "quiz" → answersAreOptions q = true := by
    intro q hq _
    have hq1 : q = capital := by simpa using hq
    subst hq1
    decide
  have hnum2 : ∀ q ∈ lessonRetyped, 0 ≤ q.timer ∧ 0 ≤ q.points := by
    intro q hq
    have hl : lessonRetyped = [capitalRetyped] := by decide
    rw [hl] at hq
    have hq1 : q = capitalRetyped := by simpa using hq
    subst hq1
    exact ⟨by decide, by decide⟩
  ⟨hnum, hans, by decide,
   client_accepted_server_accepted [capital] hnum hans (by decide),
   by decide, hnum2, by decide, by decide⟩


/-! ## The number of options of a quiz question -/

theorem optionsInRange_iff (q : Question) :
    optionsInRange q = true ↔
      4 ≤ q.options.length ∧ q.options.length ≤ 8 ∧
        ∃ colors, q.option_colors = some colors ∧ colors.length = q.options.length := by
  unfold optionsInRange
  cases hc : q.option_colors with
  | none => simp
  | some colors => simp [and_assoc]

theorem addOptionTo_inRange (deletedColors : List Val) (q : Question)
    (hlen : ¬ q.options.length ≥ 8) (h : optionsInRange q = true) :
    optionsInRange (addOptionTo deletedColors q) = true := by
  rw [optionsInRange_iff] at h ⊢
  obtain ⟨h4, -, colors, hc, hcl⟩ := h
  refine ⟨?_, ?_, currentColors q ++ [availableColor deletedColors q], rfl, ?_⟩
  · simp only [addOptionTo, List.length_append, List.length_singleton]; omega
  · simp only [addOptionTo, List.length_append, List.length_singleton]; omega
  · simp only [addOptionTo, currentColors, hc, List.length_append, List.length_singleton, hcl]

theorem removeOptionFrom_inRange (index : Nat) (q : Question)
    (hlen : ¬ q.options.length ≤ 4) (h : optionsInRange q = true) :
    optionsInRange (removeOptionFrom index q) = true := by
  unfold removeOptionFrom
  cases hq : q.correct_answers with
  | value v => simpa using h
  | list correct =>
    rw [optionsInRange_iff] at h ⊢
    obtain ⟨-, h8, colors, hc, hcl⟩ := h
    refine ⟨?_, ?_, (currentColors q).eraseIdx index, rfl, ?_⟩
    · simp only [List.length_eraseIdx]; split <;> omega
    · simp only [List.length_eraseIdx]; split <;> omega
    · simp only [currentColors, hc, List.length_eraseIdx, hcl]

theorem afterCall_inRange (s : FormState) (call : OptionCall) (i : Nat) (q : Question)
    (hq : s.questions.get? i = some q) (h : optionsInRange q = true) :
    ∃ q', (afterCall s call).questions.get? i = some q' ∧ optionsInRange q' = true := by
  rw [List.get?_eq_getElem?] at hq
  cases call with
  | add =>
    simp only [afterCall, addOption, List.get?_eq_getElem?, List.getElem?_map, hq,
      Option.map_some']
    refine ⟨_, rfl, ?_⟩
    split
    · rename_i hg
      simp only [addOptionApplies, Bool.and_eq_true, Bool.not_eq_true', decide_eq_false_iff_not]
        at hg
      exact addOptionTo_inRange _ q hg.2 h
    · exact h
  | remove index =>
    simp only [afterCall, removeOption, List.get?_eq_getElem?, List.getElem?_map, hq,
      Option.map_some']
    refine ⟨_, rfl, ?_⟩
    split
    · rename_i hg
      simp only [removeOptionApplies, Bool.and_eq_true, Bool.not_eq_true',
        decide_eq_false_iff_not] at hg
      exact removeOptionFrom_inRange index q hg.2 h
    · exact h

/-- C27. A question of the form that has between 4 and 8 options and an
`option_colors` array of the same length is, after every sequence of `addOption`
and `removeOption` calls (with any index, whichever question is selected), still
a question at the same place of the list with between 4 and 8 options and an
`option_colors` array of the same length. -/
theorem options_stay_in_range (calls : List OptionCall) (s : FormState) (i : Nat)
    (q : Question) (hq : s.questions.get? i = some q) (h : optionsInRange q = true) :
    ∃ q', (calls.foldl afterCall s).questions.get? i = some q' ∧
      4 ≤ q'.options.length ∧ q'.options.length ≤ 8 ∧
      ∃ colors, q'.option_colors = some colors ∧ colors.length = q'.options.length := by
  induction calls generalizing s q with
  | nil => exact ⟨q, hq, (optionsInRange_iff q).mp h⟩
  | cons call rest ih =>
    obtain ⟨q1, hq1, h1⟩ := afterCall_inRange s call i q hq h
    exact ih (afterCall s call) q1 hq1 h1

/-- The question of `lesson` through five additions, of which the last finds
eight options, and six removals, of which the last two find four. -/
theorem options_stay_in_range_witness :
    lesson.questions.get? 0 = some capital ∧ optionsInRange capital = true ∧
    (([OptionCall.add, .add, .add, .add, .add].foldl afterCall lesson).questions.map
        (fun q => q.options.length)) = [8] ∧
    (([OptionCall.add, .add, .remove 0, .remove 7, .remove 1, .remove 0].foldl afterCall
        lesson).questions.map (fun q => (q.options.length, q.option_colors.map List.length)))
      = [(4, some 4)] ∧
    (∃ q', (([OptionCall.add, .add, .add, .add, .add, .remove 2, .remove 0, .remove 0,
          .remove 0, .remove 0, .remove 0].foldl afterCall lesson).questions.get? 0 = some q') ∧
      4 ≤ q'.options.length ∧ q'.options.length ≤ 8 ∧
      ∃ colors, q'.option_colors = some colors ∧ colors.length = q'.options.length) :=
  ⟨by decide, by decide, by decide, by decide,
   options_stay_in_range
     [OptionCall.add, .add, .add, .add, .add, .remove 2, .remove 0, .remove 0,
      .remove 0, .remove 0, .remove 0] lesson 0 capital (by decide) (by decide)⟩


/-! ## The text of a time limit -/


set_option maxRecDepth 100000 in
theorem formatTimeLimit_below_60 :
    ∀ n, n < 59 →
      validateForm (lessonForm "Другое" (toString (n + 1))) = none ∧
      wellFormedDuration (formatTimeLimit "Другое" (toString (n + 1))) = true ∧
      durationMinutes (formatTimeLimit "Другое" (toString (n + 1))) = some (n + 1) := by
  decide

set_option maxRecDepth 100000 in
theorem formatTimeLimit_from_60 :
    ∀ n, n < 140 →
      validateForm (lessonForm "Другое" (toString (n + 60))) = none ∧
      wellFormedDuration (formatTimeLimit "Другое" (toString (n + 60))) = false := by
  decide

/-- C28 (the code departs from the claim). The presets up to "50 минут" and a
custom limit of 1 to 59 minutes, which `validateForm` accepts, give a text
`00:MM:00` that is well formed and denotes the requested minutes. The preset
"60 минут" gives `00:60:00`, and a custom limit of 60 minutes or more, which
`validateForm` accepts as well, gives a text whose minutes field is the number
itself (`00:90:00`, `00:150:00`): not a well-formed duration. -/
theorem formatTimeLimit_durations :
    (TIME_LIMIT_OPTIONS.take 7).map (fun t => formatTimeLimit t "")
      = ["00:00:00", "00:05:00", "00:10:00", "00:20:00", "00:30:00", "00:40:00",
         "00:50:00"] ∧
    (TIME_LIMIT_OPTIONS.take 7).map (fun t => durationMinutes (formatTimeLimit t ""))
      = [some 0, some 5, some 10, some 20, some 30, some 40, some 50] ∧
    TIME_LIMIT_OPTIONS.drop 7 = ["60 минут", "Другое"] ∧
    formatTimeLimit "60 минут" "" = "00:60:00" ∧
    wellFormedDuration (formatTimeLimit "60 минут" "") = false ∧
    (∀ n, n < 59 →
      validateForm (lessonForm "Другое" (toString (n + 1))) = none ∧
      wellFormedDuration (formatTimeLimit "Другое" (toString (n + 1))) = true ∧
      durationMinutes (formatTimeLimit "Другое" (toString (n + 1))) = some (n + 1)) ∧
    (∀ n, n < 140 →
      validateForm (lessonForm "Другое" (toString (n + 60))) = none ∧
      wellFormedDuration (formatTimeLimit "Другое" (toString (n + 60))) = false) ∧
    formatTimeLimit "Другое" "90" = "00:90:00" ∧
    formatTimeLimit "Другое" "150" = "00:150:00" ∧
    validateForm (lessonForm "Другое" "0") = some "Укажите корректный лимит времени." := by
  exact ⟨by decide, by decide, by decide, by decide, by decide, formatTimeLimit_below_60,
    formatTimeLimit_from_60, by decide, by decide, by decide⟩


/-! ## The score of a game -/

theorem setupQuestion_spec (gameTasks : List GameTask) (s : QuizScene) :
    (setupQuestion gameTasks s).currentQuestionIndex = s.currentQuestionIndex ∧
    (setupQuestion gameTasks s).score = s.score ∧
    ((setupQuestion gameTasks s).timerEvent = true →
      s.currentQuestionIndex < gameTasks.length) ∧
    ((setupQuestion gameTasks s).pinImage = true →
      (setupQuestion gameTasks s).pinMarker = true) := by
  unfold setupQuestion
  cases h : gameTasks.get? s.currentQuestionIndex with
  | none => simp
  | some task =>
    have hlt : s.currentQuestionIndex < gameTasks.length := by
      rw [List.get?_eq_getElem?] at h
      exact (List.getElem?_eq_some_iff.mp h).1
    by_cases hp : task.question_type = "pin_answer" ∧ truthyText task.image = true
    · simp only [hp, and_self, if_true]
      exact ⟨trivial, trivial, fun _ => hlt, fun _ => trivial⟩
    · simp only [hp, if_false]
      exact ⟨trivial, trivial, fun _ => hlt, fun h => absurd h (by simp)⟩

theorem answered_spec (gameTasks : List GameTask) (task : GameTask) (isCorrect : Bool)
    (s : QuizScene) :
    (answered gameTasks task isCorrect s).currentQuestionIndex = s.currentQuestionIndex + 1 ∧
    (answered gameTasks task isCorrect s).score
      = s.score + (if isCorrect then task.points else 0) ∧
    ((answered gameTasks task isCorrect s).timerEvent = true →
      s.currentQuestionIndex + 1 < gameTasks.length) ∧
    ((answered gameTasks task isCorrect s).pinImage = true →
      (answered gameTasks task isCorrect s).pinMarker = true) := by
  unfold answered
  refine ⟨(setupQuestion_spec _ _).1, ?_, (setupQuestion_spec _ _).2.2.1,
    (setupQuestion_spec _ _).2.2.2⟩
  rw [(setupQuestion_spec _ _).2.1]
  cases isCorrect <;> simp

theorem pointsAt_of_get? {gameTasks : List GameTask} {i : Nat} {task : GameTask}
    (h : gameTasks.get? i = some task) : pointsAt gameTasks i = task.points := by
  unfold pointsAt
  rw [h]
  rfl

/-- What a click does, for each of the three answer handlers when it runs to its
end: `verdict` is the value of `isCorrect`, when computing it does not throw. -/
theorem click_spec (gameTasks : List GameTask) (s : QuizScene)
    (verdict : GameTask → Option Bool)
    (htimer : s.timerEvent = true → s.currentQuestionIndex < gameTasks.length)
    (hpin : s.pinImage = true → s.pinMarker = true)
    (s' : QuizScene) (v : Option Bool)
    (hs' : s' = match gameTasks.get? s.currentQuestionIndex with
      | none => s
      | some task =>
        match verdict task with
        | none => s
        | some isCorrect => answered gameTasks task isCorrect s)
    (hv' : v = (gameTasks.get? s.currentQuestionIndex).bind verdict) :
    (s'.currentQuestionIndex = s.currentQuestionIndex + (if v.isSome then 1 else 0)) ∧
    (s'.score = s.score + (if v = some true then pointsAt gameTasks s.currentQuestionIndex
      else 0)) ∧
    (v.isSome = true → s.currentQuestionIndex < gameTasks.length) ∧
    (s'.timerEvent = true → s'.currentQuestionIndex < gameTasks.length) ∧
    (s'.pinImage = true → s'.pinMarker = true) := by
  cases hget : gameTasks.get? s.currentQuestionIndex with
  | none =>
    rw [hget] at hs' hv'
    subst hs' hv'
    simpa using ⟨htimer, hpin⟩
  | some task =>
    have hlt : s.currentQuestionIndex < gameTasks.length := by
      rw [List.get?_eq_getElem?] at hget
      exact (List.getElem?_eq_some_iff.mp hget).1
    rw [hget] at hs' hv'
    cases hv : verdict task with
    | none =>
      simp only [hv, Option.some_bind] at hs' hv'
      subst hs' hv'
      simpa using ⟨htimer, hpin⟩
    | some isCorrect =>
      simp only [hv, Option.some_bind] at hs' hv'
      subst hs' hv'
      obtain ⟨h1, h2, h3, h4⟩ := answered_spec gameTasks task isCorrect s
      refine ⟨by simpa using h1, ?_, fun _ => hlt, ?_, h4⟩
      · rw [h2, pointsAt_of_get? hget]
        cases isCorrect <;> simp
      · intro ht
        rw [h1]
        exact h3 ht

/-- With a marker in place `checkPinAnswer` runs to its end like the two other
answer handlers. -/
theorem checkPinAnswer_of_marker (gameTasks : List GameTask) (position : Position)
    (s : QuizScene) (h : s.pinMarker = true) :
    checkPinAnswer gameTasks position s
      = match gameTasks.get? s.currentQuestionIndex with
        | none => s
        | some task =>
          match pinIsCorrect task position with
          | none => s
          | some isCorrect => answered gameTasks task isCorrect s := by
  unfold checkPinAnswer
  cases gameTasks.get? s.currentQuestionIndex with
  | none => rfl
  | some task =>
    simp only
    cases pinIsCorrect task position with
    | none => rfl
    | some isCorrect => simp [h]

/-- What an event does to the index, the score, the timer event and the picture,
read off the verdict. -/
theorem sceneAfter_spec (gameTasks : List GameTask) (s : QuizScene) (e : GameEvent)
    (htimer : s.timerEvent = true → s.currentQuestionIndex < gameTasks.length)
    (hpin : s.pinImage = true → s.pinMarker = true) :
    ((sceneAfter gameTasks s e).currentQuestionIndex
      = s.currentQuestionIndex + (if (verdictOf gameTasks s e).isSome then 1 else 0)) ∧
    ((sceneAfter gameTasks s e).score
      = s.score +
        (if verdictOf gameTasks s e = some true then pointsAt gameTasks s.currentQuestionIndex
         else 0)) ∧
    ((verdictOf gameTasks s e).isSome = true → s.currentQuestionIndex < gameTasks.length) ∧
    ((sceneAfter gameTasks s e).timerEvent = true →
      (sceneAfter gameTasks s e).currentQuestionIndex < gameTasks.length) ∧
    ((sceneAfter gameTasks s e).pinImage = true →
      (sceneAfter gameTasks s e).pinMarker = true) := by
  cases e with
  | answer index =>
    exact click_spec gameTasks s (fun task => quizIsCorrect task index) htimer hpin _ _ rfl rfl
  | pin position =>
    by_cases hshown : s.pinImage = true
    · simp only [sceneAfter, verdictOf, hshown, if_true]
      exact click_spec gameTasks s (fun task => pinIsCorrect task position) htimer hpin _ _
        (checkPinAnswer_of_marker gameTasks position s (hpin hshown)) rfl
    · have hs : sceneAfter gameTasks s (.pin position) = s := by
        simp only [sceneAfter, hshown, Bool.false_eq_true, if_false]
      have hv : verdictOf gameTasks s (.pin position) = none := by
        simp only [verdictOf, hshown, Bool.false_eq_true, if_false]
      rw [hs, hv]
      exact ⟨by simp, by simp, fun h => absurd h (by simp), htimer, hpin⟩
  | matching pair =>
    exact click_spec gameTasks s (fun task => matchingIsCorrect task pair) htimer hpin _ _
      rfl rfl
  | second =>
    simp only [sceneAfter, verdictOf]
    by_cases ht : s.timerEvent = true
    · have hlt := htimer ht
      by_cases hx : s.timeLeft - 1 ≤ 0
      · simp only [ht, if_true, updateTimer, hx, Bool.true_and, decide_True, Option.isSome_some,
          reduceCtorEq, Option.some.injEq, Bool.false_eq_true, if_false, add_zero]
        refine ⟨(setupQuestion_spec _ _).1, (setupQuestion_spec _ _).2.1, fun _ => hlt, ?_,
          (setupQuestion_spec _ _).2.2.2⟩
        intro h
        rw [(setupQuestion_spec _ _).1]
        exact (setupQuestion_spec _ _).2.2.1 h
      · simp only [ht, if_true, updateTimer, hx, if_false, Bool.true_and, decide_False,
          Bool.false_eq_true, Option.isSome_none, reduceCtorEq, add_zero]
        exact ⟨trivial, trivial, fun h => absurd h (by simp), fun _ => hlt, hpin⟩
    · simp only [ht, Bool.false_eq_true, if_false, Bool.false_and, Option.isSome_none,
        reduceCtorEq, add_zero]
      simp only [Bool.not_eq_true] at ht
      exact ⟨trivial, trivial, fun h => absurd h (by simp), by simp [ht], hpin⟩

theorem earned_append (gameTasks : List GameTask) (log : List Bool) (b : Bool)
    (h : log.length < gameTasks.length) :
    earned gameTasks (log ++ [b])
      = earned gameTasks log + (if b then pointsAt gameTasks log.length else 0) := by
  induction gameTasks generalizing log with
  | nil => simp at h
  | cons task rest ih =>
    cases log with
    | nil => cases b <;> simp [earned, pointsAt]
    | cons x xs =>
      simp only [List.length_cons, Nat.add_lt_add_iff_right] at h
      have hstep : earned (task :: rest) (x :: xs ++ [b])
          = (if x then task.points else 0) + earned rest (xs ++ [b]) := rfl
      have hp : pointsAt (task :: rest) (xs.length + 1) = pointsAt rest xs.length := rfl
      rw [hstep, ih xs h]
      simp only [earned, List.length_cons, hp]
      ring

theorem earned_le_pointsBelow (gameTasks : List GameTask) (log : List Bool)
    (hpoints : ∀ task ∈ gameTasks, 0 ≤ task.points) :
    earned gameTasks log ≤ pointsBelow gameTasks log.length := by
  induction gameTasks generalizing log with
  | nil => cases log <;> simp [earned, pointsBelow]
  | cons task rest ih =>
    cases log with
    | nil => simp [earned, pointsBelow]
    | cons x xs =>
      have hrest := ih xs (fun t ht => hpoints t (List.mem_cons_of_mem _ ht))
      have htask := hpoints task (List.mem_cons_self _ _)
      simp only [earned, pointsBelow, List.length_cons, List.take_succ_cons, List.map_cons,
        List.sum_cons] at hrest ⊢
      have hr : earned rest xs
          ≤ (List.map (fun task => task.points) (List.take xs.length rest)).sum := hrest
      cases x
      · simp only [Bool.false_eq_true, if_false, zero_add]
        omega
      · simp only [if_true]
        omega

/-- The invariant of a scene and the verdicts so far, kept by every event. -/
theorem playFrom_invariant (gameTasks : List GameTask) (events : List GameEvent)
    (s : QuizScene) (log : List Bool)
    (hlen : log.length = s.currentQuestionIndex)
    (hscore : s.score = earned gameTasks log)
    (hidx : s.currentQuestionIndex ≤ gameTasks.length)
    (htimer : s.timerEvent = true → s.currentQuestionIndex < gameTasks.length)
    (hpin : s.pinImage = true → s.pinMarker = true) :
    (log ++ verdictsFrom gameTasks s events).length
      = (events.foldl (sceneAfter gameTasks) s).currentQuestionIndex ∧
    (events.foldl (sceneAfter gameTasks) s).score
      = earned gameTasks (log ++ verdictsFrom gameTasks s events) ∧
    (events.foldl (sceneAfter gameTasks) s).currentQuestionIndex ≤ gameTasks.length ∧
    ((events.foldl (sceneAfter gameTasks) s).timerEvent = true →
      (events.foldl (sceneAfter gameTasks) s).currentQuestionIndex < gameTasks.length) ∧
    ((events.foldl (sceneAfter gameTasks) s).pinImage = true →
      (events.foldl (sceneAfter gameTasks) s).pinMarker = true) := by
  induction events generalizing s log with
  | nil => simpa [verdictsFrom] using ⟨hlen, hscore, hidx, htimer, hpin⟩
  | cons e rest ih =>
    obtain ⟨h1, h2, h3, h4, h5⟩ := sceneAfter_spec gameTasks s e htimer hpin
    simp only [List.foldl_cons, verdictsFrom, ← List.append_assoc]
    cases hv : verdictOf gameTasks s e with
    | none =>
      simp only [hv, Option.isSome_none, Bool.false_eq_true, if_false, add_zero,
        reduceCtorEq] at h1 h2
      simp only [Option.toList_none, List.append_nil]
      exact ih (sceneAfter gameTasks s e) log (by rw [h1]; exact hlen)
        (by rw [h2]; exact hscore) (by rw [h1]; exact hidx) h4 h5
    | some b =>
      have hlt : s.currentQuestionIndex < gameTasks.length := h3 (by simp [hv])
      simp only [hv, Option.isSome_some, if_true, Option.some.injEq] at h1 h2
      simp only [Option.toList_some]
      refine ih (sceneAfter gameTasks s e) (log ++ [b]) ?_ ?_ ?_ h4 h5
      · simp [h1, hlen]
      · rw [h2, earned_append gameTasks log b (by omega), hscore, hlen]
      · rw [h1]; omega

theorem create_invariant (gameTasks : List GameTask) :
    (create gameTasks).currentQuestionIndex = 0 ∧ (create gameTasks).score = 0 ∧
    ((create gameTasks).timerEvent = true →
      (create gameTasks).currentQuestionIndex < gameTasks.length) ∧
    ((create gameTasks).pinImage = true → (create gameTasks).pinMarker = true) := by
  unfold create
  refine ⟨(setupQuestion_spec _ _).1, (setupQuestion_spec _ _).2.1, ?_,
    (setupQuestion_spec _ _).2.2.2⟩
  intro h
  rw [(setupQuestion_spec _ _).1]
  exact (setupQuestion_spec _ _).2.2.1 h

/-- C29, as stated, fails. On the game `blindPin`, whose pin task has no image
and so no marker, one call of `checkPinAnswer` with the right position from the
start of the game leaves the scene at question 0 with a score of 1500, above the
sum 0 of the points of the tasks passed; a second call makes it 3000, above the
1500 points of the whole game. And on the game `oddMatching` the click on a pair
throws in `checkMatchingAnswer` before anything is written, so that this answer
does not move the index. -/
theorem pin_without_marker_counterexample :
    checkMatchingAnswer oddMatching capitalPair (create oddMatching) = create oddMatching ∧
    (create oddMatching).currentQuestionIndex = 0 ∧
    (∀ task ∈ blindPin, 0 ≤ task.points) ∧
    checkPinAnswer blindPin { x := 0, y := 0 } (create blindPin)
      = { currentQuestionIndex := 0, score := 1500, timeLeft := 30, timerEvent := true,
          pinImage := false, pinMarker := false } ∧
    pointsBelow blindPin 0 = 0 ∧
    ¬ ((checkPinAnswer blindPin { x := 0, y := 0 } (create blindPin)).score
        ≤ pointsBelow blindPin
            (checkPinAnswer blindPin { x := 0, y := 0 } (create blindPin)).currentQuestionIndex) ∧
    (checkPinAnswer blindPin { x := 0, y := 0 }
        (checkPinAnswer blindPin { x := 0, y := 0 } (create blindPin))).score = 3000 ∧
    pointsBelow blindPin blindPin.length = 1500 := by
  refine ⟨by decide, by decide, by decide, by decide, by decide, by decide, by decide,
    by decide⟩

/-- C29 (amended). For a list of tasks with non-negative points and every
sequence of events from the start of the game, the events being calls of
`checkAnswer` and of `checkMatchingAnswer`, seconds of the timer, and clicks on
the picture of a pin task, from which alone the scene calls `checkPinAnswer`:
the index of the current question is the number of tasks passed so far and never
beyond the list; the score is the sum of the points of the passed tasks whose
answer the handler found correct, and at most the sum of the points of all
passed tasks; and the next event, whichever it is, moves the index up by exactly
one when it is an answer that the handler completes or the second at which the
time runs out, adding the points of the current task to the score exactly when
the answer is correct, and leaves index and score alone otherwise. -/
theorem quiz_score_invariant (gameTasks : List GameTask)
    (hpoints : ∀ task ∈ gameTasks, 0 ≤ task.points) (events : List GameEvent) :
    (verdicts gameTasks events).length = (play gameTasks events).currentQuestionIndex ∧
    (play gameTasks events).currentQuestionIndex ≤ gameTasks.length ∧
    (play gameTasks events).score = earned gameTasks (verdicts gameTasks events) ∧
    (play gameTasks events).score
      ≤ pointsBelow gameTasks (play gameTasks events).currentQuestionIndex ∧
    (∀ e : GameEvent,
      (sceneAfter gameTasks (play gameTasks events) e).currentQuestionIndex
        = (play gameTasks events).currentQuestionIndex
          + (if (verdictOf gameTasks (play gameTasks events) e).isSome then 1 else 0) ∧
      (sceneAfter gameTasks (play gameTasks events) e).score
        = (play gameTasks events).score
          + (if verdictOf gameTasks (play gameTasks events) e = some true then
               pointsAt gameTasks (play gameTasks events).currentQuestionIndex
             else 0)) := by
  obtain ⟨c1, c2, c3, c4⟩ := create_invariant gameTasks
  obtain ⟨h1, h2, h3, h4, h5⟩ :=
    playFrom_invariant gameTasks events (create gameTasks) [] (by rw [c1]; rfl)
      (by rw [c2]; cases gameTasks <;> rfl) (by rw [c1]; exact Nat.zero_le _) c3 c4
  simp only [List.nil_append] at h1 h2
  refine ⟨h1, h3, h2, ?_, ?_⟩
  · have := earned_le_pointsBelow gameTasks (verdicts gameTasks events) hpoints
    rw [show (play gameTasks events).score = earned gameTasks (verdicts gameTasks events)
      from h2]
    rw [show (play gameTasks events).currentQuestionIndex
      = (verdicts gameTasks events).length from h1.symm]
    exact this
  · intro e
    obtain ⟨s1, s2, -, -, -⟩ := sceneAfter_spec gameTasks (play gameTasks events) e h4 h5
    exact ⟨s1, s2⟩

/-- The game `threeTasks` with the moves `threeMoves`: the first answer is
correct, the time of the second task runs out, the pin on the picture is within
the tolerance; the score is 1000 + 1500 of the 3000 points passed. -/
theorem quiz_score_invariant_witness :
    (∀ task ∈ threeTasks, 0 ≤ task.points) ∧
    play threeTasks threeMoves
      = { currentQuestionIndex := 3, score := 2500, timeLeft := 30, timerEvent := false,
          pinImage := false, pinMarker := true } ∧
    verdicts threeTasks threeMoves = [true, false, true] ∧
    pointsBelow threeTasks 3 = 3000 ∧
    ((verdicts threeTasks threeMoves).length
        = (play threeTasks threeMoves).currentQuestionIndex ∧
      (play threeTasks threeMoves).currentQuestionIndex ≤ threeTasks.length ∧
      (play threeTasks threeMoves).score = earned threeTasks (verdicts threeTasks threeMoves) ∧
      (play threeTasks threeMoves).score
        ≤ pointsBelow threeTasks (play threeTasks threeMoves).currentQuestionIndex ∧
      (∀ e : GameEvent,
        (sceneAfter threeTasks (play threeTasks threeMoves) e).currentQuestionIndex
          = (play threeTasks threeMoves).currentQuestionIndex
            + (if (verdictOf threeTasks (play threeTasks threeMoves) e).isSome then 1 else 0) ∧
        (sceneAfter threeTasks (play threeTasks threeMoves) e).score
          = (play threeTasks threeMoves).score
            + (if verdictOf threeTasks (play threeTasks threeMoves) e = some true then
                 pointsAt threeTasks (play threeTasks threeMoves).currentQuestionIndex
               else 0))) :=
  ⟨by decide, by decide, by decide, by decide,
   quiz_score_invariant threeTasks (by decide) threeMoves⟩

end Aqylal
